import Mathlib

/-!
# ADV7533 DSI-to-HDMI bridge driver: register access and chip control engine

A shallow embedding of `drivers/video/msm/msm_dba/adv7533.c`.

* Bytes (`u8`) and words (`u32`) are natural numbers; every place where the C
  code narrows a value (a `u8` parameter, a `u8` assignment, `u32` arithmetic)
  carries an explicit `% 256` or `% 4294967296`.
* The I2C adapter is an arbitrary deterministic machine `I2cAdapter σ`; the
  driver reaches it only through `i2c_transfer`.
* `World` is everything outside the chip handle: the global `client`
  pointer, the adapter, the history of register transactions, the events
  delivered to the registered clients and the diagnostics printed.
* `msleep` and the `ops_mutex` are not represented: the embedding is
  sequential and untimed.
-/

namespace Adv7533

/-! ## Constants -/

def ENODEV : Int := 19
def EIO : Int := 5
def EINVAL : Int := 22

/-- Largest errno encoded in a pointer (`MAX_ERRNO` of `linux/err.h`). -/
def MAX_ERRNO : Int := 4095

def I2C_ADDR_MAIN : Nat := 0x39
def I2C_ADDR_CEC_DSI : Nat := 0x3C
def I2C_ADDR_MAX : Nat := 0xFF

def MAX_RW_TRIES : Nat := 3

def MAX_OPERAND_SIZE : Nat := 14
def CEC_MSG_SIZE : Nat := MAX_OPERAND_SIZE + 2
def EDID_SEG_SIZE : Nat := 0x100
def ADV7533_CEC_BUF_MAX : Nat := 3

def BIT (n : Nat) : Nat := 1 <<< n

/-- Narrowing conversion to `u8`. -/
def u8 (n : Nat) : Nat := n % 256

/-- Narrowing conversion to `u32`. -/
def u32 (n : Nat) : Nat := n % 4294967296

/-- The `~m` of a `u8 &= ~m` statement, restricted to the byte. -/
def not8 (m : Nat) : Nat := 0xFF ^^^ (m % 256)

/- 0x94 interrupts -/
def HPD_INT_ENABLE : Nat := BIT 7
def MONITOR_SENSE_INT_ENABLE : Nat := BIT 6
def EDID_READY_INT_ENABLE : Nat := BIT 2
def HDCP_AUTHENTICATED : Nat := BIT 1

/- 0x95 interrupts -/
def HDCP_ERROR : Nat := BIT 7
def HDCP_BKSV_FLAG : Nat := BIT 6
def CEC_TX_READY : Nat := BIT 5
def CEC_TX_ARB_LOST : Nat := BIT 4
def CEC_TX_RETRY_TIMEOUT : Nat := BIT 3
def CEC_TX_RX_BUF3_READY : Nat := BIT 2
def CEC_TX_RX_BUF2_READY : Nat := BIT 1
def CEC_TX_RX_BUF1_READY : Nat := BIT 0

def HPD_INTERRUPTS : Nat := HPD_INT_ENABLE ||| MONITOR_SENSE_INT_ENABLE
def EDID_INTERRUPTS : Nat := EDID_READY_INT_ENABLE
def HDCP_INTERRUPTS1 : Nat := HDCP_AUTHENTICATED
def HDCP_INTERRUPTS2 : Nat := HDCP_BKSV_FLAG ||| HDCP_ERROR
def CEC_INTERRUPTS : Nat :=
  CEC_TX_READY ||| CEC_TX_ARB_LOST ||| CEC_TX_RETRY_TIMEOUT |||
    CEC_TX_RX_BUF3_READY ||| CEC_TX_RX_BUF2_READY ||| CEC_TX_RX_BUF1_READY

def CFG_HPD_INTERRUPTS : Nat := BIT 0
def CFG_EDID_INTERRUPTS : Nat := BIT 1
def CFG_HDCP_INTERRUPTS : Nat := BIT 2
def CFG_CEC_INTERRUPTS : Nat := BIT 3

/-! ## Data model -/

/-- The `struct adv7533_reg_cfg` triple: address selector, register, value. -/
structure adv7533_reg_cfg where
  i2c_addr : Nat
  reg : Nat
  val : Nat
deriving DecidableEq

/-- The `struct adv7533_cec_msg` receive slot. -/
structure adv7533_cec_msg where
  buf : List Nat
  timestamp : Nat
  pending : Bool
deriving DecidableEq

/-- The fields of `struct adv7533` that the control engine reads or writes. -/
structure adv7533 where
  main_i2c_addr : Nat
  cec_dsi_i2c_addr : Nat
  hdcp_enabled : Bool
  cec_enabled : Bool
  is_power_on : Bool
  edid_buf : List Nat
  cec_msg : Fin 3 → adv7533_cec_msg

/-- Modelled from the spec: `enum msm_dba_callback_event` is declared in
`msm_dba.h`, which is not among the sources; these are the three events the
driver raises (Connect, Disconnect, CEC-message-pending). -/
inductive msm_dba_callback_event where
  | MSM_DBA_CB_HPD_CONNECT
  | MSM_DBA_CB_HPD_DISCONNECT
  | MSM_DBA_CB_CEC_READ_PENDING
deriving DecidableEq

/-- The DDC diagnostics printed by `adv7533_handle_hdcp_intr`. -/
inductive ddc_diag where
  | NO_ERROR
  | BAD_RX_BKSV
  | RI_MISMATCH
  | PJ_MISMATCH
  | I2C_ERROR
  | TIMED_OUT_DS_DONE
  | MAX_CAS_EXC
  | UNKNOWN_ERROR
deriving DecidableEq

/-- One call of `i2c_transfer` as the driver issues it: `rd` is the
two-message transfer of `adv7533_read` (register pointer, then `len` bytes
read back), `wr` the one-message transfer of `adv7533_write_byte`. -/
inductive Xfer where
  | rd (addr reg len : Nat)
  | wr (addr reg val : Nat)
deriving DecidableEq

/-- The adapter behind `i2c_transfer`: from its state and a transfer it
yields its next state, the return value of `i2c_transfer` (number of
messages done, or a negative errno) and the bytes it delivers for a read. -/
abbrev I2cAdapter (σ : Type) := σ → Xfer → σ × Int × List Nat

/-- One register transaction: the transfer and the value `i2c_transfer`
returned at each attempt, in order. -/
structure Txn where
  x : Xfer
  rets : List Int
deriving DecidableEq

/-- Everything outside the chip handle: the global `client` pointer (bound
or NULL), the adapter, and histories kept for the statements and never read
by the driver: the register transactions on the bus, the events broadcast to
the registered clients, the DDC diagnostics printed, and the broadcasts once
more, each with the number of register transactions that were on the bus
before it, which places every broadcast among the bus transactions. -/
structure World (σ : Type) where
  client : Bool
  adapter : σ
  log : List Txn
  events : List msm_dba_callback_event
  diag : List ddc_diag
  notified : List (msm_dba_callback_event × Nat)

/-! ## Transactional register access -/

/-- Storing `len` received bytes at the start of a `u8` buffer. -/
def store (buf data : List Nat) (len : Nat) : List Nat :=
  (List.range len).map (fun i => u8 (data.getD i 0)) ++ buf.drop len

/-- The value of a `u8` local after a read into its address. -/
def byte0 (buf : List Nat) : Nat := buf.headD 0

/-- The loop `do { if (i2c_transfer(...) <done>) goto out; msleep(...); }
while (++i < MAX_RW_TRIES)` shared by `adv7533_read` and
`adv7533_write_byte`; the first argument after the transfer is the number
of iterations left. The result is the adapter state, the return values
seen, and the bytes of the successful attempt if there was one. -/
def i2c_retry {σ : Type} (i2c : I2cAdapter σ) (done : Int → Bool) (x : Xfer) :
    Nat → σ → List Int → σ × List Int × Option (List Nat)
  | 0, s, acc => (s, acc, none)
  | n + 1, s, acc =>
    let r := i2c s x
    if done r.2.1 then (r.1, acc ++ [r.2.1], some r.2.2)
    else i2c_retry i2c done x n r.1 (acc ++ [r.2.1])

/-- Success test of `adv7533_read`: `i2c_transfer(...) == 2`. -/
def rd_done (r : Int) : Bool := r == 2

/-- Success test of `adv7533_write_byte`: `i2c_transfer(...) >= 1`. -/
def wr_done (r : Int) : Bool := decide (1 ≤ r)

/-- The function `adv7533_read`; `buf = none` is the NULL buffer. -/
def adv7533_read {σ : Type} (i2c : I2cAdapter σ) (addr reg : Nat) (buf : Option (List Nat))
    (len : Nat) (w : World σ) : Int × Option (List Nat) × World σ :=
  if !w.client then (- ENODEV, buf, w)
  else
    match buf with
    | none => (- EINVAL, none, w)
    | some b =>
      let x := Xfer.rd (u8 addr) (u8 reg) (u8 len)
      match i2c_retry i2c rd_done x MAX_RW_TRIES w.adapter [] with
      | (s, rets, some data) =>
        (0, some (store b data (u8 len)), { w with adapter := s, log := w.log ++ [⟨x, rets⟩] })
      | (s, rets, none) =>
        (- EIO, some b, { w with adapter := s, log := w.log ++ [⟨x, rets⟩] })

/-- A call `adv7533_read(addr, reg, b, len)` whose buffer is an object of the
caller (never NULL): return value, buffer afterwards, world afterwards. -/
def adv7533_read_into {σ : Type} (i2c : I2cAdapter σ) (addr reg : Nat) (b : List Nat)
    (len : Nat) (w : World σ) : Int × List Nat × World σ :=
  let r := adv7533_read i2c addr reg (some b) len w
  (r.1, r.2.1.getD b, r.2.2)

/-- The function `adv7533_write_byte`. -/
def adv7533_write_byte {σ : Type} (i2c : I2cAdapter σ) (addr reg val : Nat) (w : World σ) :
    Int × World σ :=
  if !w.client then (- ENODEV, w)
  else
    let x := Xfer.wr (u8 addr) (u8 reg) (u8 val)
    match i2c_retry i2c wr_done x MAX_RW_TRIES w.adapter [] with
    | (s, rets, some _) => (0, { w with adapter := s, log := w.log ++ [⟨x, rets⟩] })
    | (s, rets, none) => (- EIO, { w with adapter := s, log := w.log ++ [⟨x, rets⟩] })

/-! ## Sequence application -/

/-- The function `adv7533_write_regs`: the list is `cfg[0 .. size-1]`. -/
def adv7533_write_regs {σ : Type} (i2c : I2cAdapter σ) (pdata : adv7533) :
    List adv7533_reg_cfg → World σ → Int × World σ
  | [], w => (0, w)
  | c :: rest, w =>
    let r : Int × World σ :=
      if c.i2c_addr = I2C_ADDR_MAIN then
        adv7533_write_byte i2c pdata.main_i2c_addr c.reg c.val w
      else if c.i2c_addr = I2C_ADDR_CEC_DSI then
        adv7533_write_byte i2c pdata.cec_dsi_i2c_addr c.reg c.val w
      else (- EINVAL, w)
    if r.1 ≠ 0 then r else adv7533_write_regs i2c pdata rest r.2

/-- A run of consecutive `adv7533_write_byte(addr, reg, val)` statements whose
return values the caller discards. -/
def write_bytes {σ : Type} (i2c : I2cAdapter σ) : List (Nat × Nat × Nat) → World σ → World σ
  | [], w => w
  | (addr, reg, val) :: rest, w => write_bytes i2c rest (adv7533_write_byte i2c addr reg val w).2

/-! ## Static configuration tables -/

/-- The table `adv7533_init_setup`. -/
def adv7533_init_setup : List adv7533_reg_cfg :=
  [⟨I2C_ADDR_MAIN, 0x41, 0x10⟩, ⟨I2C_ADDR_MAIN, 0xd6, 0x48⟩, ⟨I2C_ADDR_CEC_DSI, 0x03, 0x89⟩,
   ⟨I2C_ADDR_MAIN, 0x16, 0x20⟩, ⟨I2C_ADDR_MAIN, 0x9A, 0xE0⟩, ⟨I2C_ADDR_MAIN, 0xBA, 0x70⟩,
   ⟨I2C_ADDR_MAIN, 0xDE, 0x82⟩, ⟨I2C_ADDR_MAIN, 0xE4, 0x40⟩, ⟨I2C_ADDR_MAIN, 0xE5, 0x80⟩,
   ⟨I2C_ADDR_CEC_DSI, 0x15, 0xD0⟩, ⟨I2C_ADDR_CEC_DSI, 0x17, 0xD0⟩, ⟨I2C_ADDR_CEC_DSI, 0x24, 0x20⟩,
   ⟨I2C_ADDR_CEC_DSI, 0x57, 0x11⟩, ⟨I2C_ADDR_MAIN, 0xAF, 0x16⟩, ⟨I2C_ADDR_CEC_DSI, 0x78, 0x03⟩]

/-- The table `adv7533_video_en`. -/
def adv7533_video_en : List adv7533_reg_cfg :=
  [⟨I2C_ADDR_CEC_DSI, 0x27, 0xCB⟩, ⟨I2C_ADDR_CEC_DSI, 0x27, 0x8B⟩, ⟨I2C_ADDR_CEC_DSI, 0x27, 0xCB⟩,
   ⟨I2C_ADDR_MAIN, 0x41, 0x10⟩, ⟨I2C_ADDR_CEC_DSI, 0x03, 0x89⟩, ⟨I2C_ADDR_MAIN, 0x4C, 0x04⟩,
   ⟨I2C_ADDR_MAIN, 0x49, 0x02⟩, ⟨I2C_ADDR_CEC_DSI, 0x05, 0xC8⟩, ⟨I2C_ADDR_MAIN, 0x40, 0x80⟩]

/-! ## Interrupt dispatcher -/

/-- The indeterminate initial values of the `u8` locals that the source
declares without an initialiser and passes by address to `adv7533_read`;
they are what such a local holds when the read fails. -/
structure Indeterminate where
  edid_addr : Nat
  hpd_state : Nat
  ddc_status : Nat
  cec_rx_ready : Nat
  cec_rx_timestamp : Nat
  reg_val : Nat

/-- The function `adv7533_notify_clients`: one broadcast of `event` to the
registered clients. -/
def adv7533_notify_clients {σ : Type} (event : msm_dba_callback_event) (w : World σ) : World σ :=
  { w with events := w.events ++ [event], notified := w.notified ++ [(event, w.log.length)] }

/-- The function `adv7533_read_edid`, called with a valid handle and buffer;
`edid_addr0` is the indeterminate initial value of its local `edid_addr`. -/
def adv7533_read_edid {σ : Type} (i2c : I2cAdapter σ) (size : Nat) (edid_buf : List Nat)
    (edid_addr0 : Nat) (w : World σ) : Nat × List Nat × World σ :=
  let read_size := u32 size / 2
  let r1 := adv7533_read_into i2c I2C_ADDR_MAIN 0x43 [u8 edid_addr0] 1 w
  let edid_addr := byte0 r1.2.1
  let r2 := adv7533_read_into i2c (edid_addr >>> 1) 0x00 edid_buf read_size r1.2.2
  let r3 := adv7533_read_into i2c (edid_addr >>> 1) read_size (r2.2.1.drop read_size)
    read_size r2.2.2
  (0, r2.2.1.take read_size ++ r3.2.1, r3.2.2)

/-- The `switch` of `adv7533_handle_hdcp_intr` over the selected code. -/
def ddc_classify (code : Nat) : ddc_diag :=
  match code with
  | 0 => ddc_diag.NO_ERROR
  | 1 => ddc_diag.BAD_RX_BKSV
  | 2 => ddc_diag.RI_MISMATCH
  | 3 => ddc_diag.PJ_MISMATCH
  | 4 => ddc_diag.I2C_ERROR
  | 5 => ddc_diag.TIMED_OUT_DS_DONE
  | 6 => ddc_diag.MAX_CAS_EXC
  | _ => ddc_diag.UNKNOWN_ERROR

/-- The function `adv7533_handle_hdcp_intr`. The controlling expression of the
switch is `ddc_status & 0xF0 >> 4`, in which `>>` binds tighter than `&`. -/
def adv7533_handle_hdcp_intr {σ : Type} (i2c : I2cAdapter σ) (hdcp_status : Nat)
    (ddc_status0 : Nat) (w : World σ) : World σ :=
  if hdcp_status &&& BIT 7 ≠ 0 then
    let r := adv7533_read_into i2c I2C_ADDR_MAIN 0xC8 [u8 ddc_status0] 1 w
    let ddc_status := byte0 r.2.1
    { r.2.2 with diag := r.2.2.diag ++ [ddc_classify (ddc_status &&& (0xF0 >>> 4))] }
  else w

/-- The function `adv7533_rd_cec_msg`. -/
def adv7533_rd_cec_msg {σ : Type} (i2c : I2cAdapter σ) (cec_buf : List Nat) (msg_num : Nat)
    (w : World σ) : Int × List Nat × World σ :=
  let reg : Nat :=
    if msg_num = 0 then 0x85 else if msg_num = 1 then 0x97 else if msg_num = 2 then 0xA8 else 0
  if reg = 0 then (- EINVAL, cec_buf, w)
  else
    let r := adv7533_read_into i2c I2C_ADDR_CEC_DSI reg cec_buf CEC_MSG_SIZE w
    (- EINVAL, r.2.1, r.2.2)

/-- One `if (cec_rx_ready & BIT(n))` block of `adv7533_handle_cec_intr` for
slot `i`, with `mask` the timestamp bits the block selects. -/
def cec_rx_slot {σ : Type} (i2c : I2cAdapter σ) (i : Fin 3) (mask : Nat)
    (cec_rx_timestamp : Nat) (st : adv7533 × World σ) : adv7533 × World σ :=
  let r := adv7533_rd_cec_msg i2c (st.1.cec_msg i).buf i.val st.2
  let m : adv7533_cec_msg :=
    { buf := r.2.1, timestamp := u8 (cec_rx_timestamp &&& mask), pending := true }
  ({ st.1 with cec_msg := Function.update st.1.cec_msg i m },
    adv7533_notify_clients msm_dba_callback_event.MSM_DBA_CB_CEC_READ_PENDING r.2.2)

/-- The function `adv7533_handle_cec_intr`. -/
def adv7533_handle_cec_intr {σ : Type} (i2c : I2cAdapter σ) (pdata : adv7533)
    (cec_status : Nat) (g : Indeterminate) (w : World σ) : adv7533 × World σ :=
  if cec_status &&& 0x07 ≠ 0 then
    let r0 := adv7533_read_into i2c I2C_ADDR_CEC_DSI 0xBA [0x08] 1 w
    let cec_int_clear := byte0 r0.2.1
    let r1 := adv7533_read_into i2c I2C_ADDR_CEC_DSI 0xB9 [u8 g.cec_rx_ready] 1 r0.2.2
    let cec_rx_ready := byte0 r1.2.1
    let r2 := adv7533_read_into i2c I2C_ADDR_CEC_DSI 0x96 [u8 g.cec_rx_timestamp] 1 r1.2.2
    let cec_rx_timestamp := byte0 r2.2.1
    let st0 : adv7533 × World σ := (pdata, r2.2.2)
    let st1 := if cec_rx_ready &&& BIT 0 ≠ 0 then
      cec_rx_slot i2c 0 (BIT 0 ||| BIT 1) cec_rx_timestamp st0 else st0
    let st2 := if cec_rx_ready &&& BIT 1 ≠ 0 then
      cec_rx_slot i2c 1 (BIT 2 ||| BIT 3) cec_rx_timestamp st1 else st1
    let st3 := if cec_rx_ready &&& BIT 2 ≠ 0 then
      cec_rx_slot i2c 2 (BIT 4 ||| BIT 5) cec_rx_timestamp st2 else st2
    (st3.1, write_bytes i2c
      [(I2C_ADDR_CEC_DSI, 0xBA, cec_int_clear ||| (cec_status &&& 0x07)),
       (I2C_ADDR_CEC_DSI, 0xBA, cec_int_clear &&& not8 0x07)] st3.2)
  else (pdata, w)

/-- The function `adv7533_edid_read_init`. -/
def adv7533_edid_read_init {σ : Type} (i2c : I2cAdapter σ) (w : World σ) : Int × World σ :=
  (- EINVAL, write_bytes i2c [(I2C_ADDR_MAIN, 0x41, 0x10), (I2C_ADDR_MAIN, 0xC9, 0x13)] w)

/-- The function `adv7533_handle_hpd_intr`; the result is the integer the
source wraps with `ERR_PTR`. -/
def adv7533_handle_hpd_intr {σ : Type} (i2c : I2cAdapter σ) (hpd_state0 : Nat) (w : World σ) :
    Int × World σ :=
  let r := adv7533_read_into i2c I2C_ADDR_MAIN 0x42 [u8 hpd_state0] 1 w
  let hpd_state := byte0 r.2.1
  let connected : Bool := (hpd_state &&& BIT 5 != 0) && (hpd_state &&& BIT 6 != 0)
  let disconnected : Bool := (hpd_state &&& (BIT 5 ||| BIT 6)) == 0
  let w1 :=
    if connected then r.2.2
    else if disconnected then
      adv7533_notify_clients msm_dba_callback_event.MSM_DBA_CB_HPD_DISCONNECT r.2.2
    else r.2.2
  (if connected then 1 else 0, w1)

/-- The function `adv7533_enable_interrupts`; `reg_val0` is the indeterminate
initial value of its local `reg_val`. -/
def adv7533_enable_interrupts {σ : Type} (i2c : I2cAdapter σ) (interrupts : Nat)
    (reg_val0 : Nat) (w : World σ) : Int × World σ :=
  let r1 := adv7533_read_into i2c I2C_ADDR_MAIN 0x94 [u8 reg_val0] 1 w
  let init_reg_val := byte0 r1.2.1
  let v1 := if interrupts &&& CFG_HPD_INTERRUPTS ≠ 0 then init_reg_val ||| HPD_INTERRUPTS
    else init_reg_val
  let v2 := if interrupts &&& CFG_EDID_INTERRUPTS ≠ 0 then v1 ||| EDID_INTERRUPTS else v1
  let v3 := if interrupts &&& CFG_HDCP_INTERRUPTS ≠ 0 then v2 ||| HDCP_INTERRUPTS1 else v2
  let w1 := if v3 ≠ init_reg_val then (adv7533_write_byte i2c I2C_ADDR_MAIN 0x94 v3 r1.2.2).2
    else r1.2.2
  let r2 := adv7533_read_into i2c I2C_ADDR_MAIN 0x95 [v3] 1 w1
  let init_reg_val2 := byte0 r2.2.1
  let u1 := if interrupts &&& CFG_HDCP_INTERRUPTS ≠ 0 then init_reg_val2 ||| HDCP_INTERRUPTS2
    else init_reg_val2
  let u2 := if interrupts &&& CFG_CEC_INTERRUPTS ≠ 0 then u1 ||| CEC_INTERRUPTS else u1
  let w2 := if u2 ≠ init_reg_val2 then (adv7533_write_byte i2c I2C_ADDR_MAIN 0x95 u2 r2.2.2).2
    else r2.2.2
  (0, w2)

/-- The function `adv7533_disable_interrupts`. -/
def adv7533_disable_interrupts {σ : Type} (i2c : I2cAdapter σ) (interrupts : Nat)
    (reg_val0 : Nat) (w : World σ) : Int × World σ :=
  let r1 := adv7533_read_into i2c I2C_ADDR_MAIN 0x94 [u8 reg_val0] 1 w
  let init_reg_val := byte0 r1.2.1
  let v1 := if interrupts &&& CFG_HPD_INTERRUPTS ≠ 0 then init_reg_val &&& not8 HPD_INTERRUPTS
    else init_reg_val
  let v2 := if interrupts &&& CFG_EDID_INTERRUPTS ≠ 0 then v1 &&& not8 EDID_INTERRUPTS else v1
  let v3 := if interrupts &&& CFG_HDCP_INTERRUPTS ≠ 0 then v2 &&& not8 HDCP_INTERRUPTS1 else v2
  let w1 := if v3 ≠ init_reg_val then (adv7533_write_byte i2c I2C_ADDR_MAIN 0x94 v3 r1.2.2).2
    else r1.2.2
  let r2 := adv7533_read_into i2c I2C_ADDR_MAIN 0x95 [v3] 1 w1
  let init_reg_val2 := byte0 r2.2.1
  let u1 := if interrupts &&& CFG_HDCP_INTERRUPTS ≠ 0 then init_reg_val2 &&& not8 HDCP_INTERRUPTS2
    else init_reg_val2
  let u2 := if interrupts &&& CFG_CEC_INTERRUPTS ≠ 0 then u1 &&& not8 CEC_INTERRUPTS else u1
  let w2 := if u2 ≠ init_reg_val2 then (adv7533_write_byte i2c I2C_ADDR_MAIN 0x95 u2 r2.2.2).2
    else r2.2.2
  (0, w2)

/-- The kernel test `IS_ERR` on the pointer value `ERR_PTR(v)`. -/
def IS_ERR (v : Int) : Bool := decide (- MAX_ERRNO ≤ v ∧ v < 0)

/-- The interrupt mask that `adv7533_intr_work` and `adv7533_irq` build from
the feature flags. -/
def cfg_interrupts (pdata : adv7533) : Nat :=
  let i1 := 0 ||| CFG_HPD_INTERRUPTS
  let i2 := i1 ||| CFG_EDID_INTERRUPTS
  let i3 := if pdata.hdcp_enabled then i2 ||| CFG_HDCP_INTERRUPTS else i2
  if pdata.cec_enabled then i3 ||| CFG_CEC_INTERRUPTS else i3

/-- The part of `adv7533_intr_work` between the HPD step and the label
`reset`: EDID-ready, HDCP and CEC handling. -/
def intr_work_dispatch {σ : Type} (i2c : I2cAdapter σ) (pdata : adv7533) (int_status : Nat)
    (hdcp_cec_status : Nat) (g : Indeterminate) (w : World σ) : adv7533 × World σ :=
  let st1 : adv7533 × World σ :=
    if int_status &&& BIT 2 ≠ 0 then
      let e := adv7533_read_edid i2c EDID_SEG_SIZE pdata.edid_buf g.edid_addr w
      ({ pdata with edid_buf := e.2.1 },
        adv7533_notify_clients msm_dba_callback_event.MSM_DBA_CB_HPD_CONNECT e.2.2)
    else (pdata, w)
  let w2 := if st1.1.hdcp_enabled then
    adv7533_handle_hdcp_intr i2c hdcp_cec_status g.ddc_status st1.2 else st1.2
  if st1.1.cec_enabled then adv7533_handle_cec_intr i2c st1.1 hdcp_cec_status g w2
  else (st1.1, w2)

/-- The part of `adv7533_intr_work` from the label `reset` to the end. -/
def intr_work_reset {σ : Type} (i2c : I2cAdapter σ) (pdata : adv7533) (int_status : Nat)
    (hdcp_cec_status : Nat) (connected : Int) (g : Indeterminate) (w : World σ) : World σ :=
  let w1 := write_bytes i2c
    [(I2C_ADDR_MAIN, 0x96, int_status), (I2C_ADDR_MAIN, 0x97, hdcp_cec_status)] w
  let e := adv7533_enable_interrupts i2c (cfg_interrupts pdata) g.reg_val w1
  if connected ≠ 0 then (adv7533_edid_read_init i2c e.2).2 else e.2

/-- The function `adv7533_intr_work`, the deferred interrupt handler. -/
def adv7533_intr_work {σ : Type} (i2c : I2cAdapter σ) (pdata : adv7533) (g : Indeterminate)
    (w : World σ) : adv7533 × World σ :=
  let r1 := adv7533_read_into i2c I2C_ADDR_MAIN 0x96 [0xFF] 1 w
  let int_status := byte0 r1.2.1
  let r2 := adv7533_read_into i2c I2C_ADDR_MAIN 0x97 [0xFF] 1 r1.2.2
  let hdcp_cec_status := byte0 r2.2.1
  if int_status &&& (BIT 6 ||| BIT 7) ≠ 0 then
    let h := adv7533_handle_hpd_intr i2c g.hpd_state r2.2.2
    if IS_ERR h.1 then
      (pdata, intr_work_reset i2c pdata int_status hdcp_cec_status 0 g h.2)
    else
      let d := intr_work_dispatch i2c pdata int_status hdcp_cec_status g h.2
      (d.1, intr_work_reset i2c d.1 int_status hdcp_cec_status h.1 g d.2)
  else
    let d := intr_work_dispatch i2c pdata int_status hdcp_cec_status g r2.2.2
    (d.1, intr_work_reset i2c d.1 int_status hdcp_cec_status 0 g d.2)

/-- The function `adv7533_irq`: masks the interrupts; the deferred work it
queues is `adv7533_intr_work`. -/
def adv7533_irq {σ : Type} (i2c : I2cAdapter σ) (pdata : adv7533) (reg_val0 : Nat)
    (w : World σ) : World σ :=
  (adv7533_disable_interrupts i2c (cfg_interrupts pdata) reg_val0 w).2

/-! ## CEC message subsystem -/

/-- The function `adv7533_cec_prepare_msg` for a valid handle; `msg = none`
is the NULL message pointer, `size` a `u32`. -/
def adv7533_cec_prepare_msg {σ : Type} (i2c : I2cAdapter σ) (msg : Option (List Nat))
    (size : Nat) (w : World σ) : Int × World σ :=
  match msg with
  | none => (- EINVAL, w)
  | some m =>
    if u32 size = 0 ∨ u32 size > CEC_MSG_SIZE then (- EINVAL, w)
    else
      let op_sz : Int := (u32 size : Int) - 2
      let w1 := write_bytes i2c
        [(I2C_ADDR_CEC_DSI, 0x70, m.getD 0 0), (I2C_ADDR_CEC_DSI, 0x71, m.getD 1 0)] w
      let n := min op_sz.toNat MAX_OPERAND_SIZE
      let w2 := write_bytes i2c
        ((List.range n).map (fun i => (I2C_ADDR_CEC_DSI, 0x72 + i, m.getD (i + 2) 0))) w1
      (- EINVAL, write_bytes i2c [(I2C_ADDR_CEC_DSI, 0x80, u32 size)] w2)

/-- The function `adv7533_hdmi_cec_write`; `client = none` is a handle for
which `adv7533_get_platform_data` yields NULL. -/
def adv7533_hdmi_cec_write {σ : Type} (i2c : I2cAdapter σ) (client : Option adv7533)
    (size : Nat) (buf : Option (List Nat)) (w : World σ) : Int × World σ :=
  match client with
  | none => (- EINVAL, w)
  | some _ =>
    let r := adv7533_cec_prepare_msg i2c buf size w
    if r.1 ≠ 0 then r
    else (r.1, write_bytes i2c [(I2C_ADDR_CEC_DSI, 0x81, 0x07)] r.2)

/-- Library `memcpy(dst, src, n)` on byte lists. -/
def memcpy (dst src : List Nat) (n : Nat) : List Nat := src.take n ++ dst.drop n

/-- The slot at which the `for` loop of `adv7533_hdmi_cec_read` breaks. -/
def cec_read_slot (pdata : adv7533) : Option (Fin 3) :=
  ([0, 1, 2] : List (Fin 3)).find?
    (fun i => (pdata.cec_msg i).pending && (pdata.cec_msg i).timestamp != 0)

/-- The function `adv7533_hdmi_cec_read`: return value, handle, `*size`,
caller buffer, world. -/
def adv7533_hdmi_cec_read {σ : Type} (client : Option adv7533) (size : Nat) (buf : List Nat)
    (w : World σ) : Int × Option adv7533 × Nat × List Nat × World σ :=
  match client with
  | none => (- EINVAL, none, size, buf, w)
  | some pdata =>
    match cec_read_slot pdata with
    | some i =>
      let msg := pdata.cec_msg i
      (0, some { pdata with cec_msg := Function.update pdata.cec_msg i { msg with pending := false } },
        CEC_MSG_SIZE, memcpy buf msg.buf CEC_MSG_SIZE, w)
    | none => (- EINVAL, some pdata, 0, buf, w)

/-! ## Client-facing operations -/

/-- The function `adv7533_get_edid_size`; `size = none` is the NULL pointer. -/
def adv7533_get_edid_size (client : Option adv7533) (size : Option Nat) : Int × Option Nat :=
  match client with
  | none => (0, size)
  | some _ =>
    match size with
    | none => (- EINVAL, none)
    | some _ => (0, some EDID_SEG_SIZE)

/-- The function `adv7533_get_raw_edid`: return value, handle, caller
buffer, world. -/
def adv7533_get_raw_edid {σ : Type} (client : Option adv7533) (size : Nat)
    (buf : Option (List Nat)) (w : World σ) : Int × Option adv7533 × Option (List Nat) × World σ :=
  match client, buf with
  | some pdata, some b =>
    (0, some pdata, some (memcpy b pdata.edid_buf (min (u32 size) EDID_SEG_SIZE)), w)
  | c, b => (0, c, b, w)

/-- Modelled from the spec: `struct msm_dba_video_cfg` is declared in
`msm_dba.h`, which is not among the sources; these are the fields the driver
reads. The geometry fields and `num_of_input_lanes` are taken as `u32`,
`hdmi_mode` as `bool` and `scaninfo` as `u8`. -/
structure msm_dba_video_cfg where
  h_active : Nat
  h_front_porch : Nat
  h_pulse_width : Nat
  h_back_porch : Nat
  v_active : Nat
  v_front_porch : Nat
  v_pulse_width : Nat
  v_back_porch : Nat
  num_of_input_lanes : Nat
  hdmi_mode : Bool
  scaninfo : Nat

/-- The register pair written for the timing quantity `t` at `reg`, `reg+1`. -/
def timing_pair (reg t : Nat) : List (Nat × Nat × Nat) :=
  [(I2C_ADDR_CEC_DSI, reg, (t &&& 0xFF0) >>> 4), (I2C_ADDR_CEC_DSI, reg + 1, (t &&& 0xF) <<< 4)]

/-- The function `adv7533_video_setup` for a valid handle and config. -/
def adv7533_video_setup {σ : Type} (i2c : I2cAdapter σ) (cfg : msm_dba_video_cfg)
    (w : World σ) : World σ :=
  let h_total := u32 (u32 (u32 (u32 cfg.h_active + u32 cfg.h_front_porch) +
    u32 cfg.h_pulse_width) + u32 cfg.h_back_porch)
  let v_total := u32 (u32 (u32 (u32 cfg.v_active + u32 cfg.v_front_porch) +
    u32 cfg.v_pulse_width) + u32 cfg.v_back_porch)
  let hpw := u32 cfg.h_pulse_width
  let hfp := u32 cfg.h_front_porch
  let hbp := u32 cfg.h_back_porch
  let vpw := u32 cfg.v_pulse_width
  let vfp := u32 cfg.v_front_porch
  let vbp := u32 cfg.v_back_porch
  write_bytes i2c
    (timing_pair 0x28 h_total ++ timing_pair 0x2A hpw ++ timing_pair 0x2C hfp ++
      timing_pair 0x2E hbp ++ timing_pair 0x30 v_total ++ timing_pair 0x32 vpw ++
      timing_pair 0x34 vfp ++ timing_pair 0x36 vbp) w

/-- The controlling expression `cfg->h_active * 3 - cfg->v_active * 4` of the
aspect-ratio test, in `u32` arithmetic. -/
def aspect_expr (cfg : msm_dba_video_cfg) : Nat :=
  u32 (u32 (u32 cfg.h_active * 3) + 4294967296 - u32 (u32 cfg.v_active * 4))

/-- The function `adv7533_video_on`; the parameter `on` (here `_on`) is not
used by the source. -/
def adv7533_video_on {σ : Type} (i2c : I2cAdapter σ) (client : Option adv7533) (_on : Bool)
    (cfg : Option msm_dba_video_cfg) (w : World σ) : Int × World σ :=
  match client, cfg with
  | some pdata, some cfg =>
    let lanes := u8 (u32 cfg.num_of_input_lanes <<< 4)
    let w1 := write_bytes i2c [(I2C_ADDR_CEC_DSI, 0x1C, lanes)] w
    let w2 := adv7533_video_setup i2c cfg w1
    let w3 := if cfg.hdmi_mode then write_bytes i2c [(I2C_ADDR_MAIN, 0xAF, 0x06)] w2 else w2
    let w4 :=
      if u8 cfg.scaninfo ≠ 0 then
        let r := adv7533_read_into i2c I2C_ADDR_MAIN 0x55 [0] 1 w3
        let reg_val := byte0 r.2.1 ||| (u8 cfg.scaninfo &&& (BIT 1 ||| BIT 0))
        write_bytes i2c [(I2C_ADDR_MAIN, 0x55, reg_val)] r.2.2
      else w3
    let w5 :=
      if aspect_expr cfg ≠ 0 then
        write_bytes i2c [(I2C_ADDR_MAIN, 0x17, 0x02), (I2C_ADDR_MAIN, 0x56, 0x28)] w4
      else
        write_bytes i2c [(I2C_ADDR_MAIN, 0x17, 0x00), (I2C_ADDR_MAIN, 0x56, 0x18)] w4
    (- EINVAL, (adv7533_write_regs i2c pdata adv7533_video_en w5).2)
  | _, _ => (- EINVAL, w)

/-- The function `adv7533_power_on`. -/
def adv7533_power_on {σ : Type} (i2c : I2cAdapter σ) (client : Option adv7533) (on_ : Bool)
    (reg_val0 : Nat) (w : World σ) : Int × Option adv7533 × World σ :=
  match client with
  | none => (- EINVAL, none, w)
  | some pdata =>
    if on_ && !pdata.is_power_on then
      let w1 := (adv7533_write_regs i2c pdata adv7533_init_setup w).2
      let e := adv7533_enable_interrupts i2c CFG_HPD_INTERRUPTS reg_val0 w1
      if e.1 ≠ 0 then (e.1, some pdata, e.2)
      else (e.1, some { pdata with is_power_on := true }, e.2)
    else if !on_ then
      let w1 := write_bytes i2c [(I2C_ADDR_MAIN, 0x41, 0x50)] w
      (- EINVAL, some { pdata with is_power_on := false },
        adv7533_notify_clients msm_dba_callback_event.MSM_DBA_CB_HPD_DISCONNECT w1)
    else (- EINVAL, some pdata, w)

/-- The function `adv7533_hdcp_enable`; `reg_val0` is the indeterminate
initial value of its own local `reg_val`, `g.reg_val` that of the callee. -/
def adv7533_hdcp_enable {σ : Type} (i2c : I2cAdapter σ) (client : Option adv7533)
    (hdcp_on enc_on : Bool) (reg_val0 : Nat) (g : Indeterminate) (w : World σ) :
    Int × Option adv7533 × World σ :=
  match client with
  | none => (- EINVAL, none, w)
  | some pdata =>
    let r := adv7533_read_into i2c I2C_ADDR_MAIN 0xAF [u8 reg_val0] 1 w
    let v0 := byte0 r.2.1
    let v1 := if hdcp_on then v0 ||| BIT 7 else v0 &&& not8 (BIT 7)
    let v2 := if enc_on then v1 ||| BIT 4 else v1 &&& not8 (BIT 4)
    let w1 := write_bytes i2c [(I2C_ADDR_MAIN, 0xAF, v2)] r.2.2
    let pdata1 := { pdata with hdcp_enabled := hdcp_on }
    let e := if pdata1.hdcp_enabled then
      adv7533_enable_interrupts i2c CFG_HDCP_INTERRUPTS g.reg_val w1
      else adv7533_disable_interrupts i2c CFG_HDCP_INTERRUPTS g.reg_val w1
    (- EINVAL, some pdata1, e.2)

/-- Modelled from the spec: the audio enumerations and `struct
msm_dba_audio_cfg` are declared in `msm_dba.h`, which is not among the
sources. Each enumeration has the enumerators the driver names; `other`
stands for every other value. -/
inductive msm_dba_audio_copyright_type where
  | MSM_DBA_AUDIO_COPYRIGHT_NOT_PROTECTED
  | other
deriving DecidableEq

inductive msm_dba_audio_pre_emphasis_type where
  | MSM_DBA_AUDIO_PRE_EMPHASIS_50_15us
  | other
deriving DecidableEq

inductive msm_dba_audio_clock_accuracy where
  | MSM_DBA_AUDIO_CLOCK_ACCURACY_LVL1
  | MSM_DBA_AUDIO_CLOCK_ACCURACY_LVL3
  | other
deriving DecidableEq

inductive msm_dba_audio_sampling_rates_type where
  | MSM_DBA_AUDIO_32KHZ
  | MSM_DBA_AUDIO_44P1KHZ
  | MSM_DBA_AUDIO_48KHZ
  | MSM_DBA_AUDIO_88P2KHZ
  | MSM_DBA_AUDIO_96KHZ
  | MSM_DBA_AUDIO_176P4KHZ
  | MSM_DBA_AUDIO_192KHZ
  | other
deriving DecidableEq

inductive msm_dba_audio_mode where
  | MSM_DBA_AUDIO_MODE_MANUAL
  | other
deriving DecidableEq

inductive msm_dba_audio_interface_type where
  | MSM_DBA_AUDIO_I2S_INTERFACE
  | MSM_DBA_AUDIO_SPDIF_INTERFACE
  | other
deriving DecidableEq

inductive msm_dba_audio_word_endian_type where
  | MSM_DBA_AUDIO_WORD_LITTLE_ENDIAN
  | other
deriving DecidableEq

/-- Modelled from the spec: the fields of `struct msm_dba_audio_cfg` (of
`msm_dba.h`) that the driver reads; the numeric fields are taken as `u32`. -/
structure msm_dba_audio_cfg where
  copyright : msm_dba_audio_copyright_type
  pre_emphasis : msm_dba_audio_pre_emphasis_type
  clock_accuracy : msm_dba_audio_clock_accuracy
  channel_status_category_code : Nat
  channel_status_word_length : Nat
  channel_status_source_number : Nat
  sampling_rate : msm_dba_audio_sampling_rates_type
  mode : msm_dba_audio_mode
  interface : msm_dba_audio_interface_type
  i2s_fmt : Nat
  channel_status_source : Nat
  word_endianness : msm_dba_audio_word_endian_type
  channel_status_v_bit : Nat
  n : Nat
  cts : Nat
  channels : Nat
  channel_allocation : Nat

/-- The `if`/`else if` chain of `adv7533_configure_audio` that sets the local
`sampling_rate` (initialised to 0). -/
def sampling_rate_code (r : msm_dba_audio_sampling_rates_type) : Nat :=
  match r with
  | .MSM_DBA_AUDIO_32KHZ => 0x3
  | .MSM_DBA_AUDIO_44P1KHZ => 0x0
  | .MSM_DBA_AUDIO_48KHZ => 0x2
  | .MSM_DBA_AUDIO_88P2KHZ => 0x8
  | .MSM_DBA_AUDIO_96KHZ => 0xA
  | .MSM_DBA_AUDIO_176P4KHZ => 0xC
  | .MSM_DBA_AUDIO_192KHZ => 0xE
  | .other => 0

/-- The local table `reg_cfg` of `adv7533_configure_audio` after the
assignments from `cfg`; every `val` is a `u8`. -/
def audio_reg_cfg (cfg : msm_dba_audio_cfg) : List adv7533_reg_cfg :=
  let r0a := if cfg.copyright = .MSM_DBA_AUDIO_COPYRIGHT_NOT_PROTECTED then 0 ||| BIT 5 else 0
  let r0b := if cfg.pre_emphasis = .MSM_DBA_AUDIO_PRE_EMPHASIS_50_15us then r0a ||| BIT 2 else r0a
  let r0 :=
    if cfg.clock_accuracy = .MSM_DBA_AUDIO_CLOCK_ACCURACY_LVL1 then r0b ||| BIT 0
    else if cfg.clock_accuracy = .MSM_DBA_AUDIO_CLOCK_ACCURACY_LVL3 then r0b ||| BIT 1
    else r0b
  let r1 := u8 cfg.channel_status_category_code
  let r2 := u8 (((cfg.channel_status_word_length &&& 0xF) <<< 0) |||
    ((cfg.channel_status_source_number &&& 0xF) <<< 4))
  let r3 := u8 ((sampling_rate_code cfg.sampling_rate &&& 0xF) <<< 4)
  let r4a := if cfg.mode = .MSM_DBA_AUDIO_MODE_MANUAL then 0 ||| BIT 7 else 0
  let r4 := if cfg.interface = .MSM_DBA_AUDIO_SPDIF_INTERFACE then r4a ||| BIT 4 else r4a
  let r5a := if cfg.interface = .MSM_DBA_AUDIO_I2S_INTERFACE then (0 ||| BIT 2) ||| BIT 7 else 0
  let r5b := u8 (r5a ||| (cfg.i2s_fmt &&& 0x3))
  let r5 := u8 (r5b ||| ((cfg.channel_status_source &&& 0x1) <<< 6))
  let r6a := 0 ||| 0x18
  let r6b := if cfg.word_endianness = .MSM_DBA_AUDIO_WORD_LITTLE_ENDIAN then
    r6a ||| (0x1 <<< 7) else r6a
  let r6 := u8 (r6b ||| ((cfg.channel_status_v_bit &&& 0x1) <<< 5))
  let r7 := u8 (0 ||| ((cfg.n &&& 0x000FF) >>> 0))
  let r8 := u8 (0 ||| ((cfg.n &&& 0x0FF00) >>> 8))
  let r9 := u8 (0 ||| ((cfg.n &&& 0xF0000) >>> 16))
  let r10 := u8 (0 ||| ((cfg.cts &&& 0x000FF) >>> 0))
  let r11 := u8 (0 ||| ((cfg.cts &&& 0x0FF00) >>> 8))
  let r12 := u8 (0 ||| ((cfg.cts &&& 0xF0000) >>> 16))
  let r13 := u8 (0 ||| (cfg.channels &&& 0x3))
  let r14 := u8 cfg.channel_allocation
  [⟨I2C_ADDR_MAIN, 0x12, r0⟩, ⟨I2C_ADDR_MAIN, 0x13, r1⟩, ⟨I2C_ADDR_MAIN, 0x14, r2⟩,
   ⟨I2C_ADDR_MAIN, 0x15, r3⟩, ⟨I2C_ADDR_MAIN, 0x0A, r4⟩, ⟨I2C_ADDR_MAIN, 0x0C, r5⟩,
   ⟨I2C_ADDR_MAIN, 0x0D, r6⟩, ⟨I2C_ADDR_MAIN, 0x03, r7⟩, ⟨I2C_ADDR_MAIN, 0x02, r8⟩,
   ⟨I2C_ADDR_MAIN, 0x01, r9⟩, ⟨I2C_ADDR_MAIN, 0x09, r10⟩, ⟨I2C_ADDR_MAIN, 0x08, r11⟩,
   ⟨I2C_ADDR_MAIN, 0x07, r12⟩, ⟨I2C_ADDR_MAIN, 0x73, r13⟩, ⟨I2C_ADDR_MAIN, 0x76, r14⟩]

/-- The function `adv7533_configure_audio`. -/
def adv7533_configure_audio {σ : Type} (i2c : I2cAdapter σ) (client : Option adv7533)
    (cfg : Option msm_dba_audio_cfg) (w : World σ) : Int × World σ :=
  match client, cfg with
  | some pdata, some cfg => (- EINVAL, (adv7533_write_regs i2c pdata (audio_reg_cfg cfg) w).2)
  | _, _ => (- EINVAL, w)

/-! ## Vocabulary of the statements -/

/-- The transfers of the register transactions in a log, in order. -/
def xfers (log : List Txn) : List Xfer := log.map Txn.x

/-- The success test the driver applies to the return value of a transfer. -/
def xfer_done (x : Xfer) (r : Int) : Bool :=
  match x with
  | Xfer.rd _ _ _ => rd_done r
  | Xfer.wr _ _ _ => wr_done r

/-- An adapter on which every transfer succeeds: a read transfer returns 2,
a write transfer returns at least 1. -/
def FaultFree {σ : Type} (i2c : I2cAdapter σ) : Prop :=
  ∀ s x, xfer_done x (i2c s x).2.1 = true

/-- The return values of `n` successive attempts of the transfer `x` on the
adapter, started in state `s`. -/
def outcomes {σ : Type} (i2c : I2cAdapter σ) (x : Xfer) : Nat → σ → List Int
  | 0, _ => []
  | n + 1, s => (i2c s x).2.1 :: outcomes i2c x n (i2c s x).1

/-- A three-state test adapter: it fails (`-EIO`) as long as its counter is
below `fails`, then succeeds and delivers the byte `0xAB` repeated. -/
def flaky (fails : Nat) : I2cAdapter Nat := fun s x =>
  (s + 1, if s < fails then -5 else (match x with | Xfer.rd _ _ _ => 2 | Xfer.wr _ _ _ => 1),
    match x with | Xfer.rd _ _ len => List.replicate len 0xAB | Xfer.wr _ _ _ => [])

/-- A test adapter that succeeds for its first `good` transfers and fails
(`-EIO`) from then on. -/
def dies_after (good : Nat) : I2cAdapter Nat := fun s x =>
  (s + 1, if s < good then (match x with | Xfer.rd _ _ _ => 2 | Xfer.wr _ _ _ => 1) else -5,
    match x with | Xfer.rd _ _ len => List.replicate len 0xAB | Xfer.wr _ _ _ => [])

/-- A transaction that ended with a successful attempt, after at most
`MAX_RW_TRIES` attempts of which every earlier one failed. -/
def Txn.succeeded (t : Txn) : Bool :=
  decide (t.rets.length ≤ MAX_RW_TRIES) && t.rets.dropLast.all (fun r => !xfer_done t.x r) &&
    (match t.rets.getLast? with
      | some r => xfer_done t.x r
      | none => false)

/-- A transaction that was given up: `MAX_RW_TRIES` attempts, all failed. -/
def Txn.failed (t : Txn) : Bool :=
  decide (t.rets.length = MAX_RW_TRIES) && t.rets.all (fun r => !xfer_done t.x r)

/-- The selector of a table entry names one of the two chip addresses. -/
def valid_sel (c : adv7533_reg_cfg) : Prop :=
  c.i2c_addr = I2C_ADDR_MAIN ∨ c.i2c_addr = I2C_ADDR_CEC_DSI

instance (c : adv7533_reg_cfg) : Decidable (valid_sel c) := by
  unfold valid_sel; infer_instance

/-- The bus address of a table entry with a valid selector: the main
address of the handle for `I2C_ADDR_MAIN`, its CEC/DSI address for
`I2C_ADDR_CEC_DSI`. -/
def sel_addr (pdata : adv7533) (c : adv7533_reg_cfg) : Nat :=
  if c.i2c_addr = I2C_ADDR_MAIN then pdata.main_i2c_addr else pdata.cec_dsi_i2c_addr

/-- The write transfer that a table entry with a valid selector stands for. -/
def reg_xfer (pdata : adv7533) (c : adv7533_reg_cfg) : Xfer :=
  Xfer.wr (u8 (sel_addr pdata c)) (u8 c.reg) (u8 c.val)

/-- A handle with the usual bus addresses, all features off, a zeroed EDID
cache and empty CEC slots. -/
def pdata0 : adv7533 :=
  { main_i2c_addr := 0x39, cec_dsi_i2c_addr := 0x3C, hdcp_enabled := false,
    cec_enabled := false, is_power_on := false, edid_buf := List.replicate 256 0,
    cec_msg := fun _ => { buf := List.replicate 16 0, timestamp := 0, pending := false } }

/-- The write transfer of a statement `adv7533_write_byte(addr, reg, val)`,
whose three parameters are `u8`. -/
def wr_of (e : Nat × Nat × Nat) : Xfer := Xfer.wr (u8 e.1) (u8 e.2.1) (u8 e.2.2)

/-- The register writes of a CEC message `m` of `size` bytes as
`adv7533_cec_prepare_msg` issues them: header, opcode, operands, length. -/
def cec_msg_writes (m : List Nat) (size : Nat) : List Xfer :=
  [Xfer.wr 0x3C 0x70 (u8 (m.getD 0 0)), Xfer.wr 0x3C 0x71 (u8 (m.getD 1 0))] ++
    (List.range (size - 2)).map (fun i => Xfer.wr 0x3C (0x72 + i) (u8 (m.getD (i + 2) 0))) ++
    [Xfer.wr 0x3C 0x80 size]

/-- A list of `n` bytes. -/
def is_bytes (n : Nat) (l : List Nat) : Prop := l.length = n ∧ ∀ b ∈ l, b < 256

instance (n : Nat) (l : List Nat) : Decidable (is_bytes n l) := by
  unfold is_bytes; infer_instance

/-- A test chip on a healthy bus: status register 0x96 reads EDID-ready
(bit 2), the EDID pointer register 0x43 reads 0x7E, and the EDID device at
address 0x3F delivers the bytes 0..127 at offset 0 and 128..255 at offset
128; every other read delivers zeros. -/
def edid_chip : I2cAdapter Nat := fun s x =>
  (s + 1, (match x with | Xfer.rd _ _ _ => 2 | Xfer.wr _ _ _ => 1),
    match x with
    | Xfer.rd addr reg len =>
      if reg = 0x96 ∧ len = 1 then [0x04]
      else if reg = 0x43 ∧ len = 1 then [0x7E]
      else if addr = 0x3F ∧ reg = 0 then List.range 128
      else if addr = 0x3F ∧ reg = 128 then (List.range 128).map (fun i => i + 128)
      else List.replicate len 0
    | Xfer.wr _ _ _ => [])

/-- The two transfers that carry the timing quantity `t` to the register
pair `reg`, `reg + 1` of the CEC/DSI address: bits 11..4 as a byte, then
bits 3..0 in the top nibble of the next byte. -/
def timing_xfers (reg t : Nat) : List Xfer :=
  [Xfer.wr 0x3C reg ((t &&& 0xFF0) >>> 4), Xfer.wr 0x3C (reg + 1) ((t &&& 0xF) <<< 4)]

/-- The sixteen timing transfers of `adv7533_video_setup`. -/
def video_setup_xfers (cfg : msm_dba_video_cfg) : List Xfer :=
  timing_xfers 0x28 (cfg.h_active + cfg.h_front_porch + cfg.h_pulse_width + cfg.h_back_porch) ++
    timing_xfers 0x2A cfg.h_pulse_width ++ timing_xfers 0x2C cfg.h_front_porch ++
    timing_xfers 0x2E cfg.h_back_porch ++
    timing_xfers 0x30 (cfg.v_active + cfg.v_front_porch + cfg.v_pulse_width + cfg.v_back_porch) ++
    timing_xfers 0x32 cfg.v_pulse_width ++ timing_xfers 0x34 cfg.v_front_porch ++
    timing_xfers 0x36 cfg.v_back_porch

/-- The 16:9 register profile of `adv7533_video_on`. -/
def profile_16_9 : List Xfer := [Xfer.wr 0x39 0x17 0x02, Xfer.wr 0x39 0x56 0x28]

/-- The 4:3 register profile of `adv7533_video_on`. -/
def profile_4_3 : List Xfer := [Xfer.wr 0x39 0x17 0x00, Xfer.wr 0x39 0x56 0x18]

/-- A 4:3 timing (640x480). -/
def cfg_vga : msm_dba_video_cfg :=
  { h_active := 640, h_front_porch := 16, h_pulse_width := 96, h_back_porch := 48,
    v_active := 480, v_front_porch := 10, v_pulse_width := 2, v_back_porch := 33,
    num_of_input_lanes := 2, hdmi_mode := false, scaninfo := 0 }

/-- The 1080p timing of the spec example. -/
def cfg_1080p : msm_dba_video_cfg :=
  { h_active := 1920, h_front_porch := 88, h_pulse_width := 44, h_back_porch := 148,
    v_active := 1080, v_front_porch := 4, v_pulse_width := 5, v_back_porch := 36,
    num_of_input_lanes := 4, hdmi_mode := true, scaninfo := 0 }

/-- Zero for every uninitialised local. -/
def g0 : Indeterminate :=
  { edid_addr := 0, hpd_state := 0, ddc_status := 0, cec_rx_ready := 0,
    cec_rx_timestamp := 0, reg_val := 0 }

/-- A slot that `adv7533_hdmi_cec_read` may hand out: pending, with a
non-zero timestamp. -/
def cec_slot_ready (pdata : adv7533) (i : Fin 3) : Prop :=
  (pdata.cec_msg i).pending = true ∧ (pdata.cec_msg i).timestamp ≠ 0

instance (pdata : adv7533) (i : Fin 3) : Decidable (cec_slot_ready pdata i) := by
  unfold cec_slot_ready; infer_instance

/-- A handle whose slot 0 is pending with a zero timestamp, slot 1 is
pending with timestamp 4 and slot 2 is pending with timestamp 16. -/
def pdata_cec : adv7533 :=
  { pdata0 with cec_msg := fun i =>
      if i = 0 then { buf := List.replicate 16 0xA0, timestamp := 0, pending := true }
      else if i = 1 then { buf := List.range 16, timestamp := 4, pending := true }
      else { buf := List.replicate 16 0xA2, timestamp := 16, pending := true } }

/-- A world with the I2C client bound, a fresh adapter counter and empty
histories. -/
def world0 : World Nat :=
  { client := true, adapter := 0, log := [], events := [], diag := [], notified := [] }

/-- `Step w w' l ev`: from the world `w` to the world `w'` the client
binding is kept, the bus saw the transfers `l`, in this order, and the
registered clients were sent the events `ev`, in this order. -/
def Step {σ : Type} (w w' : World σ) (l : List Xfer) (ev : List msm_dba_callback_event) :
    Prop :=
  w'.client = w.client ∧ xfers w'.log = xfers w.log ++ l ∧ w'.events = w.events ++ ev

/-- The transfers of a read-modify-write of the interrupt-enable registers
0x94 and 0x95 of the main address: each register is read (`r94`, `r95`) and
written with its new value (`v94`, `v95`) only if that differs from what was
read. -/
def mask_xfers (r94 v94 r95 v95 : Nat) : List Xfer :=
  [Xfer.rd 0x39 0x94 1] ++ (if v94 ≠ r94 then [Xfer.wr 0x39 0x94 v94] else []) ++
    [Xfer.rd 0x39 0x95 1] ++ (if v95 ≠ r95 then [Xfer.wr 0x39 0x95 v95] else [])

/-- The new value of register 0x94 that `adv7533_enable_interrupts` forms
from the value `v` it read. -/
def en94 (interrupts v : Nat) : Nat :=
  let v1 := if interrupts &&& CFG_HPD_INTERRUPTS ≠ 0 then v ||| HPD_INTERRUPTS else v
  let v2 := if interrupts &&& CFG_EDID_INTERRUPTS ≠ 0 then v1 ||| EDID_INTERRUPTS else v1
  if interrupts &&& CFG_HDCP_INTERRUPTS ≠ 0 then v2 ||| HDCP_INTERRUPTS1 else v2

/-- The new value of register 0x95 that `adv7533_enable_interrupts` forms
from the value `v` it read. -/
def en95 (interrupts v : Nat) : Nat :=
  let u1 := if interrupts &&& CFG_HDCP_INTERRUPTS ≠ 0 then v ||| HDCP_INTERRUPTS2 else v
  if interrupts &&& CFG_CEC_INTERRUPTS ≠ 0 then u1 ||| CEC_INTERRUPTS else u1

/-- The new value of register 0x94 that `adv7533_disable_interrupts` forms
from the value `v` it read. -/
def dis94 (interrupts v : Nat) : Nat :=
  let v1 := if interrupts &&& CFG_HPD_INTERRUPTS ≠ 0 then v &&& not8 HPD_INTERRUPTS else v
  let v2 := if interrupts &&& CFG_EDID_INTERRUPTS ≠ 0 then v1 &&& not8 EDID_INTERRUPTS else v1
  if interrupts &&& CFG_HDCP_INTERRUPTS ≠ 0 then v2 &&& not8 HDCP_INTERRUPTS1 else v2

/-- The new value of register 0x95 that `adv7533_disable_interrupts` forms
from the value `v` it read. -/
def dis95 (interrupts v : Nat) : Nat :=
  let u1 := if interrupts &&& CFG_HDCP_INTERRUPTS ≠ 0 then v &&& not8 HDCP_INTERRUPTS2 else v
  if interrupts &&& CFG_CEC_INTERRUPTS ≠ 0 then u1 &&& not8 CEC_INTERRUPTS else u1

/-- The two writes of `adv7533_edid_read_init`. -/
def edid_init_xfers : List Xfer := [Xfer.wr 0x39 0x41 0x10, Xfer.wr 0x39 0xC9 0x13]

/-- A handle with HDCP and CEC tracking enabled. -/
def pdata_all : adv7533 := { pdata0 with hdcp_enabled := true, cec_enabled := true }

/-- The register contents of the re-arm example: 0x94 holds the HPD and
EDID enable bits only (0xC4), everything else reads zero. -/
def regs_hpd_edid (addr reg : Nat) : Nat := if addr = 0x39 ∧ reg = 0x94 then 0xC4 else 0

/-- A handle that is already powered on. -/
def pdata_on : adv7533 := { pdata0 with is_power_on := true }

/-- The value `adv7533_hdcp_enable` writes back to control register 0xAF
when it read `r`. -/
def hdcp_af (r : Nat) (hdcp_on enc_on : Bool) : Nat :=
  let v1 := if hdcp_on then r ||| BIT 7 else r &&& not8 (BIT 7)
  if enc_on then v1 ||| BIT 4 else v1 &&& not8 (BIT 4)

/-- Register contents for the HDCP example: control register 0xAF holds
0x16, the enable registers hold 0xC4 and 0x00. -/
def regs_hdcp (addr reg : Nat) : Nat :=
  if addr = 0x39 ∧ reg = 0xAF then 0x16 else if addr = 0x39 ∧ reg = 0x94 then 0xC4 else 0

/-- A two-channel 48 kHz LPCM configuration over I2S with N = 6144 and
CTS = 74250. -/
def audio_48k : msm_dba_audio_cfg :=
  { copyright := .MSM_DBA_AUDIO_COPYRIGHT_NOT_PROTECTED,
    pre_emphasis := .other,
    clock_accuracy := .MSM_DBA_AUDIO_CLOCK_ACCURACY_LVL1,
    channel_status_category_code := 0,
    channel_status_word_length := 2,
    channel_status_source_number := 0,
    sampling_rate := .MSM_DBA_AUDIO_48KHZ,
    mode := .other,
    interface := .MSM_DBA_AUDIO_I2S_INTERFACE,
    i2s_fmt := 0,
    channel_status_source := 0,
    word_endianness := .other,
    channel_status_v_bit := 0,
    n := 6144,
    cts := 74250,
    channels := 1,
    channel_allocation := 0 }

/-- A write transfer to the main address of the chip. -/
def is_main_write (x : Xfer) : Bool :=
  match x with
  | Xfer.wr addr _ _ => addr == 0x39
  | Xfer.rd _ _ _ => false

/-- The three transfers of the segmented EDID read from the device at bus
address `a`. -/
def edid_xfers (a : Nat) : List Xfer :=
  [Xfer.rd 0x39 0x43 1, Xfer.rd a 0 128, Xfer.rd a 128 128]

/-- The events of the HPD step when the HPD state register reads `h`. -/
def hpd_events (h : Nat) : List msm_dba_callback_event :=
  if (h &&& BIT 5 != 0) && (h &&& BIT 6 != 0) then []
  else if (h &&& (BIT 5 ||| BIT 6)) == 0 then [msm_dba_callback_event.MSM_DBA_CB_HPD_DISCONNECT]
  else []

/-- The register of the CEC map that holds the received message of slot
`i`, as `adv7533_rd_cec_msg` selects it. -/
def cec_slot_reg (i : Fin 3) : Nat :=
  if i.val = 0 then 0x85 else if i.val = 1 then 0x97 else 0xA8

/-- The bits of the shared timestamp register that the block of slot `i` in
`adv7533_handle_cec_intr` keeps. -/
def cec_slot_mask (i : Fin 3) : Nat :=
  if i.val = 0 then BIT 0 ||| BIT 1 else if i.val = 1 then BIT 2 ||| BIT 3 else BIT 4 ||| BIT 5

/-- The message reads of a CEC receive interrupt whose receive-ready register
reads `ready`. -/
def cec_rx_xfers (ready : Nat) : List Xfer :=
  (if ready &&& BIT 0 ≠ 0 then [Xfer.rd 0x3C 0x85 16] else []) ++
    (if ready &&& BIT 1 ≠ 0 then [Xfer.rd 0x3C 0x97 16] else []) ++
    (if ready &&& BIT 2 ≠ 0 then [Xfer.rd 0x3C 0xA8 16] else [])

/-- One CEC-message-pending event per ready slot. -/
def cec_rx_events (ready : Nat) : List msm_dba_callback_event :=
  (if ready &&& BIT 0 ≠ 0 then [msm_dba_callback_event.MSM_DBA_CB_CEC_READ_PENDING] else []) ++
    (if ready &&& BIT 1 ≠ 0 then [msm_dba_callback_event.MSM_DBA_CB_CEC_READ_PENDING] else []) ++
    (if ready &&& BIT 2 ≠ 0 then [msm_dba_callback_event.MSM_DBA_CB_CEC_READ_PENDING] else [])

/-- The transfers of a CEC receive interrupt: interrupt-clear, receive-ready
and timestamp registers, the ready messages, then the two writes of the
interrupt-clear register. -/
def cec_intr_xfers (st clr ready : Nat) : List Xfer :=
  [Xfer.rd 0x3C 0xBA 1, Xfer.rd 0x3C 0xB9 1, Xfer.rd 0x3C 0x96 1] ++ cec_rx_xfers ready ++
    [Xfer.wr 0x3C 0xBA (u8 (clr ||| (st &&& 0x07))), Xfer.wr 0x3C 0xBA (u8 (clr &&& not8 0x07))]

/-- Registers of a chip whose CEC slot 1 alone is ready (0xB9 reads 0x02),
whose timestamp register 0x96 of the CEC map reads 0x0C, and whose message
registers from 0x97 on read 1, 2, 3, ...; every other register reads 0. -/
def regs_cec (addr reg : Nat) : Nat :=
  if addr = 0x3C ∧ reg = 0xB9 then 0x02
  else if addr = 0x3C ∧ reg = 0x96 then 0x0C
  else if addr = 0x3C ∧ 0x97 ≤ reg ∧ reg < 0xA7 then reg - 0x96
  else 0

/-- What `const_chip regs_cec` delivers for the 16-byte read of slot `i`. -/
def msgs_cec (i : Fin 3) : List Nat :=
  (List.range 16).map (fun k => regs_cec 0x3C (cec_slot_reg i + k))

/-- Registers of a chip whose DDC status register 0xC8 reads `v`; every
other register reads 0. -/
def regs_ddc (v : Nat) (addr reg : Nat) : Nat := if addr = 0x39 ∧ reg = 0xC8 then v else 0

/-- The HDCP and CEC steps of `adv7533_intr_work`, which follow the EDID-ready
step, for the handle `p` as that step left it. -/
def hdcp_cec_steps {σ : Type} (i2c : I2cAdapter σ) (p : adv7533) (hdcp_cec_status : Nat)
    (g : Indeterminate) (w : World σ) : adv7533 × World σ :=
  let w2 := if p.hdcp_enabled then
    adv7533_handle_hdcp_intr i2c hdcp_cec_status g.ddc_status w else w
  if p.cec_enabled then adv7533_handle_cec_intr i2c p hdcp_cec_status g w2 else (p, w2)

/-- Registers of a chip that reports a hot-plug interrupt with the sink
connected: status register 0x96 reads 0xC0, HPD state register 0x42 reads
0x60; every other register reads 0. -/
def regs_conn (addr reg : Nat) : Nat :=
  if addr = 0x39 ∧ reg = 0x96 then 0xC0 else if addr = 0x39 ∧ reg = 0x42 then 0x60 else 0

/-- The three branches of the `if` / `else if` / `else` of
`adv7533_handle_hpd_intr` ("Rx CONNECTED", "Rx DISCONNECTED", "HPD
Intermediate state"). -/
inductive HotPlugState where
  | connected
  | disconnected
  | intermediate
deriving DecidableEq

/-- The branch `adv7533_handle_hpd_intr` takes when its local `hpd_state`
holds `hpd_state`: the flags `connected` and `disconnected` of the source and
the order in which they are tested. -/
def hot_plug_state (hpd_state : Nat) : HotPlugState :=
  let connected : Bool := (hpd_state &&& BIT 5 != 0) && (hpd_state &&& BIT 6 != 0)
  let disconnected : Bool := (hpd_state &&& (BIT 5 ||| BIT 6)) == 0
  if connected then HotPlugState.connected
  else if disconnected then HotPlugState.disconnected
  else HotPlugState.intermediate

/-- Registers of a chip that reports the sink unplugged: HPD state register
0x42 reads 0x00, as every other register. -/
def regs_unplugged (_addr _reg : Nat) : Nat := 0

/-- Registers of a chip that reports one of the two HPD state bits only:
HPD state register 0x42 reads 0x40; every other register reads 0. -/
def regs_half (addr reg : Nat) : Nat := if addr = 0x39 ∧ reg = 0x42 then 0x40 else 0

/-- The indices at which `adv7533_cec_prepare_msg` reads `msg` for an
accepted `size`, in order: `msg[0]`, `msg[1]`, then `msg[i + 2]` in each
iteration of the loop `for (i = 0; i < op_sz && i < MAX_OPERAND_SIZE; i++)`
with `op_sz = size - 2`. -/
def cec_msg_reads (size : Nat) : List Nat :=
  [0, 1] ++
    (List.range (min ((u32 size : Int) - 2).toNat MAX_OPERAND_SIZE)).map (fun i => i + 2)

/-- Registers of a chip whose CEC slot 0 alone is ready (0xB9 reads 0x01)
and whose timestamp register reads 0, as every other register. -/
def regs_cec_ts0 (addr reg : Nat) : Nat := if addr = 0x3C ∧ reg = 0xB9 then 0x01 else 0

/-- `Notes w w' n`: from the world `w` to the world `w'` the broadcasts `n`
were made, in this order, each recorded with the number of register
transactions that were on the bus before it. -/
def Notes {σ : Type} (w w' : World σ) (n : List (msm_dba_callback_event × Nat)) : Prop :=
  w'.notified = w.notified ++ n ∧ w'.events = w.events ++ n.map Prod.fst

/-- The attempts of one register transaction when the adapter would answer
`o` to successive attempts: up to and including the first answer that
passes the success test, all of `o` if none does. -/
def attempts (done : Int → Bool) : List Int → List Int
  | [] => []
  | r :: rest => if done r then [r] else r :: attempts done rest

/-- A test chip on a healthy bus whose registers read as the function `f` of
bus address and register says, whatever was written before; a read of more
than one byte delivers `f addr reg`, `f addr (reg + 1)`, and so on. -/
def const_chip (f : Nat → Nat → Nat) : I2cAdapter Nat := fun s x =>
  (s + 1, (match x with | Xfer.rd _ _ _ => 2 | Xfer.wr _ _ _ => 1),
    match x with
    | Xfer.rd addr reg len => (List.range len).map (fun i => f addr (reg + i))
    | Xfer.wr _ _ _ => [])

/-! ## Transactional register access: retry policy -/

theorem i2c_retry_three {σ : Type} (i2c : I2cAdapter σ) (done : Int → Bool) (x : Xfer) (s : σ) :
    i2c_retry i2c done x 3 s [] =
      if done (i2c s x).2.1 then ((i2c s x).1, [(i2c s x).2.1], some (i2c s x).2.2)
      else if done (i2c (i2c s x).1 x).2.1 then
        ((i2c (i2c s x).1 x).1, [(i2c s x).2.1, (i2c (i2c s x).1 x).2.1],
          some (i2c (i2c s x).1 x).2.2)
      else if done (i2c (i2c (i2c s x).1 x).1 x).2.1 then
        ((i2c (i2c (i2c s x).1 x).1 x).1,
          [(i2c s x).2.1, (i2c (i2c s x).1 x).2.1, (i2c (i2c (i2c s x).1 x).1 x).2.1],
          some (i2c (i2c (i2c s x).1 x).1 x).2.2)
      else
        ((i2c (i2c (i2c s x).1 x).1 x).1,
          [(i2c s x).2.1, (i2c (i2c s x).1 x).2.1, (i2c (i2c (i2c s x).1 x).1 x).2.1], none) := by
  simp only [i2c_retry]
  split_ifs <;> simp

/-- C2: with the client bound (and a buffer given), `adv7533_write_byte` and
`adv7533_read` perform one register transaction of at most 3 attempts of one
and the same transfer (a read of `len` bytes is a single `rd` transfer per
attempt). Whatever the adapter would answer to three successive attempts,
the attempts made are these answers up to and including the first success,
all three if none succeeds: a failed first or second attempt is always
followed by another attempt and no attempt follows a success. The result is
0 if one of the three answers is a success and `-EIO` otherwise, and no
other value; so it is 0 exactly when the last attempt made succeeded and
`-EIO` exactly when all of 3 attempts failed, two failures followed by a
success give 0 after three attempts, and a failed read leaves the buffer as
it was. -/
theorem adv7533_retry_policy {σ : Type} (i2c : I2cAdapter σ) (addr reg val len : Nat)
    (b : List Nat) (w : World σ) (hc : w.client = true) :
    (∃ rets : List Int,
      (adv7533_write_byte i2c addr reg val w).2.log
        = w.log ++ [⟨Xfer.wr (u8 addr) (u8 reg) (u8 val), rets⟩] ∧
      rets <+: outcomes i2c (Xfer.wr (u8 addr) (u8 reg) (u8 val)) 3 w.adapter ∧
      1 ≤ rets.length ∧ rets.length ≤ 3 ∧
      (∀ r ∈ rets.dropLast, wr_done r = false) ∧
      ((adv7533_write_byte i2c addr reg val w).1 = 0 ↔
        ∃ r, rets.getLast? = some r ∧ wr_done r = true) ∧
      ((adv7533_write_byte i2c addr reg val w).1 = - EIO ↔
        rets.length = 3 ∧ ∀ r ∈ rets, wr_done r = false) ∧
      rets = attempts wr_done
        (outcomes i2c (Xfer.wr (u8 addr) (u8 reg) (u8 val)) 3 w.adapter) ∧
      (adv7533_write_byte i2c addr reg val w).1 =
        (if (outcomes i2c (Xfer.wr (u8 addr) (u8 reg) (u8 val)) 3 w.adapter).any wr_done
          then 0 else - EIO) ∧
      (∀ o1 o2 o3 : Int,
        outcomes i2c (Xfer.wr (u8 addr) (u8 reg) (u8 val)) 3 w.adapter = [o1, o2, o3] →
        wr_done o1 = false → wr_done o2 = false → wr_done o3 = true →
        rets = [o1, o2, o3] ∧ (adv7533_write_byte i2c addr reg val w).1 = 0)) ∧
    (∃ rets : List Int,
      (adv7533_read i2c addr reg (some b) len w).2.2.log
        = w.log ++ [⟨Xfer.rd (u8 addr) (u8 reg) (u8 len), rets⟩] ∧
      rets <+: outcomes i2c (Xfer.rd (u8 addr) (u8 reg) (u8 len)) 3 w.adapter ∧
      1 ≤ rets.length ∧ rets.length ≤ 3 ∧
      (∀ r ∈ rets.dropLast, rd_done r = false) ∧
      ((adv7533_read i2c addr reg (some b) len w).1 = 0 ↔
        ∃ r, rets.getLast? = some r ∧ rd_done r = true) ∧
      ((adv7533_read i2c addr reg (some b) len w).1 = - EIO ↔
        rets.length = 3 ∧ ∀ r ∈ rets, rd_done r = false) ∧
      ((adv7533_read i2c addr reg (some b) len w).1 = - EIO →
        (adv7533_read i2c addr reg (some b) len w).2.1 = some b) ∧
      rets = attempts rd_done
        (outcomes i2c (Xfer.rd (u8 addr) (u8 reg) (u8 len)) 3 w.adapter) ∧
      (adv7533_read i2c addr reg (some b) len w).1 =
        (if (outcomes i2c (Xfer.rd (u8 addr) (u8 reg) (u8 len)) 3 w.adapter).any rd_done
          then 0 else - EIO) ∧
      (∀ o1 o2 o3 : Int,
        outcomes i2c (Xfer.rd (u8 addr) (u8 reg) (u8 len)) 3 w.adapter = [o1, o2, o3] →
        rd_done o1 = false → rd_done o2 = false → rd_done o3 = true →
        rets = [o1, o2, o3] ∧ (adv7533_read i2c addr reg (some b) len w).1 = 0)) := by
  constructor
  · simp only [adv7533_write_byte, hc, MAX_RW_TRIES, i2c_retry_three, Bool.not_true,
      Bool.false_eq_true, if_false]
    split_ifs with h1 h2 h3 <;>
      refine ⟨_, rfl, ?_⟩ <;>
      simp_all [outcomes, attempts, EIO, List.prefix_iff_eq_take]
  · simp only [adv7533_read, hc, MAX_RW_TRIES, i2c_retry_three, Bool.not_true,
      Bool.false_eq_true, if_false]
    split_ifs with h1 h2 h3 <;>
      refine ⟨_, rfl, ?_⟩ <;>
      simp_all [outcomes, attempts, EIO, List.prefix_iff_eq_take]

/-- Witness for C2 on the test adapter: two failed attempts followed by a
success give 0, three failed attempts give `-EIO`, each as one transaction of
three attempts of the same transfer. -/
theorem adv7533_retry_policy_witness :
    world0.client = true ∧
    (∃ rets : List Int,
      (adv7533_read (flaky 2) 0x39 0x96 (some [0]) 1 world0).2.2.log
        = world0.log ++ [⟨Xfer.rd (u8 0x39) (u8 0x96) (u8 1), rets⟩] ∧ rets.length ≤ 3) ∧
    adv7533_read (flaky 2) 0x39 0x96 (some [0]) 1 world0
      = (0, some [0xAB], { world0 with adapter := 3, log := [⟨Xfer.rd 0x39 0x96 1, [-5, -5, 2]⟩] }) ∧
    adv7533_read (flaky 3) 0x39 0x96 (some [0]) 1 world0
      = (-5, some [0], { world0 with adapter := 3, log := [⟨Xfer.rd 0x39 0x96 1, [-5, -5, -5]⟩] }) ∧
    adv7533_write_byte (flaky 2) 0x39 0x96 0x04 world0
      = (0, { world0 with adapter := 3, log := [⟨Xfer.wr 0x39 0x96 0x04, [-5, -5, 1]⟩] }) ∧
    adv7533_write_byte (flaky 3) 0x39 0x96 0x04 world0
      = (-5, { world0 with adapter := 3, log := [⟨Xfer.wr 0x39 0x96 0x04, [-5, -5, -5]⟩] }) :=
  ⟨rfl,
    (let ⟨rets, h1, _, _, h3, _⟩ := (adv7533_retry_policy (flaky 2) 0x39 0x96 0 1 [0] world0 rfl).2
     ⟨rets, h1, h3⟩),
    rfl, rfl, rfl, rfl⟩

/-- With the client bound, `adv7533_write_byte` appends exactly one
transaction, which either succeeded (result 0) or was given up (result
`-EIO`), and touches nothing else of the world but the adapter. -/
theorem adv7533_write_byte_spec {σ : Type} (i2c : I2cAdapter σ) (addr reg val : Nat)
    (w : World σ) (hc : w.client = true) :
    ∃ t : Txn, t.x = Xfer.wr (u8 addr) (u8 reg) (u8 val) ∧
      (adv7533_write_byte i2c addr reg val w).2.log = w.log ++ [t] ∧
      (adv7533_write_byte i2c addr reg val w).2.client = true ∧
      (adv7533_write_byte i2c addr reg val w).2.events = w.events ∧
      (adv7533_write_byte i2c addr reg val w).2.diag = w.diag ∧
      (((adv7533_write_byte i2c addr reg val w).1 = 0 ∧ t.succeeded = true) ∨
       ((adv7533_write_byte i2c addr reg val w).1 = - EIO ∧ t.failed = true)) := by
  simp only [adv7533_write_byte, hc, MAX_RW_TRIES, i2c_retry_three, Bool.not_true,
    Bool.false_eq_true, if_false]
  split_ifs with h1 h2 h3 <;>
    refine ⟨⟨_, _⟩, rfl, rfl, ?_⟩ <;>
    simp_all [Txn.succeeded, Txn.failed, xfer_done, MAX_RW_TRIES, EIO]

/-- With the client bound, a run of `adv7533_write_byte` statements issues
one transaction per statement, in order, whatever the adapter answers. -/
theorem write_bytes_spec {σ : Type} (i2c : I2cAdapter σ) (l : List (Nat × Nat × Nat))
    (w : World σ) (hc : w.client = true) :
    (write_bytes i2c l w).client = true ∧
    xfers (write_bytes i2c l w).log = xfers w.log ++ l.map wr_of ∧
    (write_bytes i2c l w).events = w.events ∧
    (write_bytes i2c l w).diag = w.diag := by
  induction l generalizing w with
  | nil => simp [write_bytes, hc]
  | cons e rest ih =>
    obtain ⟨a, r, v⟩ := e
    obtain ⟨t, hx, hlog, hcl, hev, hdg, -⟩ := adv7533_write_byte_spec i2c a r v w hc
    obtain ⟨h1, h2, h3, h4⟩ := ih (adv7533_write_byte i2c a r v w).2 hcl
    refine ⟨h1, ?_, ?_, ?_⟩
    · simp only [write_bytes]
      rw [h2, hlog]
      simp [xfers, hx, wr_of]
    · simp only [write_bytes]; rw [h3, hev]
    · simp only [write_bytes]; rw [h4, hdg]

/-- Without the client nothing reaches the bus. -/
theorem write_bytes_no_client {σ : Type} (i2c : I2cAdapter σ) (l : List (Nat × Nat × Nat))
    (w : World σ) (hc : w.client = false) : write_bytes i2c l w = w := by
  induction l with
  | nil => rfl
  | cons e rest ih =>
    obtain ⟨a, r, v⟩ := e
    simp [write_bytes, adv7533_write_byte, hc, ih]

/-! ## Sequence application -/

/-- One iteration of the loop of `adv7533_write_regs` on an entry with a
valid selector. -/
theorem adv7533_write_regs_cons {σ : Type} (i2c : I2cAdapter σ) (pdata : adv7533)
    (c : adv7533_reg_cfg) (rest : List adv7533_reg_cfg) (w : World σ) (hv : valid_sel c) :
    adv7533_write_regs i2c pdata (c :: rest) w =
      if (adv7533_write_byte i2c (sel_addr pdata c) c.reg c.val w).1 ≠ 0 then
        adv7533_write_byte i2c (sel_addr pdata c) c.reg c.val w
      else adv7533_write_regs i2c pdata rest
        (adv7533_write_byte i2c (sel_addr pdata c) c.reg c.val w).2 := by
  rcases hv with h | h
  · simp [adv7533_write_regs, sel_addr, h]
  · have h1 : ¬ (I2C_ADDR_CEC_DSI = I2C_ADDR_MAIN) := by decide
    simp [adv7533_write_regs, sel_addr, h, h1]

/-- C1: with the client bound, `adv7533_write_regs` writes the entries of
`cfg` in declared order, entry `i` to the main address of the handle when
its selector is `I2C_ADDR_MAIN` and to the CEC/DSI address when it is
`I2C_ADDR_CEC_DSI`. The log grows by the successful writes of entries
`0 .. k-1`, and then either `k = n` and the result is 0 after exactly `n`
writes; or the write of entry `k` was given up: it is the last transaction,
nothing is issued for the entries after `k`, and the result is its error
`-EIO`; or entry `k` carries no valid selector: nothing is issued for it or
for any later entry and the result is `-EINVAL`. -/
theorem adv7533_write_regs_fail_fast {σ : Type} (i2c : I2cAdapter σ) (pdata : adv7533)
    (cfg : List adv7533_reg_cfg) (w : World σ) (hc : w.client = true) :
    ∃ (k : Nat) (oks : List Txn), k ≤ cfg.length ∧
      xfers oks = (cfg.take k).map (reg_xfer pdata) ∧
      (∀ t ∈ oks, t.succeeded = true) ∧
      (∀ c ∈ cfg.take k, valid_sel c) ∧
      ((k = cfg.length ∧ (adv7533_write_regs i2c pdata cfg w).1 = 0 ∧
          (adv7533_write_regs i2c pdata cfg w).2.log = w.log ++ oks) ∨
       (∃ (c : adv7533_reg_cfg) (t : Txn), cfg[k]? = some c ∧ valid_sel c ∧
          t.x = reg_xfer pdata c ∧ t.failed = true ∧
          (adv7533_write_regs i2c pdata cfg w).1 = - EIO ∧
          (adv7533_write_regs i2c pdata cfg w).2.log = w.log ++ oks ++ [t]) ∨
       (∃ c : adv7533_reg_cfg, cfg[k]? = some c ∧ ¬ valid_sel c ∧
          (adv7533_write_regs i2c pdata cfg w).1 = - EINVAL ∧
          (adv7533_write_regs i2c pdata cfg w).2.log = w.log ++ oks)) := by
  induction cfg generalizing w with
  | nil => exact ⟨0, [], by simp [adv7533_write_regs, xfers]⟩
  | cons c rest ih =>
    by_cases hv : valid_sel c
    · have hcons := adv7533_write_regs_cons i2c pdata c rest w hv
      obtain ⟨t, hx, hlog, hcl, -, -, hcase⟩ :=
        adv7533_write_byte_spec i2c (sel_addr pdata c) c.reg c.val w hc
      have hx2 : t.x = reg_xfer pdata c := by rw [hx]; rfl
      rcases hcase with ⟨h0, hs⟩ | ⟨hE, hf⟩
      · -- the write succeeded: continue with the rest
        rw [if_neg (by simp [h0])] at hcons
        obtain ⟨k, oks, hk, hxs, hok, hval, hrest⟩ :=
          ih (adv7533_write_byte i2c (sel_addr pdata c) c.reg c.val w).2 hcl
        refine ⟨k + 1, t :: oks, by simpa using hk, ?_, ?_, ?_, ?_⟩
        · simp [xfers, hx2] at hxs ⊢
          exact hxs
        · intro u hu
          rcases List.mem_cons.mp hu with rfl | hu
          · exact hs
          · exact hok u hu
        · intro d hd
          simp only [List.take_succ_cons, List.mem_cons] at hd
          rcases hd with rfl | hd
          · exact hv
          · exact hval d hd
        · rw [hcons, hlog] at *
          rcases hrest with ⟨h1, h2, h3⟩ | ⟨d, u, h1, h2, h3, h4, h5, h6⟩ | ⟨d, h1, h2, h3, h4⟩
          · exact Or.inl ⟨by simp [h1], h2, by simp [h3]⟩
          · exact Or.inr (Or.inl ⟨d, u, by simpa using h1, h2, h3, h4, h5, by simp [h6]⟩)
          · exact Or.inr (Or.inr ⟨d, by simpa using h1, h2, h3, by simp [h4]⟩)
      · -- the write was given up: stop here
        rw [if_pos (by simp [hE, EIO])] at hcons
        refine ⟨0, [], Nat.zero_le _, by simp [xfers], by simp, by simp,
          Or.inr (Or.inl ⟨c, t, by simp, hv, hx2, hf, ?_, ?_⟩)⟩
        · rw [hcons]; exact hE
        · rw [hcons, hlog]; simp
    · refine ⟨0, [], Nat.zero_le _, by simp [xfers], by simp, by simp, Or.inr (Or.inr ⟨c, by simp, hv, ?_⟩)⟩
      have h1 : c.i2c_addr ≠ I2C_ADDR_MAIN := fun h => hv (Or.inl h)
      have h2 : c.i2c_addr ≠ I2C_ADDR_CEC_DSI := fun h => hv (Or.inr h)
      simp [adv7533_write_regs, h1, h2, EINVAL]

/-- Witness for C1: the video-enable table on an adapter that dies after two
transfers. Entries 0 and 1 are written, the write of entry 2 is given up
after three attempts, nothing follows and the result is `-EIO`; on a
healthy adapter all nine entries are written and the result is 0. -/
theorem adv7533_write_regs_fail_fast_witness :
    world0.client = true ∧
    (∃ (k : Nat) (oks : List Txn), k ≤ adv7533_video_en.length ∧
      xfers oks = (adv7533_video_en.take k).map (reg_xfer pdata0) ∧
      (∀ t ∈ oks, t.succeeded = true)) ∧
    adv7533_write_regs (dies_after 2) pdata0 adv7533_video_en world0 =
      (-5, { world0 with adapter := 5, log :=
        [⟨Xfer.wr 0x3C 0x27 0xCB, [1]⟩, ⟨Xfer.wr 0x3C 0x27 0x8B, [1]⟩,
         ⟨Xfer.wr 0x3C 0x27 0xCB, [-5, -5, -5]⟩] }) ∧
    (adv7533_write_regs (dies_after 9) pdata0 adv7533_video_en world0).1 = 0 ∧
    xfers (adv7533_write_regs (dies_after 9) pdata0 adv7533_video_en world0).2.log =
      adv7533_video_en.map (reg_xfer pdata0) :=
  ⟨rfl,
    (let ⟨k, oks, h1, h2, h3, _⟩ :=
      adv7533_write_regs_fail_fast (dies_after 2) pdata0 adv7533_video_en world0 rfl
     ⟨k, oks, h1, h2, h3⟩),
    rfl, rfl, rfl⟩

/-! ## CEC receive -/

theorem find3_some (q : Fin 3 → Bool) (i : Fin 3)
    (h : ([0, 1, 2] : List (Fin 3)).find? q = some i) :
    q i = true ∧ ∀ j : Fin 3, j < i → q j = false := by
  revert h
  simp only [List.find?]
  cases h0 : q 0 <;> cases h1 : q 1 <;> cases h2 : q 2 <;> intro h <;> simp at h <;> subst h <;>
    (refine ⟨by assumption, ?_⟩; intro j hj; fin_cases j <;> simp_all)

theorem find3_none (q : Fin 3 → Bool)
    (h : ([0, 1, 2] : List (Fin 3)).find? q = none) : ∀ j : Fin 3, q j = false := by
  intro j
  simp only [List.find?_eq_none, List.mem_cons, List.mem_singleton] at h
  have := h j (by fin_cases j <;> simp)
  simpa using this

theorem cec_read_slot_some (pdata : adv7533) (i : Fin 3) (h : cec_read_slot pdata = some i) :
    cec_slot_ready pdata i ∧ ∀ j : Fin 3, j < i → ¬ cec_slot_ready pdata j := by
  obtain ⟨h1, h2⟩ := find3_some _ i h
  refine ⟨by simpa [cec_slot_ready] using h1, ?_⟩
  intro j hj hr
  have := h2 j hj
  simp [cec_slot_ready] at hr
  simp [hr] at this

theorem cec_read_slot_none (pdata : adv7533) (h : ∀ i, ¬ cec_slot_ready pdata i) :
    cec_read_slot pdata = none := by
  unfold cec_read_slot
  rw [List.find?_eq_none]
  intro i _ hi
  apply h i
  simpa [cec_slot_ready] using hi

/-- C3: when `adv7533_hdmi_cec_read` returns a message (result 0), there is a
slot `i` that was pending with a non-zero timestamp and no slot below `i`
was; `*size` is 16 and the first 16 bytes of the caller buffer are the
buffer of slot `i` (the rest of the caller buffer is as before); afterwards
slot `i` is not pending, its timestamp and buffer are as before, and the
other two slots are unchanged. -/
theorem adv7533_hdmi_cec_read_first_ready {σ : Type} (p : adv7533) (size : Nat)
    (buf : List Nat) (w : World σ)
    (hlen : ∀ i, (p.cec_msg i).buf.length = CEC_MSG_SIZE)
    (hret : (adv7533_hdmi_cec_read (some p) size buf w).1 = 0) :
    ∃ (i : Fin 3) (p' : adv7533),
      (adv7533_hdmi_cec_read (some p) size buf w).2.1 = some p' ∧
      cec_slot_ready p i ∧ (∀ j : Fin 3, j < i → ¬ cec_slot_ready p j) ∧
      (adv7533_hdmi_cec_read (some p) size buf w).2.2.1 = CEC_MSG_SIZE ∧
      (adv7533_hdmi_cec_read (some p) size buf w).2.2.2.1.take CEC_MSG_SIZE = (p.cec_msg i).buf ∧
      (adv7533_hdmi_cec_read (some p) size buf w).2.2.2.1.drop CEC_MSG_SIZE
        = buf.drop CEC_MSG_SIZE ∧
      (p'.cec_msg i).pending = false ∧
      (p'.cec_msg i).timestamp = (p.cec_msg i).timestamp ∧
      (p'.cec_msg i).buf = (p.cec_msg i).buf ∧
      (∀ j : Fin 3, j ≠ i → p'.cec_msg j = p.cec_msg j) := by
  cases h : cec_read_slot p with
  | none => simp [adv7533_hdmi_cec_read, h, EINVAL] at hret
  | some i =>
    obtain ⟨hr, hmin⟩ := cec_read_slot_some p i h
    have hl := hlen i
    refine ⟨i, _, by simp only [adv7533_hdmi_cec_read, h]; rfl, hr, hmin, ?_, ?_, ?_, ?_, ?_, ?_, ?_⟩
    · simp [adv7533_hdmi_cec_read, h]
    · simp [adv7533_hdmi_cec_read, h, memcpy, List.take_append_eq_append_take, hl]
    · simp [adv7533_hdmi_cec_read, h, memcpy, List.drop_append_eq_append_drop, hl]
    · simp
    · simp
    · simp
    · intro j hj
      simp [Function.update, hj]

/-- Witness for C3: slot 0 is pending but has timestamp 0, so the message of
slot 1 is returned and only the pending flag of slot 1 changes. -/
theorem adv7533_hdmi_cec_read_first_ready_witness :
    (∀ i, (pdata_cec.cec_msg i).buf.length = CEC_MSG_SIZE) ∧
    (adv7533_hdmi_cec_read (some pdata_cec) 0 (List.replicate 20 0xFF) world0).1 = 0 ∧
    (adv7533_hdmi_cec_read (some pdata_cec) 0 (List.replicate 20 0xFF) world0).2.2.2.1
      = List.range 16 ++ [0xFF, 0xFF, 0xFF, 0xFF] ∧
    (∃ (i : Fin 3) (p' : adv7533),
      (adv7533_hdmi_cec_read (some pdata_cec) 0 (List.replicate 20 0xFF) world0).2.1 = some p' ∧
      cec_slot_ready pdata_cec i ∧ (p'.cec_msg i).pending = false) :=
  ⟨by decide, rfl, rfl,
    (let ⟨i, p', h1, h2, _, _, _, _, h3, _⟩ :=
      adv7533_hdmi_cec_read_first_ready pdata_cec 0 (List.replicate 20 0xFF) world0
        (by decide) rfl
     ⟨i, p', h1, h2, h3⟩)⟩

/-- C4 as stated fails: in the initial handle no slot is ready, and
`adv7533_hdmi_cec_read` reports size 0 with the error `-EINVAL`, not 0. -/
theorem adv7533_hdmi_cec_read_empty_counterexample :
    (∀ i, ¬ cec_slot_ready pdata0 i) ∧
    (adv7533_hdmi_cec_read (some pdata0) 16 (List.replicate 16 0xFF) world0).1 = -22 ∧
    (adv7533_hdmi_cec_read (some pdata0) 16 (List.replicate 16 0xFF) world0).1 ≠ 0 ∧
    (adv7533_hdmi_cec_read (some pdata0) 16 (List.replicate 16 0xFF) world0).2.2.1 = 0 :=
  ⟨by decide, rfl, by decide, rfl⟩

/-- C4 amended: when no slot is pending with a non-zero timestamp,
`adv7533_hdmi_cec_read` sets `*size` to 0 and returns `-EINVAL`; the handle
(all three slots), the caller buffer and the world are unchanged. -/
theorem adv7533_hdmi_cec_read_empty {σ : Type} (p : adv7533) (size : Nat) (buf : List Nat)
    (w : World σ) (h : ∀ i, ¬ cec_slot_ready p i) :
    adv7533_hdmi_cec_read (some p) size buf w = (- EINVAL, some p, 0, buf, w) := by
  simp [adv7533_hdmi_cec_read, cec_read_slot_none p h]

/-- Witness for the amended C4 on the initial handle. -/
theorem adv7533_hdmi_cec_read_empty_witness :
    (∀ i, ¬ cec_slot_ready pdata0 i) ∧
    adv7533_hdmi_cec_read (some pdata0) 16 (List.replicate 16 0xFF) world0
      = (- EINVAL, some pdata0, 0, List.replicate 16 0xFF, world0) :=
  ⟨by decide, adv7533_hdmi_cec_read_empty pdata0 16 (List.replicate 16 0xFF) world0 (by decide)⟩

/-! ## CEC send -/

/-- For an accepted size, with the client bound, `adv7533_cec_prepare_msg`
issues header, opcode, operands and length in this order, whatever the
adapter answers, and returns `-EINVAL`: its `ret` is never assigned after the
initialisation. -/
theorem adv7533_cec_prepare_msg_spec {σ : Type} (i2c : I2cAdapter σ) (m : List Nat)
    (size : Nat) (w : World σ) (hc : w.client = true) (h1 : 1 ≤ size)
    (h16 : size ≤ CEC_MSG_SIZE) :
    (adv7533_cec_prepare_msg i2c (some m) size w).1 = - EINVAL ∧
    (adv7533_cec_prepare_msg i2c (some m) size w).2.client = true ∧
    xfers (adv7533_cec_prepare_msg i2c (some m) size w).2.log
      = xfers w.log ++ cec_msg_writes m size := by
  have hsz : u32 size = size := by
    unfold u32; unfold CEC_MSG_SIZE MAX_OPERAND_SIZE at h16; omega
  have hn : min ((size : Int) - 2).toNat MAX_OPERAND_SIZE = size - 2 := by
    unfold CEC_MSG_SIZE MAX_OPERAND_SIZE at *; omega
  have hrej : ¬ (size = 0 ∨ size > CEC_MSG_SIZE) := by omega
  simp only [adv7533_cec_prepare_msg, hsz, hrej, if_false, hn]
  obtain ⟨c1, x1, -, -⟩ := write_bytes_spec i2c
    [(I2C_ADDR_CEC_DSI, 0x70, m.getD 0 0), (I2C_ADDR_CEC_DSI, 0x71, m.getD 1 0)] w hc
  obtain ⟨c2, x2, -, -⟩ := write_bytes_spec i2c
    ((List.range (size - 2)).map (fun i => (I2C_ADDR_CEC_DSI, 0x72 + i, m.getD (i + 2) 0)))
    _ c1
  obtain ⟨c3, x3, -, -⟩ := write_bytes_spec i2c [(I2C_ADDR_CEC_DSI, 0x80, size)] _ c2
  refine ⟨trivial, c3, ?_⟩
  rw [x3, x2, x1]
  have hu : u8 size = size := by
    unfold u8; unfold CEC_MSG_SIZE MAX_OPERAND_SIZE at h16; omega
  have e1 : List.map wr_of
      [(I2C_ADDR_CEC_DSI, 0x70, m.getD 0 0), (I2C_ADDR_CEC_DSI, 0x71, m.getD 1 0)]
      = [Xfer.wr 0x3C 0x70 (u8 (m.getD 0 0)), Xfer.wr 0x3C 0x71 (u8 (m.getD 1 0))] := by
    simp [wr_of, I2C_ADDR_CEC_DSI, u8]
  have e2 : List.map wr_of
      ((List.range (size - 2)).map (fun i => (I2C_ADDR_CEC_DSI, 0x72 + i, m.getD (i + 2) 0)))
      = (List.range (size - 2)).map (fun i => Xfer.wr 0x3C (0x72 + i) (u8 (m.getD (i + 2) 0))) := by
    rw [List.map_map]
    apply List.map_congr_left
    intro i hi
    have hi2 : i < size - 2 := List.mem_range.mp hi
    have h8 : u8 (0x72 + i) = 0x72 + i := by
      unfold u8; unfold CEC_MSG_SIZE MAX_OPERAND_SIZE at h16; omega
    simp only [Function.comp, wr_of]
    rw [h8]
    rfl
  have e3 : List.map wr_of [(I2C_ADDR_CEC_DSI, 0x80, size)] = [Xfer.wr 0x3C 0x80 size] := by
    simp only [List.map, wr_of, hu]
    rfl
  rw [e1, e2, e3]
  simp [cec_msg_writes]

/-- C5: a CEC send of size 0 or of size above 16 returns `-EINVAL` and leaves
the world as it was, so that no transfer is issued; for a size from 1 to 16
the size check lets the message through: with the client bound, the header
byte is written to register 0x70 of the CEC/DSI address as the next
transaction on the bus. -/
theorem adv7533_hdmi_cec_write_size_check {σ : Type} (i2c : I2cAdapter σ) (p : adv7533)
    (size : Nat) (buf : Option (List Nat)) (w : World σ) (hs : size < 4294967296) :
    ((size = 0 ∨ CEC_MSG_SIZE < size) →
      adv7533_hdmi_cec_write i2c (some p) size buf w = (- EINVAL, w)) ∧
    ((1 ≤ size ∧ size ≤ CEC_MSG_SIZE) → ∀ m : List Nat, buf = some m → w.client = true →
      ∃ rest : List Xfer,
        xfers (adv7533_hdmi_cec_write i2c (some p) size buf w).2.log
          = xfers w.log ++ Xfer.wr 0x3C 0x70 (u8 (m.getD 0 0)) :: rest) := by
  have hsz : u32 size = size := by unfold u32; omega
  constructor
  · intro h
    have hrej : size = 0 ∨ size > CEC_MSG_SIZE := h
    cases buf with
    | none => simp [adv7533_hdmi_cec_write, adv7533_cec_prepare_msg, EINVAL]
    | some m => simp [adv7533_hdmi_cec_write, adv7533_cec_prepare_msg, hsz, hrej, EINVAL]
  · rintro ⟨h1, h16⟩ m rfl hc
    obtain ⟨hret, -, hx⟩ := adv7533_cec_prepare_msg_spec i2c m size w hc h1 h16
    have hne : (adv7533_cec_prepare_msg i2c (some m) size w).1 ≠ 0 := by
      rw [hret]; decide
    simp only [adv7533_hdmi_cec_write, hne, ne_eq, not_false_eq_true, if_true]
    rw [hx]
    simp only [cec_msg_writes, List.cons_append, List.nil_append, List.append_assoc]
    exact ⟨_, rfl⟩

/-- Witness for C5: size 0 and size 17 are rejected without a transfer, size
2 reaches the bus. -/
theorem adv7533_hdmi_cec_write_size_check_witness :
    adv7533_hdmi_cec_write (flaky 0) (some pdata0) 0 (some []) world0 = (- EINVAL, world0) ∧
    adv7533_hdmi_cec_write (flaky 0) (some pdata0) 17 (some (List.replicate 17 0)) world0
      = (- EINVAL, world0) ∧
    (∃ rest : List Xfer,
      xfers (adv7533_hdmi_cec_write (flaky 0) (some pdata0) 2 (some [0x40, 0x04]) world0).2.log
        = xfers world0.log ++ Xfer.wr 0x3C 0x70 (u8 ([0x40, 0x04].getD 0 0)) :: rest) :=
  ⟨(adv7533_hdmi_cec_write_size_check (flaky 0) pdata0 0 (some []) world0 (by decide)).1
      (Or.inl rfl),
   (adv7533_hdmi_cec_write_size_check (flaky 0) pdata0 17 (some (List.replicate 17 0)) world0
      (by decide)).1 (Or.inr (by decide)),
   (adv7533_hdmi_cec_write_size_check (flaky 0) pdata0 2 (some [0x40, 0x04]) world0
      (by decide)).2 ⟨by decide, by decide⟩ [0x40, 0x04] rfl rfl⟩

/-- For every accepted size, with the client bound and whatever the adapter
answers, `adv7533_hdmi_cec_write` returns `-EINVAL` after the writes of
`adv7533_cec_prepare_msg`; the write of 0x07 to register 0x81 is not among
them. -/
theorem adv7533_hdmi_cec_write_no_trigger {σ : Type} (i2c : I2cAdapter σ) (p : adv7533)
    (m : List Nat) (size : Nat) (w : World σ) (hc : w.client = true) (h1 : 1 ≤ size)
    (h16 : size ≤ CEC_MSG_SIZE) :
    (adv7533_hdmi_cec_write i2c (some p) size (some m) w).1 = - EINVAL ∧
    xfers (adv7533_hdmi_cec_write i2c (some p) size (some m) w).2.log
      = xfers w.log ++ cec_msg_writes m size ∧
    Xfer.wr 0x3C 0x81 0x07 ∉ cec_msg_writes m size := by
  obtain ⟨hret, -, hx⟩ := adv7533_cec_prepare_msg_spec i2c m size w hc h1 h16
  have hne : (adv7533_cec_prepare_msg i2c (some m) size w).1 ≠ 0 := by
    rw [hret]; decide
  simp only [adv7533_hdmi_cec_write, hne, ne_eq, not_false_eq_true, if_true]
  refine ⟨hret, hx, ?_⟩
  unfold CEC_MSG_SIZE MAX_OPERAND_SIZE at h16
  simp only [cec_msg_writes, List.mem_append, List.mem_cons, List.mem_map, List.mem_range,
    Xfer.wr.injEq, List.mem_singleton, List.not_mem_nil, or_false, not_or, not_exists, not_and]
  refine ⟨⟨⟨by omega, by omega⟩, ?_⟩, by omega⟩
  intro i hi h _ 
  omega

/-- C6 at the failing input: the two-byte message `<Image View On>` on an
adapter where every transfer succeeds. Header, opcode and length are
written, the result is `-EINVAL` and register 0x81 is never written. -/
theorem adv7533_hdmi_cec_write_image_view_on :
    adv7533_hdmi_cec_write (flaky 0) (some pdata0) 2 (some [0x40, 0x04]) world0 =
      (-22, { world0 with adapter := 3, log :=
        [⟨Xfer.wr 0x3C 0x70 0x40, [1]⟩, ⟨Xfer.wr 0x3C 0x71 0x04, [1]⟩,
         ⟨Xfer.wr 0x3C 0x80 2, [1]⟩] }) := rfl

/-! ## Fault-free reads and frame facts -/

theorem store_bytes (b data : List Nat) (n : Nat) (hd : is_bytes n data) :
    store b data n = data ++ b.drop n := by
  obtain ⟨hl, hb⟩ := hd
  unfold store
  congr 1
  apply List.ext_getElem
  · simp [hl]
  · intro i h1 h2
    have hi : i < data.length := h2
    simp only [List.getElem_map, List.getElem_range, List.getD_eq_getElem?_getD,
      List.getElem?_eq_getElem hi, Option.getD_some, u8]
    exact Nat.mod_eq_of_lt (hb _ (List.getElem_mem hi))

/-- On a fault-free adapter, with the client bound, a read is one
transaction of a single attempt and stores what the adapter delivers. -/
theorem adv7533_read_into_ok {σ : Type} (i2c : I2cAdapter σ) (hff : FaultFree i2c)
    (addr reg : Nat) (b : List Nat) (len : Nat) (w : World σ) (hc : w.client = true) :
    adv7533_read_into i2c addr reg b len w =
      (0, store b (i2c w.adapter (Xfer.rd (u8 addr) (u8 reg) (u8 len))).2.2 (u8 len),
        { w with adapter := (i2c w.adapter (Xfer.rd (u8 addr) (u8 reg) (u8 len))).1,
                 log := w.log ++ [⟨Xfer.rd (u8 addr) (u8 reg) (u8 len), [2]⟩] }) := by
  have h := hff w.adapter (Xfer.rd (u8 addr) (u8 reg) (u8 len))
  simp only [xfer_done] at h
  have h2 : (i2c w.adapter (Xfer.rd (u8 addr) (u8 reg) (u8 len))).2.1 = 2 := by
    simpa [rd_done] using h
  have hd2 : rd_done 2 = true := rfl
  simp only [adv7533_read_into, adv7533_read, hc, MAX_RW_TRIES, i2c_retry_three, h2, hd2,
    Bool.not_true, Bool.false_eq_true, if_false, if_true, Option.getD_some]

/-- A read changes neither the client binding nor the events nor the
diagnostics, whatever the adapter answers. -/
theorem adv7533_read_into_frame {σ : Type} (i2c : I2cAdapter σ) (addr reg : Nat)
    (b : List Nat) (len : Nat) (w : World σ) :
    (adv7533_read_into i2c addr reg b len w).2.2.client = w.client ∧
    (adv7533_read_into i2c addr reg b len w).2.2.events = w.events ∧
    (adv7533_read_into i2c addr reg b len w).2.2.diag = w.diag := by
  simp only [adv7533_read_into, adv7533_read, MAX_RW_TRIES, i2c_retry_three]
  cases hc : w.client
  · simp [hc]
  · simp only [Bool.not_true, Bool.false_eq_true, if_false]
    split_ifs <;> simp [hc]

/-- A run of writes changes neither the client binding nor the events nor
the diagnostics, whatever the adapter answers. -/
theorem write_bytes_frame {σ : Type} (i2c : I2cAdapter σ) (l : List (Nat × Nat × Nat))
    (w : World σ) :
    (write_bytes i2c l w).client = w.client ∧
    (write_bytes i2c l w).events = w.events ∧
    (write_bytes i2c l w).diag = w.diag := by
  cases hc : w.client
  · rw [write_bytes_no_client i2c l w hc]; simp [hc]
  · obtain ⟨h1, -, h3, h4⟩ := write_bytes_spec i2c l w hc
    exact ⟨h1, h3, h4⟩

/-! ## EDID caching -/

/-- On a fault-free adapter whose pointer register reads `ptr` and whose
device at `ptr >> 1` delivers `A` at offset 0 and `B` at offset 128, the
segmented read leaves `A ++ B` in a 256-byte buffer. -/
theorem adv7533_read_edid_ok {σ : Type} (i2c : I2cAdapter σ) (hff : FaultFree i2c)
    (edid_buf : List Nat) (e0 : Nat) (w : World σ) (hc : w.client = true)
    (ptr : Nat) (A B : List Nat) (hptr : ptr < 256)
    (h43 : ∀ s, (i2c s (Xfer.rd 0x39 0x43 1)).2.2 = [ptr])
    (hA : ∀ s, (i2c s (Xfer.rd (ptr >>> 1) 0 128)).2.2 = A)
    (hB : ∀ s, (i2c s (Xfer.rd (ptr >>> 1) 128 128)).2.2 = B)
    (hAb : is_bytes 128 A) (hBb : is_bytes 128 B) (hlen : edid_buf.length = 256) :
    (adv7533_read_edid i2c EDID_SEG_SIZE edid_buf e0 w).2.1 = A ++ B ∧
    (adv7533_read_edid i2c EDID_SEG_SIZE edid_buf e0 w).2.2.client = true := by
  have hp1 : ptr >>> 1 < 256 := by
    rw [Nat.shiftRight_eq_div_pow]; omega
  have hu1 : u8 (ptr >>> 1) = ptr >>> 1 := Nat.mod_eq_of_lt hp1
  have hrs : u32 EDID_SEG_SIZE / 2 = 128 := by decide
  have k1 : u8 I2C_ADDR_MAIN = 0x39 := by decide
  have k2 : u8 0x43 = 0x43 := by decide
  have k3 : u8 1 = 1 := by decide
  have k4 : u8 0 = 0 := by decide
  have k5 : u8 128 = 128 := by decide
  have hb1 : is_bytes 1 [ptr] := ⟨rfl, by simpa using hptr⟩
  unfold adv7533_read_edid
  simp only [hrs]
  rw [adv7533_read_into_ok i2c hff _ _ _ _ _ hc]
  simp only [k1, k2, k3, h43, store_bytes _ _ _ hb1, byte0, List.singleton_append,
    List.headD_cons]
  rw [adv7533_read_into_ok i2c hff _ _ _ _ _ (by exact hc)]
  simp only [hu1, k4, k5, hA, store_bytes _ _ _ hAb]
  rw [adv7533_read_into_ok i2c hff _ _ _ _ _ (by exact hc)]
  simp only [hu1, k5, hB, store_bytes _ _ _ hBb]
  refine ⟨?_, hc⟩
  have hA1 : A.length = 128 := hAb.1
  have hd : (edid_buf.drop 128).drop 128 = [] := by
    rw [List.drop_drop]; exact List.drop_of_length_le (by omega)
  simp [List.take_append_eq_append_take, List.drop_append_eq_append_drop, hA1, hd]

/-- The HPD step keeps the client binding and never yields an error
pointer. -/
theorem adv7533_handle_hpd_intr_frame {σ : Type} (i2c : I2cAdapter σ) (h0 : Nat)
    (w : World σ) :
    (adv7533_handle_hpd_intr i2c h0 w).2.client = w.client ∧
    IS_ERR (adv7533_handle_hpd_intr i2c h0 w).1 = false := by
  have hf := (adv7533_read_into_frame i2c I2C_ADDR_MAIN 0x42 [u8 h0] 1 w).1
  simp only [adv7533_handle_hpd_intr, adv7533_notify_clients]
  constructor
  · split_ifs <;> simp [hf]
  · split_ifs <;> simp [IS_ERR, MAX_ERRNO]

/-- The CEC step leaves the EDID cache alone. -/
theorem adv7533_handle_cec_intr_edid {σ : Type} (i2c : I2cAdapter σ) (pdata : adv7533)
    (cec_status : Nat) (g : Indeterminate) (w : World σ) :
    (adv7533_handle_cec_intr i2c pdata cec_status g w).1.edid_buf = pdata.edid_buf := by
  simp only [adv7533_handle_cec_intr, cec_rx_slot]
  split_ifs <;> rfl

/-- With the EDID-ready bit set, the cache after the dispatch part is what
`adv7533_read_edid` left in it. -/
theorem intr_work_dispatch_edid {σ : Type} (i2c : I2cAdapter σ) (pdata : adv7533)
    (int_status hdcp_cec_status : Nat) (g : Indeterminate) (w : World σ)
    (hbit : int_status &&& BIT 2 ≠ 0) :
    (intr_work_dispatch i2c pdata int_status hdcp_cec_status g w).1.edid_buf
      = (adv7533_read_edid i2c EDID_SEG_SIZE pdata.edid_buf g.edid_addr w).2.1 := by
  simp only [intr_work_dispatch, hbit, ne_eq, not_false_eq_true, if_true]
  split_ifs <;> simp only [adv7533_handle_cec_intr_edid]

/-- The handle after a cycle of the deferred handler is the handle after
its dispatch part, run in a world with the same client binding. -/
theorem adv7533_intr_work_handle {σ : Type} (i2c : I2cAdapter σ) (pdata : adv7533)
    (g : Indeterminate) (w : World σ) :
    ∃ w1 : World σ, w1.client = w.client ∧
      (adv7533_intr_work i2c pdata g w).1 =
        (intr_work_dispatch i2c pdata
          (byte0 (adv7533_read_into i2c I2C_ADDR_MAIN 0x96 [0xFF] 1 w).2.1)
          (byte0 (adv7533_read_into i2c I2C_ADDR_MAIN 0x97 [0xFF] 1
            (adv7533_read_into i2c I2C_ADDR_MAIN 0x96 [0xFF] 1 w).2.2).2.1) g w1).1 := by
  have f1 := (adv7533_read_into_frame i2c I2C_ADDR_MAIN 0x96 [0xFF] 1 w).1
  have f2 := (adv7533_read_into_frame i2c I2C_ADDR_MAIN 0x97 [0xFF] 1
    (adv7533_read_into i2c I2C_ADDR_MAIN 0x96 [0xFF] 1 w).2.2).1
  simp only [adv7533_intr_work]
  split_ifs with h1 h2
  · have := (adv7533_handle_hpd_intr_frame i2c g.hpd_state
      (adv7533_read_into i2c I2C_ADDR_MAIN 0x97 [0xFF] 1
        (adv7533_read_into i2c I2C_ADDR_MAIN 0x96 [0xFF] 1 w).2.2).2.2).2
    rw [this] at h2
    exact absurd h2 (by decide)
  · refine ⟨_, ?_, rfl⟩
    rw [(adv7533_handle_hpd_intr_frame i2c g.hpd_state _).1, f2, f1]
  · exact ⟨_, by rw [f2, f1], rfl⟩

theorem store_one (v : Nat) (data : List Nat) : store [v] data 1 = [u8 (data.getD 0 0)] := by
  simp [store, List.range_succ]

/-- C7: a cycle of the deferred handler on a fault-free adapter, where status
register 0x96 reads with the EDID-ready bit set, pointer register 0x43 reads
`ptr`, and the device at address `ptr >> 1` delivers the 128 bytes `A` for the
read at offset 0 and the 128 bytes `B` for the read at offset 128. Afterwards
the 256-byte EDID cache is `A ++ B`, `adv7533_get_edid_size` reports 256 with
result 0, and `adv7533_get_raw_edid` with size 256 puts `A ++ B` in the first
256 bytes of the caller buffer. -/
theorem adv7533_edid_cache {σ : Type} (i2c : I2cAdapter σ) (hff : FaultFree i2c)
    (p : adv7533) (g : Indeterminate) (w : World σ) (hc : w.client = true)
    (hlen : p.edid_buf.length = 256) (ptr : Nat) (A B : List Nat) (hptr : ptr < 256)
    (h96 : ∀ s, u8 ((i2c s (Xfer.rd 0x39 0x96 1)).2.2.getD 0 0) &&& BIT 2 ≠ 0)
    (h43 : ∀ s, (i2c s (Xfer.rd 0x39 0x43 1)).2.2 = [ptr])
    (hA : ∀ s, (i2c s (Xfer.rd (ptr >>> 1) 0 128)).2.2 = A)
    (hB : ∀ s, (i2c s (Xfer.rd (ptr >>> 1) 128 128)).2.2 = B)
    (hAb : is_bytes 128 A) (hBb : is_bytes 128 B) :
    (adv7533_intr_work i2c p g w).1.edid_buf = A ++ B ∧
    (∀ sz : Nat, adv7533_get_edid_size (some (adv7533_intr_work i2c p g w).1) (some sz)
      = (0, some 256)) ∧
    (∀ buf : List Nat,
      (adv7533_get_raw_edid (some (adv7533_intr_work i2c p g w).1) 256 (some buf)
        (adv7533_intr_work i2c p g w).2).2.2.1 = some (A ++ B ++ buf.drop 256)) := by
  have hcache : (adv7533_intr_work i2c p g w).1.edid_buf = A ++ B := by
    obtain ⟨w1, hw1, heq⟩ := adv7533_intr_work_handle i2c p g w
    rw [heq, intr_work_dispatch_edid]
    · exact (adv7533_read_edid_ok i2c hff p.edid_buf g.edid_addr w1 (hw1.trans hc) ptr A B hptr
        h43 hA hB hAb hBb hlen).1
    · rw [adv7533_read_into_ok i2c hff _ _ _ _ _ hc]
      simp only [store_one, byte0, List.headD_cons]
      exact h96 _
  refine ⟨hcache, ?_, ?_⟩
  · intro sz; rfl
  · intro buf
    have hl : (A ++ B).length = 256 := by simp [hAb.1, hBb.1]
    simp only [adv7533_get_raw_edid, hcache, memcpy]
    have : min (u32 256) EDID_SEG_SIZE = 256 := by decide
    rw [this, List.take_of_length_le (by omega)]

theorem edid_chip_fault_free : FaultFree edid_chip := by
  intro s x
  cases x <;> rfl

theorem is_bytes_lo : is_bytes 128 (List.range 128) :=
  ⟨by simp, fun b hb => by simp at hb; omega⟩

theorem is_bytes_hi : is_bytes 128 ((List.range 128).map (fun i => i + 128)) :=
  ⟨by simp, fun b hb => by simp at hb; omega⟩

theorem pdata0_edid_len : pdata0.edid_buf.length = 256 := by
  simp only [pdata0, List.length_replicate]

theorem edid_chip_status (s : Nat) :
    u8 ((edid_chip s (Xfer.rd 0x39 0x96 1)).2.2.getD 0 0) &&& BIT 2 ≠ 0 := by
  show (4 % 256) &&& (1 <<< 2) ≠ 0
  decide

/-- Witness for C7 on the test chip: after one cycle the cache holds the
bytes 0..255, and `adv7533_get_raw_edid` hands them out. -/
theorem adv7533_edid_cache_witness :
    FaultFree edid_chip ∧ world0.client = true ∧ pdata0.edid_buf.length = 256 ∧
    is_bytes 128 (List.range 128) ∧ is_bytes 128 ((List.range 128).map (fun i => i + 128)) ∧
    (adv7533_intr_work edid_chip pdata0 g0 world0).1.edid_buf
      = List.range 128 ++ (List.range 128).map (fun i => i + 128) ∧
    (adv7533_get_raw_edid (some (adv7533_intr_work edid_chip pdata0 g0 world0).1) 256
        (some (List.replicate 256 0xFF)) (adv7533_intr_work edid_chip pdata0 g0 world0).2).2.2.1
      = some (List.range 128 ++ (List.range 128).map (fun i => i + 128)
          ++ (List.replicate 256 0xFF).drop 256) :=
  ⟨edid_chip_fault_free, rfl, pdata0_edid_len, is_bytes_lo, is_bytes_hi,
    (adv7533_edid_cache edid_chip edid_chip_fault_free pdata0 g0 world0 rfl pdata0_edid_len 0x7E
      (List.range 128) ((List.range 128).map (fun i => i + 128)) (by decide)
      edid_chip_status (fun _ => rfl) (fun _ => rfl) (fun _ => rfl)
      is_bytes_lo is_bytes_hi).1,
    (adv7533_edid_cache edid_chip edid_chip_fault_free pdata0 g0 world0 rfl pdata0_edid_len 0x7E
      (List.range 128) ((List.range 128).map (fun i => i + 128)) (by decide)
      edid_chip_status (fun _ => rfl) (fun _ => rfl) (fun _ => rfl)
      is_bytes_lo is_bytes_hi).2.2 (List.replicate 256 0xFF)⟩

/-- C8: for every requested size `s` (a `u32`) and every 256-byte cache,
`adv7533_get_raw_edid` returns 0 and makes the first `min s 256` bytes of the
caller buffer equal to the first `min s 256` bytes of the cache; the caller
bytes beyond that prefix, the handle (the cache included) and the world (no
transfer is issued) are unchanged. -/
theorem adv7533_get_raw_edid_copy {σ : Type} (p : adv7533) (s : Nat) (buf : List Nat)
    (w : World σ) (hs : s < 4294967296) (hlen : p.edid_buf.length = 256) :
    ∃ buf' : List Nat,
      adv7533_get_raw_edid (some p) s (some buf) w = (0, some p, some buf', w) ∧
      buf'.take (min s 256) = p.edid_buf.take (min s 256) ∧
      buf'.drop (min s 256) = buf.drop (min s 256) := by
  have hsz : u32 s = s := Nat.mod_eq_of_lt hs
  refine ⟨memcpy buf p.edid_buf (min s 256), ?_, ?_, ?_⟩
  · simp only [adv7533_get_raw_edid, hsz, EDID_SEG_SIZE]
  · have hl : (p.edid_buf.take (min s 256)).length = min s 256 := by
      rw [List.length_take, hlen]; omega
    simp only [memcpy]
    rw [List.take_append_eq_append_take, hl, Nat.sub_self, List.take_zero, List.append_nil,
      List.take_take, min_self]
  · have hl : (p.edid_buf.take (min s 256)).length = min s 256 := by
      rw [List.length_take, hlen]; omega
    simp only [memcpy]
    rw [List.drop_append_eq_append_drop, hl, Nat.sub_self, List.drop_zero,
      List.drop_of_length_le (by omega), List.nil_append]

set_option maxRecDepth 8192 in
/-- Witness for C8: a request for 4 bytes of the cache `0, 1, .., 255` into a
6-byte buffer. -/
theorem adv7533_get_raw_edid_copy_witness :
    (4 : Nat) < 4294967296 ∧
    ({ pdata0 with edid_buf := List.range 256 } : adv7533).edid_buf.length = 256 ∧
    adv7533_get_raw_edid (some { pdata0 with edid_buf := List.range 256 }) 4
        (some [9, 9, 9, 9, 9, 9]) world0
      = (0, some { pdata0 with edid_buf := List.range 256 }, some [0, 1, 2, 3, 9, 9], world0) ∧
    (∃ buf' : List Nat,
      adv7533_get_raw_edid (some { pdata0 with edid_buf := List.range 256 }) 4
          (some [9, 9, 9, 9, 9, 9]) world0
        = (0, some { pdata0 with edid_buf := List.range 256 }, some buf', world0) ∧
      buf'.drop (min 4 256) = [9, 9, 9, 9, 9, 9].drop (min 4 256)) :=
  ⟨by decide, List.length_range 256, rfl,
    (let ⟨b, h1, _, h3⟩ := adv7533_get_raw_edid_copy { pdata0 with edid_buf := List.range 256 } 4
        [9, 9, 9, 9, 9, 9] world0 (by decide) (List.length_range 256)
     ⟨b, h1, h3⟩)⟩

/-! ## Video timing -/

theorem timing_hi_eq (t : Nat) : (t &&& 0xFF0) >>> 4 = (t / 16) % 256 := by
  have h1 : (t &&& 0xFF0) >>> 4 = (t >>> 4) &&& (2 ^ 8 - 1) := by
    apply Nat.eq_of_testBit_eq
    intro j
    have h : (0xFF0 : Nat) = (2 ^ 8 - 1) <<< 4 := by decide
    rw [h]
    simp only [Nat.testBit_shiftRight, Nat.testBit_and, Nat.testBit_shiftLeft,
      Nat.testBit_two_pow_sub_one]
    simp
  rw [h1, Nat.and_pow_two_sub_one_eq_mod, Nat.shiftRight_eq_div_pow]

theorem timing_lo_eq (t : Nat) : (t &&& 0xF) <<< 4 = (t % 16) * 16 := by
  have h : (0xF : Nat) = 2 ^ 4 - 1 := by decide
  rw [h, Nat.and_pow_two_sub_one_eq_mod, Nat.shiftLeft_eq]

/-- The transfers of a register pair depend on the low 12 bits of the
quantity only, and the `u8` parameters do not cut anything off. -/
theorem timing_pair_xfers (reg t t' : Nat) (hreg : reg + 1 < 256)
    (ht : t % 4096 = t' % 4096) : (timing_pair reg t).map wr_of = timing_xfers reg t' := by
  simp only [timing_pair, timing_xfers, List.map, wr_of, timing_hi_eq, timing_lo_eq, u8,
    I2C_ADDR_CEC_DSI]
  have e1 : t / 16 % 256 % 256 = t' / 16 % 256 := by omega
  have e2 : t % 16 * 16 % 256 = t' % 16 * 16 := by omega
  have e3 : reg % 256 = reg := by omega
  have e4 : (reg + 1) % 256 = reg + 1 := by omega
  rw [e1, e2, e3, e4]

/-- C9: with the client bound and whatever the adapter answers,
`adv7533_video_setup` issues sixteen write transactions to the CEC/DSI
address: for each of `h_total = h_active + h_front_porch + h_pulse_width +
h_back_porch`, hsync width, hfp, hbp, `v_total` (likewise), vsync width, vfp
and vbp, in this order, the byte `(t & 0xFF0) >> 4` to the even register and
the byte `(t & 0xF) << 4` to the next one, over 0x28/0x29 .. 0x36/0x37. For
every `t < 4096` the pair gives `t` back as `hi * 16 + lo / 16`, with the
low nibble of `lo` zero; 2200 = 0x898 is packed as 0x89, 0x80. -/
theorem adv7533_video_setup_packing {σ : Type} (i2c : I2cAdapter σ)
    (cfg : msm_dba_video_cfg) (w : World σ) (hc : w.client = true) :
    xfers (adv7533_video_setup i2c cfg w).log = xfers w.log ++
      (timing_xfers 0x28
          (cfg.h_active + cfg.h_front_porch + cfg.h_pulse_width + cfg.h_back_porch) ++
        timing_xfers 0x2A cfg.h_pulse_width ++ timing_xfers 0x2C cfg.h_front_porch ++
        timing_xfers 0x2E cfg.h_back_porch ++
        timing_xfers 0x30
          (cfg.v_active + cfg.v_front_porch + cfg.v_pulse_width + cfg.v_back_porch) ++
        timing_xfers 0x32 cfg.v_pulse_width ++ timing_xfers 0x34 cfg.v_front_porch ++
        timing_xfers 0x36 cfg.v_back_porch) ∧
    (∀ t : Nat, t < 4096 →
      ((t &&& 0xFF0) >>> 4) * 16 + ((t &&& 0xF) <<< 4) / 16 = t ∧
      ((t &&& 0xF) <<< 4) % 16 = 0 ∧ (t &&& 0xFF0) >>> 4 < 256 ∧ (t &&& 0xF) <<< 4 < 256) ∧
    timing_xfers 0x28 (1920 + 88 + 44 + 148) = [Xfer.wr 0x3C 0x28 0x89, Xfer.wr 0x3C 0x29 0x80] := by
  refine ⟨?_, ?_, by decide⟩
  · simp only [adv7533_video_setup]
    rw [(write_bytes_spec i2c _ w hc).2.1]
    simp only [List.map_append]
    rw [timing_pair_xfers 0x28 _ (cfg.h_active + cfg.h_front_porch + cfg.h_pulse_width +
        cfg.h_back_porch) (by decide) (by unfold u32; omega),
      timing_pair_xfers 0x2A _ cfg.h_pulse_width (by decide) (by unfold u32; omega),
      timing_pair_xfers 0x2C _ cfg.h_front_porch (by decide) (by unfold u32; omega),
      timing_pair_xfers 0x2E _ cfg.h_back_porch (by decide) (by unfold u32; omega),
      timing_pair_xfers 0x30 _ (cfg.v_active + cfg.v_front_porch + cfg.v_pulse_width +
        cfg.v_back_porch) (by decide) (by unfold u32; omega),
      timing_pair_xfers 0x32 _ cfg.v_pulse_width (by decide) (by unfold u32; omega),
      timing_pair_xfers 0x34 _ cfg.v_front_porch (by decide) (by unfold u32; omega),
      timing_pair_xfers 0x36 _ cfg.v_back_porch (by decide) (by unfold u32; omega)]
  · intro t ht
    rw [timing_hi_eq, timing_lo_eq]
    omega

/-- Witness for C9: the 1080p timing on the test adapter; `h_total` 2200 is
written as 0x89, 0x80 and `v_total` 1125 = 0x465 as 0x46, 0x50. -/
theorem adv7533_video_setup_packing_witness :
    world0.client = true ∧
    xfers (adv7533_video_setup (flaky 0) cfg_1080p world0).log =
      [Xfer.wr 0x3C 0x28 0x89, Xfer.wr 0x3C 0x29 0x80, Xfer.wr 0x3C 0x2A 0x02,
       Xfer.wr 0x3C 0x2B 0xC0, Xfer.wr 0x3C 0x2C 0x05, Xfer.wr 0x3C 0x2D 0x80,
       Xfer.wr 0x3C 0x2E 0x09, Xfer.wr 0x3C 0x2F 0x40, Xfer.wr 0x3C 0x30 0x46,
       Xfer.wr 0x3C 0x31 0x50, Xfer.wr 0x3C 0x32 0x00, Xfer.wr 0x3C 0x33 0x50,
       Xfer.wr 0x3C 0x34 0x00, Xfer.wr 0x3C 0x35 0x40, Xfer.wr 0x3C 0x36 0x02,
       Xfer.wr 0x3C 0x37 0x40] :=
  ⟨rfl, (adv7533_video_setup_packing (flaky 0) cfg_1080p world0 rfl).1.trans (by decide)⟩

/-! ## Video enable -/

/-- With the client bound, a read is one transaction on the bus, whatever
the adapter answers. -/
theorem adv7533_read_into_xfers {σ : Type} (i2c : I2cAdapter σ) (addr reg : Nat)
    (b : List Nat) (len : Nat) (w : World σ) (hc : w.client = true) :
    (adv7533_read_into i2c addr reg b len w).2.2.client = true ∧
    xfers (adv7533_read_into i2c addr reg b len w).2.2.log
      = xfers w.log ++ [Xfer.rd (u8 addr) (u8 reg) (u8 len)] := by
  simp only [adv7533_read_into, adv7533_read, MAX_RW_TRIES, i2c_retry_three, hc, Bool.not_true,
    Bool.false_eq_true, if_false]
  split_ifs <;> simp [hc, xfers]

/-- On a fault-free adapter, with the client bound, a write returns 0. -/
theorem adv7533_write_byte_ok {σ : Type} (i2c : I2cAdapter σ) (hff : FaultFree i2c)
    (addr reg val : Nat) (w : World σ) (hc : w.client = true) :
    (adv7533_write_byte i2c addr reg val w).1 = 0 := by
  have h := hff w.adapter (Xfer.wr (u8 addr) (u8 reg) (u8 val))
  simp only [xfer_done] at h
  simp only [adv7533_write_byte, hc, MAX_RW_TRIES, i2c_retry_three, h, Bool.not_true,
    Bool.false_eq_true, if_false, if_true]

/-- With the client bound, a table of valid entries puts a prefix of its
writes on the bus, in order, and all of them on a fault-free adapter. -/
theorem adv7533_write_regs_xfers {σ : Type} (i2c : I2cAdapter σ) (pdata : adv7533)
    (cfg : List adv7533_reg_cfg) (w : World σ) (hc : w.client = true)
    (hv : ∀ c ∈ cfg, valid_sel c) :
    ∃ k : Nat, k ≤ cfg.length ∧
      xfers (adv7533_write_regs i2c pdata cfg w).2.log
        = xfers w.log ++ (cfg.take k).map (reg_xfer pdata) ∧
      (FaultFree i2c → k = cfg.length ∧ (adv7533_write_regs i2c pdata cfg w).1 = 0) := by
  induction cfg generalizing w with
  | nil => exact ⟨0, le_refl _, by simp [adv7533_write_regs], fun _ => ⟨rfl, rfl⟩⟩
  | cons c rest ih =>
    have hvc : valid_sel c := hv c (List.mem_cons_self _ _)
    have hcons := adv7533_write_regs_cons i2c pdata c rest w hvc
    obtain ⟨t, hx, hlog, hcl, -, -, hcase⟩ :=
      adv7533_write_byte_spec i2c (sel_addr pdata c) c.reg c.val w hc
    have hx2 : t.x = reg_xfer pdata c := by rw [hx]; rfl
    rcases hcase with ⟨h0, -⟩ | ⟨hE, -⟩
    · rw [if_neg (by simp [h0])] at hcons
      obtain ⟨k, hk, hxs, hffk⟩ := ih (adv7533_write_byte i2c (sel_addr pdata c) c.reg c.val w).2
        hcl (fun d hd => hv d (List.mem_cons_of_mem _ hd))
      refine ⟨k + 1, by simpa using hk, ?_, ?_⟩
      · rw [hcons, hxs, hlog]
        simp [xfers, hx2]
      · intro hff
        obtain ⟨e1, e2⟩ := hffk hff
        exact ⟨by simp [e1], by rw [hcons]; exact e2⟩
    · rw [if_pos (by simp [hE, EIO])] at hcons
      refine ⟨1, by simp, ?_, ?_⟩
      · rw [hcons, hlog]
        simp [xfers, hx2]
      · intro hff
        have := adv7533_write_byte_ok i2c hff (sel_addr pdata c) c.reg c.val w hc
        rw [this] at hE
        exact absurd hE (by decide)

/-- With the client bound, `adv7533_video_setup` puts its sixteen timing
writes on the bus. -/
theorem adv7533_video_setup_xfers {σ : Type} (i2c : I2cAdapter σ) (cfg : msm_dba_video_cfg)
    (w : World σ) (hc : w.client = true) :
    (adv7533_video_setup i2c cfg w).client = true ∧
    xfers (adv7533_video_setup i2c cfg w).log = xfers w.log ++ video_setup_xfers cfg := by
  simp only [adv7533_video_setup]
  refine ⟨(write_bytes_spec i2c _ w hc).1, ?_⟩
  rw [(write_bytes_spec i2c _ w hc).2.1]
  simp only [List.map_append, video_setup_xfers]
  rw [timing_pair_xfers 0x28 _ (cfg.h_active + cfg.h_front_porch + cfg.h_pulse_width +
      cfg.h_back_porch) (by decide) (by unfold u32; omega),
    timing_pair_xfers 0x2A _ cfg.h_pulse_width (by decide) (by unfold u32; omega),
    timing_pair_xfers 0x2C _ cfg.h_front_porch (by decide) (by unfold u32; omega),
    timing_pair_xfers 0x2E _ cfg.h_back_porch (by decide) (by unfold u32; omega),
    timing_pair_xfers 0x30 _ (cfg.v_active + cfg.v_front_porch + cfg.v_pulse_width +
      cfg.v_back_porch) (by decide) (by unfold u32; omega),
    timing_pair_xfers 0x32 _ cfg.v_pulse_width (by decide) (by unfold u32; omega),
    timing_pair_xfers 0x34 _ cfg.v_front_porch (by decide) (by unfold u32; omega),
    timing_pair_xfers 0x36 _ cfg.v_back_porch (by decide) (by unfold u32; omega)]

theorem adv7533_video_en_valid : ∀ c ∈ adv7533_video_en, valid_sel c := by decide

/-- The aspect-ratio test is `h_active * 3 - v_active * 4` in 32-bit
unsigned arithmetic: it is zero exactly when the two products agree modulo
`2^32`. -/
theorem aspect_expr_eq_zero (cfg : msm_dba_video_cfg) :
    aspect_expr cfg = 0 ↔
      (cfg.h_active * 3) % 4294967296 = (cfg.v_active * 4) % 4294967296 := by
  unfold aspect_expr u32
  omega

/-- C10: with the client bound, `adv7533_video_on` puts on the bus, in this
order, the lane count, the sixteen timing writes, the HDMI-mode write if
`hdmi_mode` is set, the scan-info read and write if `scaninfo` is non-zero,
then the aspect-ratio profile, 16:9 (0x17 <- 0x02, 0x56 <- 0x28) when
`h_active * 3 - v_active * 4` is non-zero in `u32` arithmetic and 4:3
(0x17 <- 0x00, 0x56 <- 0x18) when it is zero, and last the writes of the
video-enable table in table order: all nine on a fault-free adapter, a prefix
of them otherwise. 1920x1080 takes the 16:9 branch, 640x480 the 4:3 one. -/
theorem adv7533_video_on_aspect {σ : Type} (i2c : I2cAdapter σ) (p : adv7533) (on_ : Bool)
    (cfg : msm_dba_video_cfg) (w : World σ) (hc : w.client = true) :
    (∃ (scan : List Xfer) (k : Nat), k ≤ adv7533_video_en.length ∧
      (u8 cfg.scaninfo = 0 → scan = []) ∧
      (u8 cfg.scaninfo ≠ 0 → ∃ v, scan = [Xfer.rd 0x39 0x55 1, Xfer.wr 0x39 0x55 v]) ∧
      xfers (adv7533_video_on i2c (some p) on_ (some cfg) w).2.log =
        xfers w.log ++ [Xfer.wr 0x3C 0x1C (u8 (u32 cfg.num_of_input_lanes <<< 4))] ++
          video_setup_xfers cfg ++ (if cfg.hdmi_mode then [Xfer.wr 0x39 0xAF 0x06] else []) ++
          scan ++ (if aspect_expr cfg ≠ 0 then profile_16_9 else profile_4_3) ++
          (adv7533_video_en.take k).map (reg_xfer p) ∧
      (FaultFree i2c → k = adv7533_video_en.length)) ∧
    (aspect_expr cfg = 0 ↔
      (cfg.h_active * 3) % 4294967296 = (cfg.v_active * 4) % 4294967296) ∧
    aspect_expr cfg_1080p = 1440 ∧ aspect_expr cfg_vga = 0 := by
  refine ⟨?_, aspect_expr_eq_zero cfg, by decide, by decide⟩
  let w1 := write_bytes i2c
    [(I2C_ADDR_CEC_DSI, 0x1C, u8 (u32 cfg.num_of_input_lanes <<< 4))] w
  let w2 := adv7533_video_setup i2c cfg w1
  let w3 := if cfg.hdmi_mode then write_bytes i2c [(I2C_ADDR_MAIN, 0xAF, 0x06)] w2 else w2
  let w4 :=
    if u8 cfg.scaninfo ≠ 0 then
      write_bytes i2c [(I2C_ADDR_MAIN, 0x55,
        byte0 (adv7533_read_into i2c I2C_ADDR_MAIN 0x55 [0] 1 w3).2.1 |||
          (u8 cfg.scaninfo &&& (BIT 1 ||| BIT 0)))]
        (adv7533_read_into i2c I2C_ADDR_MAIN 0x55 [0] 1 w3).2.2
    else w3
  let w5 :=
    if aspect_expr cfg ≠ 0 then
      write_bytes i2c [(I2C_ADDR_MAIN, 0x17, 0x02), (I2C_ADDR_MAIN, 0x56, 0x28)] w4
    else
      write_bytes i2c [(I2C_ADDR_MAIN, 0x17, 0x00), (I2C_ADDR_MAIN, 0x56, 0x18)] w4
  have hout : (adv7533_video_on i2c (some p) on_ (some cfg) w).2
      = (adv7533_write_regs i2c p adv7533_video_en w5).2 := rfl
  have h1 : w1.client = true ∧ xfers w1.log
      = xfers w.log ++ [Xfer.wr 0x3C 0x1C (u8 (u32 cfg.num_of_input_lanes <<< 4))] := by
    obtain ⟨a, b, -, -⟩ := write_bytes_spec i2c
      [(I2C_ADDR_CEC_DSI, 0x1C, u8 (u32 cfg.num_of_input_lanes <<< 4))] w hc
    refine ⟨a, b.trans ?_⟩
    simp [wr_of, I2C_ADDR_CEC_DSI, u8]
  have h2 : w2.client = true ∧ xfers w2.log = xfers w1.log ++ video_setup_xfers cfg :=
    adv7533_video_setup_xfers i2c cfg w1 h1.1
  have h3 : w3.client = true ∧ xfers w3.log
      = xfers w2.log ++ (if cfg.hdmi_mode then [Xfer.wr 0x39 0xAF 0x06] else []) := by
    by_cases hm : cfg.hdmi_mode = true
    · obtain ⟨a, b, -, -⟩ := write_bytes_spec i2c [(I2C_ADDR_MAIN, 0xAF, 0x06)] w2 h2.1
      simp only [w3, hm, if_true]
      exact ⟨a, b.trans (by simp [wr_of, I2C_ADDR_MAIN, u8])⟩
    · simp only [w3, hm, if_false, Bool.false_eq_true, List.append_nil]
      exact ⟨h2.1, trivial⟩
  have h4 : ∃ scan : List Xfer, (u8 cfg.scaninfo = 0 → scan = []) ∧
      (u8 cfg.scaninfo ≠ 0 → ∃ v, scan = [Xfer.rd 0x39 0x55 1, Xfer.wr 0x39 0x55 v]) ∧
      w4.client = true ∧ xfers w4.log = xfers w3.log ++ scan := by
    by_cases hsi : u8 cfg.scaninfo = 0
    · refine ⟨[], fun _ => rfl, fun h => absurd hsi h, ?_⟩
      simp only [w4, hsi, ne_eq, not_true_eq_false, if_false, List.append_nil]
      exact ⟨h3.1, trivial⟩
    · obtain ⟨a, b⟩ := adv7533_read_into_xfers i2c I2C_ADDR_MAIN 0x55 [0] 1 w3 h3.1
      obtain ⟨c, d, -, -⟩ := write_bytes_spec i2c [(I2C_ADDR_MAIN, 0x55,
        byte0 (adv7533_read_into i2c I2C_ADDR_MAIN 0x55 [0] 1 w3).2.1 |||
          (u8 cfg.scaninfo &&& (BIT 1 ||| BIT 0)))]
        (adv7533_read_into i2c I2C_ADDR_MAIN 0x55 [0] 1 w3).2.2 a
      refine ⟨[Xfer.rd 0x39 0x55 1, Xfer.wr 0x39 0x55
        (u8 (byte0 (adv7533_read_into i2c I2C_ADDR_MAIN 0x55 [0] 1 w3).2.1 |||
          (u8 cfg.scaninfo &&& (BIT 1 ||| BIT 0))))],
        fun h => absurd h hsi, fun _ => ⟨_, rfl⟩, ?_⟩
      simp only [w4, hsi, ne_eq, not_false_eq_true, if_true]
      refine ⟨c, ?_⟩
      rw [d, b]
      simp [wr_of, I2C_ADDR_MAIN, u8]
  have h5 : w5.client = true ∧ xfers w5.log
      = xfers w4.log ++ (if aspect_expr cfg ≠ 0 then profile_16_9 else profile_4_3) := by
    obtain ⟨scan, -, -, c4, -⟩ := h4
    by_cases ha : aspect_expr cfg = 0
    · obtain ⟨a, b, -, -⟩ := write_bytes_spec i2c
        [(I2C_ADDR_MAIN, 0x17, 0x00), (I2C_ADDR_MAIN, 0x56, 0x18)] w4 c4
      simp only [w5, ha, ne_eq, not_true_eq_false, if_false]
      exact ⟨a, b.trans (by simp [wr_of, I2C_ADDR_MAIN, u8, profile_4_3])⟩
    · obtain ⟨a, b, -, -⟩ := write_bytes_spec i2c
        [(I2C_ADDR_MAIN, 0x17, 0x02), (I2C_ADDR_MAIN, 0x56, 0x28)] w4 c4
      simp only [w5, ha, ne_eq, not_false_eq_true, if_true]
      exact ⟨a, b.trans (by simp [wr_of, I2C_ADDR_MAIN, u8, profile_16_9])⟩
  obtain ⟨scan, hs0, hs1, -, x4⟩ := h4
  obtain ⟨k, hk, hx, hffk⟩ :=
    adv7533_write_regs_xfers i2c p adv7533_video_en w5 h5.1 adv7533_video_en_valid
  refine ⟨scan, k, hk, hs0, hs1, ?_, fun hff => (hffk hff).1⟩
  rw [hout, hx, h5.2, x4, h3.2, h2.2, h1.2]

/-- Witness for C10: 1080p on the test adapter ends with the 16:9 profile
followed by the nine video-enable writes; 640x480 gets the 4:3 profile. -/
theorem adv7533_video_on_aspect_witness :
    world0.client = true ∧
    (∃ (scan : List Xfer) (k : Nat), k ≤ adv7533_video_en.length ∧
      xfers (adv7533_video_on (flaky 0) (some pdata0) true (some cfg_1080p) world0).2.log =
        xfers world0.log ++ [Xfer.wr 0x3C 0x1C (u8 (u32 cfg_1080p.num_of_input_lanes <<< 4))] ++
          video_setup_xfers cfg_1080p ++
          (if cfg_1080p.hdmi_mode then [Xfer.wr 0x39 0xAF 0x06] else []) ++
          scan ++ (if aspect_expr cfg_1080p ≠ 0 then profile_16_9 else profile_4_3) ++
          (adv7533_video_en.take k).map (reg_xfer pdata0)) ∧
    (xfers (adv7533_video_on (flaky 0) (some pdata0) true (some cfg_1080p) world0).2.log).drop 18
      = profile_16_9 ++ adv7533_video_en.map (reg_xfer pdata0) ∧
    (xfers (adv7533_video_on (flaky 0) (some pdata0) true (some cfg_vga) world0).2.log).drop 17
      = profile_4_3 ++ adv7533_video_en.map (reg_xfer pdata0) :=
  ⟨rfl,
    (let ⟨⟨scan, k, h1, _, _, h4, _⟩, _⟩ :=
      adv7533_video_on_aspect (flaky 0) pdata0 true cfg_1080p world0 rfl
     ⟨scan, k, h1, h4⟩),
    by decide, by decide⟩

/-! ## Composition of steps -/

theorem Step.refl {σ : Type} (w : World σ) : Step w w [] [] := by
  simp [Step]

theorem Step.trans {σ : Type} {w w1 w2 : World σ} {l1 l2 : List Xfer}
    {e1 e2 : List msm_dba_callback_event} (h1 : Step w w1 l1 e1) (h2 : Step w1 w2 l2 e2) :
    Step w w2 (l1 ++ l2) (e1 ++ e2) := by
  obtain ⟨a1, b1, c1⟩ := h1
  obtain ⟨a2, b2, c2⟩ := h2
  exact ⟨a2.trans a1, by rw [b2, b1, List.append_assoc], by rw [c2, c1, List.append_assoc]⟩

theorem Step.client {σ : Type} {w w1 : World σ} {l : List Xfer}
    {e : List msm_dba_callback_event} (h : Step w w1 l e) (hc : w.client = true) :
    w1.client = true := h.1.trans hc

theorem adv7533_read_into_step {σ : Type} (i2c : I2cAdapter σ) (addr reg : Nat)
    (b : List Nat) (len : Nat) (w : World σ) (hc : w.client = true) :
    Step w (adv7533_read_into i2c addr reg b len w).2.2
      [Xfer.rd (u8 addr) (u8 reg) (u8 len)] [] := by
  obtain ⟨f1, f2, -⟩ := adv7533_read_into_frame i2c addr reg b len w
  exact ⟨f1, (adv7533_read_into_xfers i2c addr reg b len w hc).2, by simpa using f2⟩

theorem adv7533_write_byte_step {σ : Type} (i2c : I2cAdapter σ) (addr reg val : Nat)
    (w : World σ) (hc : w.client = true) :
    Step w (adv7533_write_byte i2c addr reg val w).2
      [Xfer.wr (u8 addr) (u8 reg) (u8 val)] [] := by
  obtain ⟨t, hx, hlog, hcl, hev, -, -⟩ := adv7533_write_byte_spec i2c addr reg val w hc
  exact ⟨hcl.trans hc.symm, by rw [hlog]; simp [xfers, hx], by simpa using hev⟩

theorem write_bytes_step {σ : Type} (i2c : I2cAdapter σ) (l : List (Nat × Nat × Nat))
    (w : World σ) (hc : w.client = true) :
    Step w (write_bytes i2c l w) (l.map wr_of) [] := by
  obtain ⟨h1, h2, h3, -⟩ := write_bytes_spec i2c l w hc
  exact ⟨h1.trans hc.symm, h2, by simpa using h3⟩

theorem adv7533_notify_clients_step {σ : Type} (e : msm_dba_callback_event) (w : World σ) :
    Step w (adv7533_notify_clients e w) [] [e] := by
  simp [Step, adv7533_notify_clients]

/-! ## Interrupt enable mask -/

/-- A `u8` local read into stays a byte. -/
theorem adv7533_read_into_byte {σ : Type} (i2c : I2cAdapter σ) (addr reg b : Nat)
    (w : World σ) (hb : b < 256) :
    byte0 (adv7533_read_into i2c addr reg [b] 1 w).2.1 < 256 := by
  have k1 : u8 1 = 1 := by decide
  simp only [adv7533_read_into, adv7533_read, MAX_RW_TRIES, i2c_retry_three, k1]
  cases hc : w.client
  · simpa [byte0] using hb
  · simp only [Bool.not_true, Bool.false_eq_true, if_false]
    split_ifs <;> simp [byte0, store_one, hb, u8, Nat.mod_lt]

/-- On a fault-free adapter, with the client bound, a one-byte read yields
the byte the adapter delivers. -/
theorem adv7533_read_into_value {σ : Type} (i2c : I2cAdapter σ) (hff : FaultFree i2c)
    (addr reg b v : Nat) (w : World σ) (hc : w.client = true) (ha : addr < 256)
    (hr : reg < 256) (hv : v < 256) (hd : ∀ s, (i2c s (Xfer.rd addr reg 1)).2.2 = [v]) :
    byte0 (adv7533_read_into i2c addr reg [b] 1 w).2.1 = v := by
  have k1 : u8 1 = 1 := by decide
  have k2 : u8 addr = addr := Nat.mod_eq_of_lt ha
  have k3 : u8 reg = reg := Nat.mod_eq_of_lt hr
  rw [adv7533_read_into_ok i2c hff _ _ _ _ _ hc]
  simp only [k1, k2, k3, hd, store_one, byte0, List.headD_cons, List.getD_cons_zero]
  exact Nat.mod_eq_of_lt hv

theorem or_byte (a b : Nat) (ha : a < 256) (hb : b < 256) : a ||| b < 256 :=
  @Nat.or_lt_two_pow a b 8 ha hb

theorem and_byte (a b : Nat) (ha : a < 256) : a &&& b < 256 :=
  lt_of_le_of_lt Nat.and_le_left ha

theorem en94_lt (i v : Nat) (hv : v < 256) : en94 i v < 256 := by
  simp only [en94]
  split_ifs <;> repeat (first | exact hv | apply or_byte | decide)

theorem en95_lt (i v : Nat) (hv : v < 256) : en95 i v < 256 := by
  simp only [en95]
  split_ifs <;> repeat (first | exact hv | apply or_byte | decide)

theorem dis94_lt (i v : Nat) (hv : v < 256) : dis94 i v < 256 := by
  simp only [dis94]
  split_ifs <;> repeat (first | exact hv | apply and_byte)

theorem dis95_lt (i v : Nat) (hv : v < 256) : dis95 i v < 256 := by
  simp only [dis95]
  split_ifs <;> repeat (first | exact hv | apply and_byte)

/-- The shape of a read-modify-write of the two interrupt-enable registers,
shared by `adv7533_enable_interrupts` and `adv7533_disable_interrupts`: `f`
and `g` are the new values as functions of the values read. -/
theorem mask_rmw_step {σ : Type} (i2c : I2cAdapter σ) (f g : Nat → Nat)
    (hf : ∀ v, v < 256 → f v < 256) (hg : ∀ v, v < 256 → g v < 256) (rv : Nat) (w : World σ)
    (hc : w.client = true) :
    ∃ (i94 i95 : Nat) (w1 : World σ), w1.client = true ∧ i94 < 256 ∧ i95 < 256 ∧
      i94 = byte0 (adv7533_read_into i2c I2C_ADDR_MAIN 0x94 [u8 rv] 1 w).2.1 ∧
      i95 = byte0 (adv7533_read_into i2c I2C_ADDR_MAIN 0x95 [f i94] 1 w1).2.1 ∧
      Step w
        (let r1 := adv7533_read_into i2c I2C_ADDR_MAIN 0x94 [u8 rv] 1 w
         let w1 := if f (byte0 r1.2.1) ≠ byte0 r1.2.1 then
           (adv7533_write_byte i2c I2C_ADDR_MAIN 0x94 (f (byte0 r1.2.1)) r1.2.2).2 else r1.2.2
         let r2 := adv7533_read_into i2c I2C_ADDR_MAIN 0x95 [f (byte0 r1.2.1)] 1 w1
         if g (byte0 r2.2.1) ≠ byte0 r2.2.1 then
           (adv7533_write_byte i2c I2C_ADDR_MAIN 0x95 (g (byte0 r2.2.1)) r2.2.2).2 else r2.2.2)
        (mask_xfers i94 (f i94) i95 (g i95)) [] := by
  have hrv : u8 rv < 256 := Nat.mod_lt _ (by decide)
  have hi94 := adv7533_read_into_byte i2c I2C_ADDR_MAIN 0x94 (u8 rv) w hrv
  have s1 := adv7533_read_into_step i2c I2C_ADDR_MAIN 0x94 [u8 rv] 1 w hc
  have c1 := s1.client hc
  generalize hr1 : adv7533_read_into i2c I2C_ADDR_MAIN 0x94 [u8 rv] 1 w = r1 at *
  -- the world before the second read
  obtain ⟨w1, hw1, s2⟩ : ∃ w1 : World σ,
      w1 = (if f (byte0 r1.2.1) ≠ byte0 r1.2.1 then
        (adv7533_write_byte i2c I2C_ADDR_MAIN 0x94 (f (byte0 r1.2.1)) r1.2.2).2 else r1.2.2) ∧
      Step r1.2.2 w1
        (if f (byte0 r1.2.1) ≠ byte0 r1.2.1 then [Xfer.wr 0x39 0x94 (f (byte0 r1.2.1))]
          else []) [] := by
    refine ⟨_, rfl, ?_⟩
    split_ifs with h
    · have := adv7533_write_byte_step i2c I2C_ADDR_MAIN 0x94 (f (byte0 r1.2.1)) r1.2.2 c1
      have e : u8 (f (byte0 r1.2.1)) = f (byte0 r1.2.1) := Nat.mod_eq_of_lt (hf _ hi94)
      rw [e] at this
      exact this
    · exact Step.refl _
  have c2 := s2.client c1
  have hi95 := adv7533_read_into_byte i2c I2C_ADDR_MAIN 0x95 (f (byte0 r1.2.1)) w1 (hf _ hi94)
  have s3 := adv7533_read_into_step i2c I2C_ADDR_MAIN 0x95 [f (byte0 r1.2.1)] 1 w1 c2
  have c3 := s3.client c2
  refine ⟨byte0 r1.2.1, _, w1, c2, hi94, hi95, rfl, rfl, ?_⟩
  simp only [← hw1]
  generalize adv7533_read_into i2c I2C_ADDR_MAIN 0x95 [f (byte0 r1.2.1)] 1 w1 = r2 at *
  have s4 : Step r2.2.2
      (if g (byte0 r2.2.1) ≠ byte0 r2.2.1 then
        (adv7533_write_byte i2c I2C_ADDR_MAIN 0x95 (g (byte0 r2.2.1)) r2.2.2).2 else r2.2.2)
      (if g (byte0 r2.2.1) ≠ byte0 r2.2.1 then [Xfer.wr 0x39 0x95 (g (byte0 r2.2.1))]
        else []) [] := by
    split_ifs with h
    · have := adv7533_write_byte_step i2c I2C_ADDR_MAIN 0x95 (g (byte0 r2.2.1)) r2.2.2 c3
      have e : u8 (g (byte0 r2.2.1)) = g (byte0 r2.2.1) := Nat.mod_eq_of_lt (hg _ hi95)
      rw [e] at this
      exact this
    · exact Step.refl _
  have := ((s1.trans s2).trans s3).trans s4
  simpa [mask_xfers, u8, I2C_ADDR_MAIN] using this

/-- With the client bound, `adv7533_enable_interrupts` reads 0x94, writes it
if the new value differs, reads 0x95 and writes it if the new value differs;
`i94` and `i95` are the values its local `reg_val` holds after the reads. -/
theorem adv7533_enable_interrupts_step {σ : Type} (i2c : I2cAdapter σ) (ints rv : Nat)
    (w : World σ) (hc : w.client = true) :
    ∃ (i94 i95 : Nat) (w1 : World σ), w1.client = true ∧ i94 < 256 ∧ i95 < 256 ∧
      i94 = byte0 (adv7533_read_into i2c I2C_ADDR_MAIN 0x94 [u8 rv] 1 w).2.1 ∧
      i95 = byte0 (adv7533_read_into i2c I2C_ADDR_MAIN 0x95 [en94 ints i94] 1 w1).2.1 ∧
      Step w (adv7533_enable_interrupts i2c ints rv w).2
        (mask_xfers i94 (en94 ints i94) i95 (en95 ints i95)) [] :=
  mask_rmw_step i2c (en94 ints) (en95 ints) (en94_lt ints) (en95_lt ints) rv w hc

/-- The same for `adv7533_disable_interrupts`. -/
theorem adv7533_disable_interrupts_step {σ : Type} (i2c : I2cAdapter σ) (ints rv : Nat)
    (w : World σ) (hc : w.client = true) :
    ∃ (i94 i95 : Nat) (w1 : World σ), w1.client = true ∧ i94 < 256 ∧ i95 < 256 ∧
      i94 = byte0 (adv7533_read_into i2c I2C_ADDR_MAIN 0x94 [u8 rv] 1 w).2.1 ∧
      i95 = byte0 (adv7533_read_into i2c I2C_ADDR_MAIN 0x95 [dis94 ints i94] 1 w1).2.1 ∧
      Step w (adv7533_disable_interrupts i2c ints rv w).2
        (mask_xfers i94 (dis94 ints i94) i95 (dis95 ints i95)) [] :=
  mask_rmw_step i2c (dis94 ints) (dis95 ints) (dis94_lt ints) (dis95_lt ints) rv w hc

/-- On a fault-free adapter where 0x94 reads `r94` and 0x95 reads `r95`, the
transfers of `adv7533_enable_interrupts` are those of the read-modify-write
with these values. -/
theorem adv7533_enable_interrupts_ok {σ : Type} (i2c : I2cAdapter σ) (hff : FaultFree i2c)
    (ints rv : Nat) (w : World σ) (hc : w.client = true) (r94 r95 : Nat)
    (h94b : r94 < 256) (h95b : r95 < 256)
    (h94 : ∀ s, (i2c s (Xfer.rd 0x39 0x94 1)).2.2 = [r94])
    (h95 : ∀ s, (i2c s (Xfer.rd 0x39 0x95 1)).2.2 = [r95]) :
    Step w (adv7533_enable_interrupts i2c ints rv w).2
      (mask_xfers r94 (en94 ints r94) r95 (en95 ints r95)) [] := by
  obtain ⟨i94, i95, w1, c1, -, -, e1, e2, st⟩ := adv7533_enable_interrupts_step i2c ints rv w hc
  rw [adv7533_read_into_value i2c hff I2C_ADDR_MAIN 0x94 _ r94 w hc (by decide) (by decide)
    h94b h94] at e1
  rw [adv7533_read_into_value i2c hff I2C_ADDR_MAIN 0x95 _ r95 w1 c1 (by decide) (by decide)
    h95b h95] at e2
  rw [e1, e2] at st
  exact st

/-- The same for `adv7533_disable_interrupts`. -/
theorem adv7533_disable_interrupts_ok {σ : Type} (i2c : I2cAdapter σ) (hff : FaultFree i2c)
    (ints rv : Nat) (w : World σ) (hc : w.client = true) (r94 r95 : Nat)
    (h94b : r94 < 256) (h95b : r95 < 256)
    (h94 : ∀ s, (i2c s (Xfer.rd 0x39 0x94 1)).2.2 = [r94])
    (h95 : ∀ s, (i2c s (Xfer.rd 0x39 0x95 1)).2.2 = [r95]) :
    Step w (adv7533_disable_interrupts i2c ints rv w).2
      (mask_xfers r94 (dis94 ints r94) r95 (dis95 ints r95)) [] := by
  obtain ⟨i94, i95, w1, c1, -, -, e1, e2, st⟩ :=
    adv7533_disable_interrupts_step i2c ints rv w hc
  rw [adv7533_read_into_value i2c hff I2C_ADDR_MAIN 0x94 _ r94 w hc (by decide) (by decide)
    h94b h94] at e1
  rw [adv7533_read_into_value i2c hff I2C_ADDR_MAIN 0x95 _ r95 w1 c1 (by decide) (by decide)
    h95b h95] at e2
  rw [e1, e2] at st
  exact st

theorem en94_cfg (p : adv7533) (v : Nat) :
    en94 (cfg_interrupts p) v = v ||| 0xC0 ||| 0x04 ||| (if p.hdcp_enabled then 0x02 else 0) := by
  cases h1 : p.hdcp_enabled <;> cases h2 : p.cec_enabled <;>
    simp +decide [en94, cfg_interrupts, h1, h2, CFG_HPD_INTERRUPTS, CFG_EDID_INTERRUPTS,
      CFG_HDCP_INTERRUPTS, CFG_CEC_INTERRUPTS, HPD_INTERRUPTS, EDID_INTERRUPTS,
      HDCP_INTERRUPTS1, HPD_INT_ENABLE, MONITOR_SENSE_INT_ENABLE, EDID_READY_INT_ENABLE,
      HDCP_AUTHENTICATED, BIT]

theorem en95_cfg (p : adv7533) (v : Nat) :
    en95 (cfg_interrupts p) v
      = v ||| (if p.hdcp_enabled then 0xC0 else 0) ||| (if p.cec_enabled then 0x3F else 0) := by
  cases h1 : p.hdcp_enabled <;> cases h2 : p.cec_enabled <;>
    simp +decide [en95, cfg_interrupts, h1, h2, CFG_HPD_INTERRUPTS, CFG_EDID_INTERRUPTS,
      CFG_HDCP_INTERRUPTS, CFG_CEC_INTERRUPTS, HDCP_INTERRUPTS2, CEC_INTERRUPTS,
      HDCP_BKSV_FLAG, HDCP_ERROR, CEC_TX_READY, CEC_TX_ARB_LOST, CEC_TX_RETRY_TIMEOUT,
      CEC_TX_RX_BUF3_READY, CEC_TX_RX_BUF2_READY, CEC_TX_RX_BUF1_READY, BIT]

theorem adv7533_edid_read_init_step {σ : Type} (i2c : I2cAdapter σ) (w : World σ)
    (hc : w.client = true) : Step w (adv7533_edid_read_init i2c w).2 edid_init_xfers [] :=
  write_bytes_step i2c [(I2C_ADDR_MAIN, 0x41, 0x10), (I2C_ADDR_MAIN, 0xC9, 0x13)] w hc

/-- With the client bound and whatever the adapter answers, the part of
`adv7533_intr_work` from the label `reset` on writes the two status values
back, re-arms the interrupt-enable registers and, if a connect was noted,
writes the two EDID-read-init registers. -/
theorem intr_work_reset_step {σ : Type} (i2c : I2cAdapter σ) (p : adv7533)
    (s1 s2 : Nat) (c : Int) (g : Indeterminate) (w : World σ) (hc : w.client = true) :
    ∃ (i94 i95 : Nat) (wa wb : World σ), wa.client = true ∧ wb.client = true ∧
      i94 = byte0 (adv7533_read_into i2c I2C_ADDR_MAIN 0x94 [u8 g.reg_val] 1 wa).2.1 ∧
      i95 = byte0 (adv7533_read_into i2c I2C_ADDR_MAIN 0x95
        [en94 (cfg_interrupts p) i94] 1 wb).2.1 ∧
      Step w (intr_work_reset i2c p s1 s2 c g w)
        ([Xfer.wr 0x39 0x96 (u8 s1), Xfer.wr 0x39 0x97 (u8 s2)] ++
          mask_xfers i94 (en94 (cfg_interrupts p) i94) i95 (en95 (cfg_interrupts p) i95) ++
          (if c ≠ 0 then edid_init_xfers else [])) [] := by
  have a1 := write_bytes_step i2c
    [(I2C_ADDR_MAIN, 0x96, s1), (I2C_ADDR_MAIN, 0x97, s2)] w hc
  have c1 := a1.client hc
  obtain ⟨i94, i95, wb, cb, -, -, e1, e2, a2⟩ :=
    adv7533_enable_interrupts_step i2c (cfg_interrupts p) g.reg_val _ c1
  have c2 := a2.client c1
  refine ⟨i94, i95, _, wb, c1, cb, e1, e2, ?_⟩
  simp only [intr_work_reset]
  split_ifs with hcn
  · have a3 := adv7533_edid_read_init_step i2c _ c2
    have := (a1.trans a2).trans a3
    simpa [wr_of, I2C_ADDR_MAIN, u8] using this
  · have := a1.trans a2
    simpa [wr_of, I2C_ADDR_MAIN, u8] using this

/-- C11: on a fault-free adapter where the interrupt-enable registers 0x94
and 0x95 read `r94` and `r95`, the re-arm step of the deferred handler (the
call of `adv7533_enable_interrupts` with the mask built from the feature
flags) reads 0x94 and writes `r94 | 0xC0 | 0x04 | (0x02 if HDCP is enabled)`
to it only if that differs from `r94`, then reads 0x95 and writes
`r95 | (0xC0 if HDCP is enabled) | (0x3F if CEC is enabled)` to it only if
that differs from `r95`; in the reset part of `adv7533_intr_work` these
transfers follow the two status write-backs. With HDCP and CEC enabled and
only the HPD/EDID bits set before (0xC4, 0x00), 0xC6 and 0xFF are written. -/
theorem adv7533_rearm_mask {σ : Type} (i2c : I2cAdapter σ) (hff : FaultFree i2c)
    (p : adv7533) (s1 s2 : Nat) (c : Int) (g : Indeterminate) (w : World σ)
    (hc : w.client = true) (r94 r95 : Nat) (h94b : r94 < 256) (h95b : r95 < 256)
    (h94 : ∀ s, (i2c s (Xfer.rd 0x39 0x94 1)).2.2 = [r94])
    (h95 : ∀ s, (i2c s (Xfer.rd 0x39 0x95 1)).2.2 = [r95]) :
    xfers (adv7533_enable_interrupts i2c (cfg_interrupts p) g.reg_val w).2.log =
      xfers w.log ++
        mask_xfers r94 (r94 ||| 0xC0 ||| 0x04 ||| (if p.hdcp_enabled then 0x02 else 0))
          r95 (r95 ||| (if p.hdcp_enabled then 0xC0 else 0) |||
            (if p.cec_enabled then 0x3F else 0)) ∧
    xfers (intr_work_reset i2c p s1 s2 c g w).log =
      xfers w.log ++ [Xfer.wr 0x39 0x96 (u8 s1), Xfer.wr 0x39 0x97 (u8 s2)] ++
        mask_xfers r94 (r94 ||| 0xC0 ||| 0x04 ||| (if p.hdcp_enabled then 0x02 else 0))
          r95 (r95 ||| (if p.hdcp_enabled then 0xC0 else 0) |||
            (if p.cec_enabled then 0x3F else 0)) ++
        (if c ≠ 0 then edid_init_xfers else []) ∧
    mask_xfers 0xC4 (0xC4 ||| 0xC0 ||| 0x04 ||| 0x02) 0x00 (0x00 ||| 0xC0 ||| 0x3F) =
      [Xfer.rd 0x39 0x94 1, Xfer.wr 0x39 0x94 0xC6, Xfer.rd 0x39 0x95 1,
       Xfer.wr 0x39 0x95 0xFF] := by
  refine ⟨?_, ?_, by decide⟩
  · have h := (adv7533_enable_interrupts_ok i2c hff (cfg_interrupts p) g.reg_val w hc r94 r95
      h94b h95b h94 h95).2.1
    rw [en94_cfg, en95_cfg] at h
    exact h
  · obtain ⟨i94, i95, wa, wb, ca, cb, e1, e2, st⟩ := intr_work_reset_step i2c p s1 s2 c g w hc
    rw [adv7533_read_into_value i2c hff I2C_ADDR_MAIN 0x94 _ r94 wa ca (by decide) (by decide)
      h94b h94] at e1
    rw [adv7533_read_into_value i2c hff I2C_ADDR_MAIN 0x95 _ r95 wb cb (by decide) (by decide)
      h95b h95] at e2
    rw [e1, e2, en94_cfg, en95_cfg] at st
    rw [st.2.1]
    simp only [List.append_assoc]

theorem const_chip_fault_free (f : Nat → Nat → Nat) : FaultFree (const_chip f) := by
  intro s x
  cases x <;> rfl

/-- Witness for C11: HDCP and CEC enabled, 0x94 holding 0xC4 and 0x95
holding 0x00: the re-arm writes 0xC6 to 0x94 and 0xFF to 0x95. -/
theorem adv7533_rearm_mask_witness :
    FaultFree (const_chip regs_hpd_edid) ∧ world0.client = true ∧
    xfers (adv7533_enable_interrupts (const_chip regs_hpd_edid) (cfg_interrupts pdata_all)
        g0.reg_val world0).2.log =
      xfers world0.log ++
        mask_xfers 0xC4 (0xC4 ||| 0xC0 ||| 0x04 ||| (if pdata_all.hdcp_enabled then 0x02 else 0))
          0x00 (0x00 ||| (if pdata_all.hdcp_enabled then 0xC0 else 0) |||
            (if pdata_all.cec_enabled then 0x3F else 0)) ∧
    xfers (adv7533_enable_interrupts (const_chip regs_hpd_edid) (cfg_interrupts pdata_all)
        g0.reg_val world0).2.log =
      [Xfer.rd 0x39 0x94 1, Xfer.wr 0x39 0x94 0xC6, Xfer.rd 0x39 0x95 1,
       Xfer.wr 0x39 0x95 0xFF] :=
  ⟨const_chip_fault_free _, rfl,
    (adv7533_rearm_mask (const_chip regs_hpd_edid) (const_chip_fault_free _) pdata_all 0 0 0 g0
      world0 rfl 0xC4 0x00 (by decide) (by decide) (fun _ => rfl) (fun _ => rfl)).1,
    by decide⟩

/-! ## Power on -/

/-- A table application changes neither the client binding nor the events,
whatever the adapter answers. -/
theorem adv7533_write_regs_frame {σ : Type} (i2c : I2cAdapter σ) (pdata : adv7533)
    (cfg : List adv7533_reg_cfg) (w : World σ) :
    (adv7533_write_regs i2c pdata cfg w).2.client = w.client ∧
    (adv7533_write_regs i2c pdata cfg w).2.events = w.events := by
  induction cfg generalizing w with
  | nil => exact ⟨rfl, rfl⟩
  | cons c rest ih =>
    have f1 := write_bytes_frame i2c [(pdata.main_i2c_addr, c.reg, c.val)] w
    have f2 := write_bytes_frame i2c [(pdata.cec_dsi_i2c_addr, c.reg, c.val)] w
    simp only [write_bytes] at f1 f2
    simp only [adv7533_write_regs]
    split_ifs with h1 h2 h3 h4 h5
    · exact ⟨f1.1, f1.2.1⟩
    · obtain ⟨a, b⟩ := ih (adv7533_write_byte i2c pdata.main_i2c_addr c.reg c.val w).2
      exact ⟨a.trans f1.1, b.trans f1.2.1⟩
    · exact ⟨f2.1, f2.2.1⟩
    · obtain ⟨a, b⟩ := ih (adv7533_write_byte i2c pdata.cec_dsi_i2c_addr c.reg c.val w).2
      exact ⟨a.trans f2.1, b.trans f2.2.1⟩
    · exact ⟨rfl, rfl⟩
    · exact absurd (show (- EINVAL : Int) ≠ 0 by decide) h5

/-- With the client bound, a table of valid entries is a step that puts a
prefix of its writes on the bus: all of them exactly when the result is 0. -/
theorem adv7533_write_regs_step {σ : Type} (i2c : I2cAdapter σ) (pdata : adv7533)
    (cfg : List adv7533_reg_cfg) (w : World σ) (hc : w.client = true)
    (hv : ∀ c ∈ cfg, valid_sel c) :
    ∃ k : Nat, k ≤ cfg.length ∧
      Step w (adv7533_write_regs i2c pdata cfg w).2 ((cfg.take k).map (reg_xfer pdata)) [] ∧
      (FaultFree i2c → k = cfg.length ∧ (adv7533_write_regs i2c pdata cfg w).1 = 0) := by
  obtain ⟨k, hk, hx, hff⟩ := adv7533_write_regs_xfers i2c pdata cfg w hc hv
  obtain ⟨f1, f2⟩ := adv7533_write_regs_frame i2c pdata cfg w
  exact ⟨k, hk, ⟨f1, hx, by simpa using f2⟩, hff⟩

theorem adv7533_init_setup_valid : ∀ c ∈ adv7533_init_setup, valid_sel c := by decide

/-- Powering on a chip that is off: the init table is applied, its result is
dropped, the HPD interrupts are enabled, the chip is marked as powered on and
the result is that of `adv7533_enable_interrupts`, which is always 0. -/
theorem adv7533_power_on_from_off {σ : Type} (i2c : I2cAdapter σ) (p : adv7533)
    (rv : Nat) (w : World σ) (hoff : p.is_power_on = false) :
    adv7533_power_on i2c (some p) true rv w =
      (0, some { p with is_power_on := true },
        (adv7533_enable_interrupts i2c CFG_HPD_INTERRUPTS rv
          (adv7533_write_regs i2c p adv7533_init_setup w).2).2) := by
  simp [adv7533_power_on, hoff, adv7533_enable_interrupts]

/-- C12: a call of `adv7533_power_on` with `on = true` on a chip already
marked as powered on returns at once (with `-EINVAL`): the handle and the
world are unchanged, so that no transfer is issued and no event is sent.
After any call with `on = true` the chip is marked as powered on, so a second
such call is this no-op: of two consecutive calls only the first can issue
the init table, and it does so, followed by accesses to 0x94/0x95 only, when
the chip was off (all 15 writes on a fault-free adapter). -/
theorem adv7533_power_on_idempotent {σ : Type} (i2c : I2cAdapter σ) (p : adv7533)
    (rv rv' : Nat) (w : World σ) :
    (p.is_power_on = true →
      adv7533_power_on i2c (some p) true rv w = (- EINVAL, some p, w)) ∧
    (∃ p1 : adv7533, (adv7533_power_on i2c (some p) true rv w).2.1 = some p1 ∧
      p1.is_power_on = true ∧
      adv7533_power_on i2c (some p1) true rv' (adv7533_power_on i2c (some p) true rv w).2.2
        = (- EINVAL, some p1, (adv7533_power_on i2c (some p) true rv w).2.2)) ∧
    (p.is_power_on = false → w.client = true →
      ∃ (k i94 i95 : Nat), k ≤ adv7533_init_setup.length ∧
        xfers (adv7533_power_on i2c (some p) true rv w).2.2.log =
          xfers w.log ++ (adv7533_init_setup.take k).map (reg_xfer p) ++
            mask_xfers i94 (en94 CFG_HPD_INTERRUPTS i94) i95 (en95 CFG_HPD_INTERRUPTS i95) ∧
        (FaultFree i2c → k = adv7533_init_setup.length)) := by
  have hon : ∀ (q : adv7533) (r : Nat) (v : World σ), q.is_power_on = true →
      adv7533_power_on i2c (some q) true r v = (- EINVAL, some q, v) := by
    intro q r v hq
    simp [adv7533_power_on, hq]
  refine ⟨hon p rv w, ?_, ?_⟩
  · cases hp : p.is_power_on
    · rw [adv7533_power_on_from_off i2c p rv w hp]
      exact ⟨_, rfl, rfl, hon _ _ _ rfl⟩
    · rw [hon p rv w hp]
      exact ⟨p, rfl, hp, hon _ _ _ hp⟩
  · intro hoff hc
    rw [adv7533_power_on_from_off i2c p rv w hoff]
    obtain ⟨k, hk, a1, hff⟩ :=
      adv7533_write_regs_step i2c p adv7533_init_setup w hc adv7533_init_setup_valid
    obtain ⟨i94, i95, -, -, -, -, -, -, a2⟩ :=
      adv7533_enable_interrupts_step i2c CFG_HPD_INTERRUPTS rv _ (a1.client hc)
    exact ⟨k, i94, i95, hk, by rw [(a1.trans a2).2.1, List.append_assoc], fun h => (hff h).1⟩

/-- Witness for C12: the second of two power-on calls on the test adapter
adds nothing to the fifteen init writes and the enable accesses of the
first. -/
theorem adv7533_power_on_idempotent_witness :
    pdata_on.is_power_on = true ∧
    adv7533_power_on (flaky 0) (some pdata_on) true 0 world0 = (- EINVAL, some pdata_on, world0) ∧
    pdata0.is_power_on = false ∧ world0.client = true ∧
    (∃ (k i94 i95 : Nat), k ≤ adv7533_init_setup.length ∧
      xfers (adv7533_power_on (flaky 0) (some pdata0) true 0 world0).2.2.log =
        xfers world0.log ++ (adv7533_init_setup.take k).map (reg_xfer pdata0) ++
          mask_xfers i94 (en94 CFG_HPD_INTERRUPTS i94) i95 (en95 CFG_HPD_INTERRUPTS i95)) ∧
    (xfers (adv7533_power_on (flaky 0) (some pdata0) true 0 world0).2.2.log).length = 18 ∧
    (xfers (adv7533_power_on (flaky 0)
      (adv7533_power_on (flaky 0) (some pdata0) true 0 world0).2.1 true 0
      (adv7533_power_on (flaky 0) (some pdata0) true 0 world0).2.2).2.2.log).length = 18 :=
  ⟨rfl, (adv7533_power_on_idempotent (flaky 0) pdata_on 0 0 world0).1 rfl, rfl, rfl,
    (let ⟨k, i94, i95, h1, h2, _⟩ :=
      (adv7533_power_on_idempotent (flaky 0) pdata0 0 0 world0).2.2 rfl rfl
     ⟨k, i94, i95, h1, h2⟩),
    by decide, by decide⟩

/-- C15 as stated fails: on an adapter where every transfer fails, the first
init write is given up (`adv7533_write_regs` yields `-EIO`), yet
`adv7533_power_on` returns 0, marks the chip as powered on and goes on with
three more transactions on the registers 0x94 and 0x95. -/
theorem adv7533_power_on_init_failure_counterexample :
    (adv7533_write_regs (dies_after 0) pdata0 adv7533_init_setup world0).1 = -5 ∧
    (adv7533_power_on (dies_after 0) (some pdata0) true 0 world0).1 = 0 ∧
    (adv7533_power_on (dies_after 0) (some pdata0) true 0 world0).2.1.map
      (fun q => q.is_power_on) = some true ∧
    xfers (adv7533_power_on (dies_after 0) (some pdata0) true 0 world0).2.2.log =
      [Xfer.wr 0x39 0x41 0x10, Xfer.rd 0x39 0x94 1, Xfer.wr 0x39 0x94 0xC0,
       Xfer.rd 0x39 0x95 1] ∧
    (adv7533_power_on (dies_after 0) (some pdata0) true 0 world0).2.2.log.map Txn.failed =
      [true, true, true, true] := by
  refine ⟨by decide, by decide, by decide, by decide, by decide⟩

/-- C15 amended: when a write of the init table fails while a chip that is
off is powered on (client bound), `adv7533_power_on` drops that error: after
the init writes that were issued it reads and re-writes the interrupt-enable
registers 0x94/0x95, returns 0 and marks the chip as powered on. -/
theorem adv7533_power_on_init_failure {σ : Type} (i2c : I2cAdapter σ) (p : adv7533)
    (rv : Nat) (w : World σ) (hc : w.client = true) (hoff : p.is_power_on = false)
    (hfail : (adv7533_write_regs i2c p adv7533_init_setup w).1 ≠ 0) :
    (adv7533_power_on i2c (some p) true rv w).1 = 0 ∧
    (adv7533_power_on i2c (some p) true rv w).2.1 = some { p with is_power_on := true } ∧
    ¬ FaultFree i2c ∧
    ∃ (k i94 i95 : Nat), k ≤ adv7533_init_setup.length ∧
      xfers (adv7533_write_regs i2c p adv7533_init_setup w).2.log =
        xfers w.log ++ (adv7533_init_setup.take k).map (reg_xfer p) ∧
      xfers (adv7533_power_on i2c (some p) true rv w).2.2.log =
        xfers (adv7533_write_regs i2c p adv7533_init_setup w).2.log ++
          mask_xfers i94 (en94 CFG_HPD_INTERRUPTS i94) i95 (en95 CFG_HPD_INTERRUPTS i95) := by
  rw [adv7533_power_on_from_off i2c p rv w hoff]
  obtain ⟨k, hk, a1, hff⟩ :=
    adv7533_write_regs_step i2c p adv7533_init_setup w hc adv7533_init_setup_valid
  obtain ⟨i94, i95, -, -, -, -, -, -, a2⟩ :=
    adv7533_enable_interrupts_step i2c CFG_HPD_INTERRUPTS rv _ (a1.client hc)
  exact ⟨rfl, rfl, fun h => hfail (hff h).2, k, i94, i95, hk, a1.2.1, a2.2.1⟩

/-- Witness for the amended C15 on the adapter where every transfer
fails. -/
theorem adv7533_power_on_init_failure_witness :
    world0.client = true ∧ pdata0.is_power_on = false ∧
    (adv7533_write_regs (dies_after 0) pdata0 adv7533_init_setup world0).1 ≠ 0 ∧
    (adv7533_power_on (dies_after 0) (some pdata0) true 0 world0).1 = 0 ∧
    (adv7533_power_on (dies_after 0) (some pdata0) true 0 world0).2.1
      = some { pdata0 with is_power_on := true } :=
  ⟨rfl, rfl, by decide,
    (adv7533_power_on_init_failure (dies_after 0) pdata0 0 world0 rfl rfl (by decide)).1,
    (adv7533_power_on_init_failure (dies_after 0) pdata0 0 world0 rfl rfl (by decide)).2.1⟩

/-! ## HDCP enable -/

theorem hdcp_af_bits (r : Nat) (hr : r < 256) (en enc : Bool) (i : Nat) :
    (hdcp_af r en enc).testBit i = if i = 7 then en else if i = 4 then enc else r.testBit i := by
  have e1 : BIT 7 = 2 ^ 7 := by decide
  have e2 : BIT 4 = 2 ^ 4 := by decide
  have e3 : not8 (BIT 7) = 2 ^ 7 - 1 := by decide
  have e4 : not8 (BIT 4) = (2 ^ 8 - 1) ^^^ 2 ^ 4 := by decide
  have hhi : 8 ≤ i → r.testBit i = false := fun h =>
    Nat.testBit_lt_two_pow (lt_of_lt_of_le hr (Nat.pow_le_pow_right (show 0 < 2 by decide) h))
  simp only [hdcp_af, e3, e4]
  simp only [e1, e2]
  clear e1 e2 e3 e4
  have c7 : (7 = i) = (i = 7) := propext eq_comm
  have c4 : (4 = i) = (i = 4) := propext eq_comm
  cases en <;> cases enc <;>
    simp only [Nat.testBit_or, Nat.testBit_and, Nat.testBit_xor, Nat.testBit_two_pow_sub_one,
      Nat.testBit_two_pow, if_true, if_false, Bool.false_eq_true, c7, c4] <;>
    (by_cases h7 : i = 7
     · subst h7; simp
     · by_cases h4 : i = 4
       · subst h4; simp
       · by_cases h8 : 8 ≤ i
         · have a := hhi h8
           have b : ¬ i < 7 := by omega
           have c : ¬ i < 8 := by omega
           simp [a, b, c, h7, h4]
         · have b : i < 7 := by omega
           have c : i < 8 := by omega
           simp [b, c, h7, h4])

theorem hdcp_af_lt (r : Nat) (hr : r < 256) (en enc : Bool) : hdcp_af r en enc < 256 := by
  simp only [hdcp_af]
  split_ifs <;> repeat (first | exact hr | apply or_byte | apply and_byte | decide)

theorem or_and_mask (r m : Nat) : (r ||| m) &&& m = m := by
  apply Nat.eq_of_testBit_eq
  intro i
  simp only [Nat.testBit_and, Nat.testBit_or]
  cases r.testBit i <;> cases m.testBit i <;> rfl

theorem and_and_disjoint (r a m : Nat) (h : a &&& m = 0) : (r &&& a) &&& m = 0 := by
  rw [Nat.and_assoc, h, Nat.and_zero]

theorem en_hdcp (v : Nat) :
    en94 CFG_HDCP_INTERRUPTS v = v ||| 0x02 ∧ en95 CFG_HDCP_INTERRUPTS v = v ||| 0xC0 ∧
    dis94 CFG_HDCP_INTERRUPTS v = v &&& 0xFD ∧ dis95 CFG_HDCP_INTERRUPTS v = v &&& 0x3F := by
  refine ⟨?_, ?_, ?_, ?_⟩ <;>
    simp +decide [en94, en95, dis94, dis95, CFG_HPD_INTERRUPTS, CFG_EDID_INTERRUPTS,
      CFG_HDCP_INTERRUPTS, CFG_CEC_INTERRUPTS, HDCP_INTERRUPTS1, HDCP_INTERRUPTS2,
      HDCP_AUTHENTICATED, HDCP_BKSV_FLAG, HDCP_ERROR, BIT, not8]

/-- C13: on a fault-free adapter where control register 0xAF reads `r` and
the enable registers 0x94, 0x95 read `r94`, `r95`, `adv7533_hdcp_enable`
reads 0xAF and writes back the value whose bit 7 is `hdcp_on`, whose bit 4 is
`enc_on` and whose other bits are those of `r`; it sets the handle's
`hdcp_enabled` to `hdcp_on`; then it reads 0x94 and 0x95 and writes them, if
changed, with the HDCP bits (0x02, resp. 0xC0) set when `hdcp_on` is true and
cleared when it is false. -/
theorem adv7533_hdcp_enable_rmw {σ : Type} (i2c : I2cAdapter σ) (hff : FaultFree i2c)
    (p : adv7533) (hdcp_on enc_on : Bool) (rv : Nat) (g : Indeterminate) (w : World σ)
    (hc : w.client = true) (r r94 r95 : Nat) (hrb : r < 256) (h94b : r94 < 256)
    (h95b : r95 < 256)
    (hAF : ∀ s, (i2c s (Xfer.rd 0x39 0xAF 1)).2.2 = [r])
    (h94 : ∀ s, (i2c s (Xfer.rd 0x39 0x94 1)).2.2 = [r94])
    (h95 : ∀ s, (i2c s (Xfer.rd 0x39 0x95 1)).2.2 = [r95]) :
    (adv7533_hdcp_enable i2c (some p) hdcp_on enc_on rv g w).2.1
      = some { p with hdcp_enabled := hdcp_on } ∧
    xfers (adv7533_hdcp_enable i2c (some p) hdcp_on enc_on rv g w).2.2.log =
      xfers w.log ++ [Xfer.rd 0x39 0xAF 1, Xfer.wr 0x39 0xAF (hdcp_af r hdcp_on enc_on)] ++
        mask_xfers r94 (if hdcp_on then r94 ||| 0x02 else r94 &&& 0xFD)
          r95 (if hdcp_on then r95 ||| 0xC0 else r95 &&& 0x3F) ∧
    (∀ i : Nat, (hdcp_af r hdcp_on enc_on).testBit i =
      if i = 7 then hdcp_on else if i = 4 then enc_on else r.testBit i) ∧
    ((r94 ||| 0x02) &&& 0x02 = 0x02 ∧ (r95 ||| 0xC0) &&& 0xC0 = 0xC0 ∧
      (r94 &&& 0xFD) &&& 0x02 = 0 ∧ (r95 &&& 0x3F) &&& 0xC0 = 0) := by
  refine ⟨rfl, ?_, hdcp_af_bits r hrb hdcp_on enc_on,
    or_and_mask _ _, or_and_mask _ _, and_and_disjoint _ _ _ (by decide),
    and_and_disjoint _ _ _ (by decide)⟩
  have hv := adv7533_read_into_value i2c hff I2C_ADDR_MAIN 0xAF (u8 rv) r w hc (by decide)
    (by decide) hrb hAF
  have a1 := adv7533_read_into_step i2c I2C_ADDR_MAIN 0xAF [u8 rv] 1 w hc
  have c1 := a1.client hc
  let w0 := (adv7533_read_into i2c I2C_ADDR_MAIN 0xAF [u8 rv] 1 w).2.2
  let w1 := write_bytes i2c [(I2C_ADDR_MAIN, 0xAF, hdcp_af r hdcp_on enc_on)] w0
  have a2 : Step w0 w1 [Xfer.wr 0x39 0xAF (hdcp_af r hdcp_on enc_on)] [] := by
    have := write_bytes_step i2c [(I2C_ADDR_MAIN, 0xAF, hdcp_af r hdcp_on enc_on)] w0 c1
    have e : u8 (hdcp_af r hdcp_on enc_on) = hdcp_af r hdcp_on enc_on :=
      Nat.mod_eq_of_lt (hdcp_af_lt r hrb _ _)
    simp only [List.map, wr_of, e] at this
    exact this
  have c2 := a2.client c1
  have hout : (adv7533_hdcp_enable i2c (some p) hdcp_on enc_on rv g w).2.2 =
      (if hdcp_on then adv7533_enable_interrupts i2c CFG_HDCP_INTERRUPTS g.reg_val w1
        else adv7533_disable_interrupts i2c CFG_HDCP_INTERRUPTS g.reg_val w1).2 := by
    simp only [adv7533_hdcp_enable, hv, hdcp_af, w1, w0]
  rw [hout]
  obtain ⟨k1, k2, k3, k4⟩ := en_hdcp r94
  obtain ⟨m1, m2, m3, m4⟩ := en_hdcp r95
  cases hdcp_on
  · have a3 := adv7533_disable_interrupts_ok i2c hff CFG_HDCP_INTERRUPTS g.reg_val w1 c2 r94 r95
      h94b h95b h94 h95
    rw [k3, m4] at a3
    have := ((a1.trans a2).trans a3).2.1
    simpa [I2C_ADDR_MAIN, u8] using this
  · have a3 := adv7533_enable_interrupts_ok i2c hff CFG_HDCP_INTERRUPTS g.reg_val w1 c2 r94 r95
      h94b h95b h94 h95
    rw [k1, m2] at a3
    have := ((a1.trans a2).trans a3).2.1
    simpa [I2C_ADDR_MAIN, u8] using this

/-- Witness for C13: 0xAF reads 0x16, HDCP and encryption are switched on:
0x96 is written to 0xAF, 0xC6 to 0x94 and 0xC0 to 0x95. -/
theorem adv7533_hdcp_enable_rmw_witness :
    FaultFree (const_chip regs_hdcp) ∧ world0.client = true ∧
    (adv7533_hdcp_enable (const_chip regs_hdcp) (some pdata0) true true 0 g0 world0).2.1
      = some { pdata0 with hdcp_enabled := true } ∧
    xfers (adv7533_hdcp_enable (const_chip regs_hdcp) (some pdata0) true true 0 g0
        world0).2.2.log =
      xfers world0.log ++ [Xfer.rd 0x39 0xAF 1, Xfer.wr 0x39 0xAF (hdcp_af 0x16 true true)] ++
        mask_xfers 0xC4 (if true then 0xC4 ||| 0x02 else 0xC4 &&& 0xFD)
          0x00 (if true then 0x00 ||| 0xC0 else 0x00 &&& 0x3F) ∧
    xfers (adv7533_hdcp_enable (const_chip regs_hdcp) (some pdata0) true true 0 g0
        world0).2.2.log =
      [Xfer.rd 0x39 0xAF 1, Xfer.wr 0x39 0xAF 0x96, Xfer.rd 0x39 0x94 1,
       Xfer.wr 0x39 0x94 0xC6, Xfer.rd 0x39 0x95 1, Xfer.wr 0x39 0x95 0xC0] :=
  ⟨const_chip_fault_free _, rfl,
    (adv7533_hdcp_enable_rmw (const_chip regs_hdcp) (const_chip_fault_free _) pdata0 true true 0
      g0 world0 rfl 0x16 0xC4 0x00 (by decide) (by decide) (by decide) (fun _ => rfl)
      (fun _ => rfl) (fun _ => rfl)).1,
    (adv7533_hdcp_enable_rmw (const_chip regs_hdcp) (const_chip_fault_free _) pdata0 true true 0
      g0 world0 rfl 0x16 0xC4 0x00 (by decide) (by decide) (by decide) (fun _ => rfl)
      (fun _ => rfl) (fun _ => rfl)).2.1,
    by decide⟩

/-! ## Audio configuration -/

/-- A bit field of `k` bits at position `s`, masked and shifted down. -/
theorem field_eq (t s k : Nat) : (t &&& ((2 ^ k - 1) <<< s)) >>> s = (t / 2 ^ s) % 2 ^ k := by
  have h1 : (t &&& ((2 ^ k - 1) <<< s)) >>> s = (t >>> s) &&& (2 ^ k - 1) := by
    apply Nat.eq_of_testBit_eq
    intro j
    simp only [Nat.testBit_shiftRight, Nat.testBit_and, Nat.testBit_shiftLeft,
      Nat.testBit_two_pow_sub_one]
    simp
  rw [h1, Nat.and_pow_two_sub_one_eq_mod, Nat.shiftRight_eq_div_pow]

theorem acr_bytes (n : Nat) (hn : n < 2 ^ 20) :
    u8 (0 ||| ((n &&& 0x000FF) >>> 0)) = n % 256 ∧
    u8 (0 ||| ((n &&& 0x0FF00) >>> 8)) = n / 256 % 256 ∧
    u8 (0 ||| ((n &&& 0xF0000) >>> 16)) = n / 65536 := by
  have e0 : (0x000FF : Nat) = (2 ^ 8 - 1) <<< 0 := by decide
  have e1 : (0x0FF00 : Nat) = (2 ^ 8 - 1) <<< 8 := by decide
  have e2 : (0xF0000 : Nat) = (2 ^ 4 - 1) <<< 16 := by decide
  rw [e0, e1, e2, field_eq, field_eq, field_eq]
  simp only [Nat.zero_or, u8]
  have hn' : n < 1048576 := hn
  refine ⟨?_, ?_, ?_⟩
  · norm_num
  · norm_num
  · norm_num
    omega

theorem audio_reg_cfg_valid (cfg : msm_dba_audio_cfg) : ∀ c ∈ audio_reg_cfg cfg, valid_sel c := by
  intro c hc
  simp only [audio_reg_cfg, List.mem_cons, List.mem_singleton, List.not_mem_nil, or_false] at hc
  rcases hc with h | h | h | h | h | h | h | h | h | h | h | h | h | h | h <;>
    (subst h; exact Or.inl rfl)

theorem sampling_rate_byte (r : msm_dba_audio_sampling_rates_type) :
    u8 ((sampling_rate_code r &&& 0xF) <<< 4) = sampling_rate_code r <<< 4 := by
  cases r <;> decide

/-- C14: `adv7533_configure_audio` applies one table of 15 entries for the
main address, registers 0x12, 0x13, 0x14, 0x15, 0x0A, 0x0C, 0x0D, 0x03, 0x02,
0x01, 0x09, 0x08, 0x07, 0x73, 0x76 in this order: with the client bound, all
15 writes reach the bus on a fault-free adapter, and a prefix of them
otherwise. For `N < 2^20` the bytes for 0x03, 0x02, 0x01 are `N[7:0]`,
`N[15:8]`, `N[19:16]`, which recombine to `N`, and likewise `CTS` over 0x09,
0x08, 0x07; register 0x15 gets `code << 4` with `code` 0x3, 0x0, 0x2, 0x8,
0xA, 0xC, 0xE for 32, 44.1, 48, 88.2, 96, 176.4 and 192 kHz. -/
theorem adv7533_configure_audio_regs {σ : Type} (i2c : I2cAdapter σ) (p : adv7533)
    (cfg : msm_dba_audio_cfg) (w : World σ) (hc : w.client = true)
    (hn : cfg.n < 2 ^ 20) (hcts : cfg.cts < 2 ^ 20) :
    (∃ k : Nat, k ≤ 15 ∧
      xfers (adv7533_configure_audio i2c (some p) (some cfg) w).2.log =
        xfers w.log ++ ((audio_reg_cfg cfg).take k).map (reg_xfer p) ∧
      (FaultFree i2c → k = 15)) ∧
    (∃ r0 r1 r2 r4 r5 r6 r13 r14 : Nat, audio_reg_cfg cfg =
      [⟨I2C_ADDR_MAIN, 0x12, r0⟩, ⟨I2C_ADDR_MAIN, 0x13, r1⟩, ⟨I2C_ADDR_MAIN, 0x14, r2⟩,
       ⟨I2C_ADDR_MAIN, 0x15, sampling_rate_code cfg.sampling_rate <<< 4⟩,
       ⟨I2C_ADDR_MAIN, 0x0A, r4⟩, ⟨I2C_ADDR_MAIN, 0x0C, r5⟩, ⟨I2C_ADDR_MAIN, 0x0D, r6⟩,
       ⟨I2C_ADDR_MAIN, 0x03, cfg.n % 256⟩, ⟨I2C_ADDR_MAIN, 0x02, cfg.n / 256 % 256⟩,
       ⟨I2C_ADDR_MAIN, 0x01, cfg.n / 65536⟩,
       ⟨I2C_ADDR_MAIN, 0x09, cfg.cts % 256⟩, ⟨I2C_ADDR_MAIN, 0x08, cfg.cts / 256 % 256⟩,
       ⟨I2C_ADDR_MAIN, 0x07, cfg.cts / 65536⟩,
       ⟨I2C_ADDR_MAIN, 0x73, r13⟩, ⟨I2C_ADDR_MAIN, 0x76, r14⟩]) ∧
    (cfg.n / 65536 * 65536 + cfg.n / 256 % 256 * 256 + cfg.n % 256 = cfg.n ∧
      cfg.cts / 65536 * 65536 + cfg.cts / 256 % 256 * 256 + cfg.cts % 256 = cfg.cts ∧
      cfg.n / 65536 < 16 ∧ cfg.cts / 65536 < 16) ∧
    (sampling_rate_code .MSM_DBA_AUDIO_32KHZ = 0x3 ∧
      sampling_rate_code .MSM_DBA_AUDIO_44P1KHZ = 0x0 ∧
      sampling_rate_code .MSM_DBA_AUDIO_48KHZ = 0x2 ∧
      sampling_rate_code .MSM_DBA_AUDIO_88P2KHZ = 0x8 ∧
      sampling_rate_code .MSM_DBA_AUDIO_96KHZ = 0xA ∧
      sampling_rate_code .MSM_DBA_AUDIO_176P4KHZ = 0xC ∧
      sampling_rate_code .MSM_DBA_AUDIO_192KHZ = 0xE) := by
  have hn' : cfg.n < 1048576 := hn
  have hc' : cfg.cts < 1048576 := hcts
  refine ⟨?_, ?_, ⟨by omega, by omega, by omega, by omega⟩,
    ⟨rfl, rfl, rfl, rfl, rfl, rfl, rfl⟩⟩
  · obtain ⟨k, hk, st, hff⟩ :=
      adv7533_write_regs_step i2c p (audio_reg_cfg cfg) w hc (audio_reg_cfg_valid cfg)
    have hlen : (audio_reg_cfg cfg).length = 15 := rfl
    exact ⟨k, hlen ▸ hk, st.2.1, fun h => hlen ▸ (hff h).1⟩
  · obtain ⟨n1, n2, n3⟩ := acr_bytes cfg.n hn
    obtain ⟨c1, c2, c3⟩ := acr_bytes cfg.cts hcts
    refine ⟨((audio_reg_cfg cfg).map (fun c => c.val)).getD 0 0,
      ((audio_reg_cfg cfg).map (fun c => c.val)).getD 1 0,
      ((audio_reg_cfg cfg).map (fun c => c.val)).getD 2 0,
      ((audio_reg_cfg cfg).map (fun c => c.val)).getD 4 0,
      ((audio_reg_cfg cfg).map (fun c => c.val)).getD 5 0,
      ((audio_reg_cfg cfg).map (fun c => c.val)).getD 6 0,
      ((audio_reg_cfg cfg).map (fun c => c.val)).getD 13 0,
      ((audio_reg_cfg cfg).map (fun c => c.val)).getD 14 0, ?_⟩
    simp only [audio_reg_cfg, n1, n2, n3, c1, c2, c3, sampling_rate_byte, List.map,
      List.getD_cons_zero, List.getD_cons_succ]

/-- Witness for C14: the 48 kHz configuration on the test adapter; N = 6144
= 0x001800 goes out as 0x00, 0x18, 0x00 and the rate code 0x2 as 0x20. -/
theorem adv7533_configure_audio_regs_witness :
    world0.client = true ∧ audio_48k.n < 2 ^ 20 ∧ audio_48k.cts < 2 ^ 20 ∧
    (∃ k : Nat, k ≤ 15 ∧
      xfers (adv7533_configure_audio (flaky 0) (some pdata0) (some audio_48k) world0).2.log =
        xfers world0.log ++ ((audio_reg_cfg audio_48k).take k).map (reg_xfer pdata0)) ∧
    xfers (adv7533_configure_audio (flaky 0) (some pdata0) (some audio_48k) world0).2.log =
      [Xfer.wr 0x39 0x12 0x21, Xfer.wr 0x39 0x13 0x00, Xfer.wr 0x39 0x14 0x02,
       Xfer.wr 0x39 0x15 0x20, Xfer.wr 0x39 0x0A 0x00, Xfer.wr 0x39 0x0C 0x84,
       Xfer.wr 0x39 0x0D 0x18, Xfer.wr 0x39 0x03 0x00, Xfer.wr 0x39 0x02 0x18,
       Xfer.wr 0x39 0x01 0x00, Xfer.wr 0x39 0x09 0x0A, Xfer.wr 0x39 0x08 0x22,
       Xfer.wr 0x39 0x07 0x01, Xfer.wr 0x39 0x73 0x01, Xfer.wr 0x39 0x76 0x00] :=
  ⟨rfl, by decide, by decide,
    (let ⟨⟨k, h1, h2, _⟩, _⟩ :=
      adv7533_configure_audio_regs (flaky 0) pdata0 audio_48k world0 rfl (by decide) (by decide)
     ⟨k, h1, h2⟩),
    by decide⟩

/-! ## Steps of the deferred handler -/

/-- With the client bound, the HPD step is one read of register 0x42; it
sends Disconnect when bits 5 and 6 of the value are both clear and yields 1
when they are both set, 0 otherwise. -/
theorem adv7533_handle_hpd_intr_step {σ : Type} (i2c : I2cAdapter σ) (h0 : Nat) (w : World σ)
    (hc : w.client = true) :
    Step w (adv7533_handle_hpd_intr i2c h0 w).2 [Xfer.rd 0x39 0x42 1]
      (hpd_events (byte0 (adv7533_read_into i2c I2C_ADDR_MAIN 0x42 [u8 h0] 1 w).2.1)) ∧
    (adv7533_handle_hpd_intr i2c h0 w).1 =
      (if (byte0 (adv7533_read_into i2c I2C_ADDR_MAIN 0x42 [u8 h0] 1 w).2.1 &&& BIT 5 != 0) &&
          (byte0 (adv7533_read_into i2c I2C_ADDR_MAIN 0x42 [u8 h0] 1 w).2.1 &&& BIT 6 != 0)
        then 1 else 0) := by
  have a1 := adv7533_read_into_step i2c I2C_ADDR_MAIN 0x42 [u8 h0] 1 w hc
  refine ⟨?_, rfl⟩
  simp only [adv7533_handle_hpd_intr, hpd_events]
  split_ifs
  · simpa [I2C_ADDR_MAIN, u8] using a1
  · have := a1.trans (adv7533_notify_clients_step
      msm_dba_callback_event.MSM_DBA_CB_HPD_DISCONNECT _)
    simpa [I2C_ADDR_MAIN, u8] using this
  · simpa [I2C_ADDR_MAIN, u8] using a1

/-- With the client bound, the segmented EDID read is three read
transactions, whatever the adapter answers: the pointer register, then the
two halves from the address the pointer local holds. -/
theorem adv7533_read_edid_step {σ : Type} (i2c : I2cAdapter σ) (edid_buf : List Nat)
    (e0 : Nat) (w : World σ) (hc : w.client = true) :
    Step w (adv7533_read_edid i2c EDID_SEG_SIZE edid_buf e0 w).2.2
      (edid_xfers (u8 (byte0
        (adv7533_read_into i2c I2C_ADDR_MAIN 0x43 [u8 e0] 1 w).2.1 >>> 1))) [] := by
  have hrs : u32 EDID_SEG_SIZE / 2 = 128 := by decide
  simp only [adv7533_read_edid, hrs]
  have a1 := adv7533_read_into_step i2c I2C_ADDR_MAIN 0x43 [u8 e0] 1 w hc
  have c1 := a1.client hc
  have a2 := adv7533_read_into_step i2c
    (byte0 (adv7533_read_into i2c I2C_ADDR_MAIN 0x43 [u8 e0] 1 w).2.1 >>> 1) 0x00 edid_buf 128
    _ c1
  have c2 := a2.client c1
  have a3 := adv7533_read_into_step i2c
    (byte0 (adv7533_read_into i2c I2C_ADDR_MAIN 0x43 [u8 e0] 1 w).2.1 >>> 1) 128
    ((adv7533_read_into i2c
      (byte0 (adv7533_read_into i2c I2C_ADDR_MAIN 0x43 [u8 e0] 1 w).2.1 >>> 1) 0x00 edid_buf 128
      (adv7533_read_into i2c I2C_ADDR_MAIN 0x43 [u8 e0] 1 w).2.2).2.1.drop 128) 128 _ c2
  have := (a1.trans a2).trans a3
  simpa [edid_xfers, I2C_ADDR_MAIN, u8] using this

/-- With the client bound, the HDCP step is at most one read, of DDC status
register 0xC8, made when bit 7 of the status byte is set. -/
theorem adv7533_handle_hdcp_intr_step {σ : Type} (i2c : I2cAdapter σ) (st d0 : Nat)
    (w : World σ) (hc : w.client = true) :
    Step w (adv7533_handle_hdcp_intr i2c st d0 w)
      (if st &&& BIT 7 ≠ 0 then [Xfer.rd 0x39 0xC8 1] else []) [] := by
  simp only [adv7533_handle_hdcp_intr]
  split_ifs
  · have a1 := adv7533_read_into_step i2c I2C_ADDR_MAIN 0xC8 [u8 d0] 1 w hc
    obtain ⟨x, y, z⟩ := a1
    exact ⟨x, by simpa [I2C_ADDR_MAIN, u8] using y, z⟩
  · exact Step.refl w

/-- With the client bound, one slot block of the CEC handler is one
16-byte read of the slot register, followed by one CEC-message-pending
event; the slot gets the buffer of that read, the masked timestamp and
`pending = true`. -/
theorem cec_rx_slot_step {σ : Type} (i2c : I2cAdapter σ) (i : Fin 3) (mask ts : Nat)
    (st : adv7533 × World σ) (hc : st.2.client = true) :
    Step st.2 (cec_rx_slot i2c i mask ts st).2 [Xfer.rd 0x3C (cec_slot_reg i) 16]
      [msm_dba_callback_event.MSM_DBA_CB_CEC_READ_PENDING] ∧
    (cec_rx_slot i2c i mask ts st).1 =
      { st.1 with cec_msg := Function.update st.1.cec_msg i ⟨(adv7533_read_into i2c
          I2C_ADDR_CEC_DSI (cec_slot_reg i) (st.1.cec_msg i).buf CEC_MSG_SIZE st.2).2.1,
          u8 (ts &&& mask), true⟩ } := by
  have hreg : (if i.val = 0 then 0x85 else if i.val = 1 then 0x97
      else if i.val = 2 then 0xA8 else 0) = cec_slot_reg i := by
    fin_cases i <;> rfl
  have hne : cec_slot_reg i ≠ 0 := by fin_cases i <;> decide
  have hu : u8 (cec_slot_reg i) = cec_slot_reg i := by fin_cases i <;> decide
  simp only [cec_rx_slot, adv7533_rd_cec_msg, hreg, hne, if_false]
  refine ⟨?_, trivial⟩
  have a1 := adv7533_read_into_step i2c I2C_ADDR_CEC_DSI (cec_slot_reg i)
    (st.1.cec_msg i).buf CEC_MSG_SIZE st.2 hc
  have := a1.trans (adv7533_notify_clients_step
    msm_dba_callback_event.MSM_DBA_CB_CEC_READ_PENDING _)
  rw [hu] at this
  simpa [I2C_ADDR_CEC_DSI, CEC_MSG_SIZE, MAX_OPERAND_SIZE, u8] using this

theorem cec_rx_cond_step {σ : Type} (i2c : I2cAdapter σ) (c : Prop) [Decidable c] (i : Fin 3)
    (mask ts : Nat) (st : adv7533 × World σ) (hc : st.2.client = true) :
    Step st.2 (if c then cec_rx_slot i2c i mask ts st else st).2
      (if c then [Xfer.rd 0x3C (cec_slot_reg i) 16] else [])
      (if c then [msm_dba_callback_event.MSM_DBA_CB_CEC_READ_PENDING] else []) ∧
    (if c then cec_rx_slot i2c i mask ts st else st).1 =
      { st.1 with cec_msg := if c then Function.update st.1.cec_msg i ⟨(adv7533_read_into i2c
          I2C_ADDR_CEC_DSI (cec_slot_reg i) (st.1.cec_msg i).buf CEC_MSG_SIZE st.2).2.1,
          u8 (ts &&& mask), true⟩ else st.1.cec_msg } := by
  split_ifs
  · exact cec_rx_slot_step i2c i mask ts st hc
  · exact ⟨Step.refl _, rfl⟩

/-- With the client bound and whatever the adapter answers, a CEC receive
interrupt (one of the three low bits of the status byte set) reads the
interrupt-clear, receive-ready and timestamp registers, then for each ready
slot reads its message and sends one CEC-message-pending event, then writes
the interrupt-clear register twice. Slot `i` is replaced iff bit `i` of the
receive-ready value is set; `clr`, `ready` and `ts` are the values the three
locals hold after the reads. -/
theorem adv7533_handle_cec_intr_step {σ : Type} (i2c : I2cAdapter σ) (p : adv7533) (st : Nat)
    (g : Indeterminate) (w : World σ) (hc : w.client = true) (hst : st &&& 0x07 ≠ 0) :
    ∃ (clr ready ts : Nat) (wa wb : World σ) (ws : Fin 3 → World σ),
      wa.client = true ∧ wb.client = true ∧ (∀ i, (ws i).client = true) ∧
      clr = byte0 (adv7533_read_into i2c I2C_ADDR_CEC_DSI 0xBA [0x08] 1 w).2.1 ∧
      ready = byte0 (adv7533_read_into i2c I2C_ADDR_CEC_DSI 0xB9 [u8 g.cec_rx_ready] 1 wa).2.1 ∧
      ts = byte0
        (adv7533_read_into i2c I2C_ADDR_CEC_DSI 0x96 [u8 g.cec_rx_timestamp] 1 wb).2.1 ∧
      Step w (adv7533_handle_cec_intr i2c p st g w).2 (cec_intr_xfers st clr ready)
        (cec_rx_events ready) ∧
      (adv7533_handle_cec_intr i2c p st g w).1 =
        { p with cec_msg := (adv7533_handle_cec_intr i2c p st g w).1.cec_msg } ∧
      ∀ i : Fin 3, (adv7533_handle_cec_intr i2c p st g w).1.cec_msg i =
        if ready &&& BIT i.val ≠ 0 then
          ⟨(adv7533_read_into i2c I2C_ADDR_CEC_DSI (cec_slot_reg i) (p.cec_msg i).buf
            CEC_MSG_SIZE (ws i)).2.1, u8 (ts &&& cec_slot_mask i), true⟩
        else p.cec_msg i := by
  simp only [adv7533_handle_cec_intr, if_pos hst]
  have a0 := adv7533_read_into_step i2c I2C_ADDR_CEC_DSI 0xBA [0x08] 1 w hc
  have c0 := a0.client hc
  generalize hr0 : adv7533_read_into i2c I2C_ADDR_CEC_DSI 0xBA [0x08] 1 w = r0 at *
  have a1 := adv7533_read_into_step i2c I2C_ADDR_CEC_DSI 0xB9 [u8 g.cec_rx_ready] 1 r0.2.2 c0
  have c1 := a1.client c0
  generalize hr1 :
    adv7533_read_into i2c I2C_ADDR_CEC_DSI 0xB9 [u8 g.cec_rx_ready] 1 r0.2.2 = r1 at *
  have a2 := adv7533_read_into_step i2c I2C_ADDR_CEC_DSI 0x96 [u8 g.cec_rx_timestamp] 1
    r1.2.2 c1
  have c2 := a2.client c1
  generalize hr2 :
    adv7533_read_into i2c I2C_ADDR_CEC_DSI 0x96 [u8 g.cec_rx_timestamp] 1 r1.2.2 = r2 at *
  obtain ⟨b0, e0⟩ := cec_rx_cond_step i2c (byte0 r1.2.1 &&& BIT 0 ≠ 0) 0 (BIT 0 ||| BIT 1)
    (byte0 r2.2.1) (p, r2.2.2) c2
  have d0 := b0.client c2
  generalize hA : (if byte0 r1.2.1 &&& BIT 0 ≠ 0 then
    cec_rx_slot i2c 0 (BIT 0 ||| BIT 1) (byte0 r2.2.1) (p, r2.2.2) else (p, r2.2.2)) = A at *
  obtain ⟨b1, e1⟩ := cec_rx_cond_step i2c (byte0 r1.2.1 &&& BIT 1 ≠ 0) 1 (BIT 2 ||| BIT 3)
    (byte0 r2.2.1) A d0
  have d1 := b1.client d0
  generalize hB : (if byte0 r1.2.1 &&& BIT 1 ≠ 0 then
    cec_rx_slot i2c 1 (BIT 2 ||| BIT 3) (byte0 r2.2.1) A else A) = B at *
  obtain ⟨b2, e2⟩ := cec_rx_cond_step i2c (byte0 r1.2.1 &&& BIT 2 ≠ 0) 2 (BIT 4 ||| BIT 5)
    (byte0 r2.2.1) B d1
  have d2 := b2.client d1
  generalize hC : (if byte0 r1.2.1 &&& BIT 2 ≠ 0 then
    cec_rx_slot i2c 2 (BIT 4 ||| BIT 5) (byte0 r2.2.1) B else B) = C at *
  have a3 := write_bytes_step i2c
    [(I2C_ADDR_CEC_DSI, 0xBA, byte0 r0.2.1 ||| (st &&& 0x07)),
     (I2C_ADDR_CEC_DSI, 0xBA, byte0 r0.2.1 &&& not8 0x07)] C.2 d2
  refine ⟨byte0 r0.2.1, byte0 r1.2.1, byte0 r2.2.1, r0.2.2, r1.2.2,
    fun i => if i.val = 0 then r2.2.2 else if i.val = 1 then A.2 else B.2,
    c0, c1, ?_, rfl, by rw [hr1], by rw [hr2], ?_, ?_, ?_⟩
  · intro i
    fin_cases i
    · exact c2
    · exact d0
    · exact d1
  · have := ((((((a0.trans a1).trans a2).trans b0).trans b1).trans b2).trans a3)
    simpa [cec_intr_xfers, cec_rx_xfers, cec_rx_events, cec_slot_reg, wr_of, I2C_ADDR_CEC_DSI,
      u8] using this
  · rw [e2, e1, e0]
  · intro i
    simp only [e2, e1, e0]
    fin_cases i <;> split_ifs <;>
      simp_all [Function.update, cec_slot_reg, cec_slot_mask]

/-! ## CEC receive interrupt -/

/-- Masking a field of width `k` at bit `s` keeps the field in place. -/
theorem field_in_place (t s k : Nat) :
    t &&& ((2 ^ k - 1) <<< s) = ((t >>> s) % 2 ^ k) <<< s := by
  apply Nat.eq_of_testBit_eq
  intro j
  simp only [Nat.testBit_and, Nat.testBit_shiftLeft, Nat.testBit_two_pow_sub_one,
    Nat.testBit_mod_two_pow, Nat.testBit_shiftRight]
  by_cases h : s ≤ j
  · simp [h, Nat.add_sub_cancel' h, Bool.and_comm]
  · simp [h]

theorem cec_slot_mask_eq (i : Fin 3) : cec_slot_mask i = (2 ^ 2 - 1) <<< (2 * i.val) := by
  fin_cases i <;> decide

/-- On a fault-free adapter, with the client bound, a 16-byte read into a
16-byte buffer leaves in it the bytes the adapter delivers. -/
theorem adv7533_read_into_msg {σ : Type} (i2c : I2cAdapter σ) (hff : FaultFree i2c)
    (reg : Nat) (b m : List Nat) (w : World σ) (hc : w.client = true) (hr : reg < 256)
    (hb : b.length = 16) (hm : is_bytes 16 m)
    (hd : ∀ s, (i2c s (Xfer.rd 0x3C reg 16)).2.2 = m) :
    (adv7533_read_into i2c I2C_ADDR_CEC_DSI reg b CEC_MSG_SIZE w).2.1 = m := by
  have k1 : u8 CEC_MSG_SIZE = 16 := by decide
  have k2 : u8 I2C_ADDR_CEC_DSI = 0x3C := by decide
  have k3 : u8 reg = reg := Nat.mod_eq_of_lt hr
  rw [adv7533_read_into_ok i2c hff _ _ _ _ _ hc]
  simp only [k1, k2, k3, hd]
  rw [store_bytes _ _ _ hm, List.drop_of_length_le (by omega), List.append_nil]

/-- C19, counterexample: on a healthy bus where the receive-ready register
0xB9 reads 0x02 (slot 1 ready) and the timestamp register reads 0x0C, the
handler stores the timestamp 12 in slot 1, which is not in the range 0..3
(the 2-bit tag of slot 1 is 3). -/
theorem adv7533_handle_cec_intr_slots_counterexample :
    regs_cec 0x3C 0xB9 &&& BIT 1 ≠ 0 ∧
    ((adv7533_handle_cec_intr (const_chip regs_cec) pdata0 0x02 g0 world0).1.cec_msg
      1).timestamp = 12 ∧
    ¬ ((adv7533_handle_cec_intr (const_chip regs_cec) pdata0 0x02 g0 world0).1.cec_msg
      1).timestamp ≤ 3 := by
  decide

/-- C19, amended: in a CEC receive interrupt (one of the three low bits of
the status byte set) on a fault-free adapter where the receive-ready
register 0xB9 reads `ready`, the timestamp register 0x96 of the CEC map reads
`ts` and the message register of slot `i` (0x85, 0x97, 0xA8) delivers the 16
bytes `m i`: every slot `i` whose bit of `ready` is set holds `m i`, has
`pending = true` and has as timestamp the 2-bit tag of the slot left in
place, `((ts >> 2i) % 4) << 2i` (0..3 for slot 0, a multiple of 4 up to 12
for slot 1, a multiple of 16 up to 48 for slot 2); every slot whose bit is
clear is unchanged; one CEC-message-pending event is sent per ready slot and
no other event; the bus sees the three register reads, one 16-byte read per
ready slot in slot order, and the two writes of the interrupt-clear
register. -/
theorem adv7533_handle_cec_intr_slots {σ : Type} (i2c : I2cAdapter σ) (hff : FaultFree i2c)
    (p : adv7533) (st : Nat) (g : Indeterminate) (w : World σ) (hc : w.client = true)
    (hst : st &&& 0x07 ≠ 0) (ready ts : Nat) (hrb : ready < 256) (htb : ts < 256)
    (m : Fin 3 → List Nat) (hm : ∀ i, is_bytes 16 (m i))
    (hbuf : ∀ i, (p.cec_msg i).buf.length = 16)
    (hr : ∀ s, (i2c s (Xfer.rd 0x3C 0xB9 1)).2.2 = [ready])
    (ht : ∀ s, (i2c s (Xfer.rd 0x3C 0x96 1)).2.2 = [ts])
    (hd : ∀ i s, (i2c s (Xfer.rd 0x3C (cec_slot_reg i) 16)).2.2 = m i) :
    (∀ i : Fin 3, ready &&& BIT i.val ≠ 0 →
      ((adv7533_handle_cec_intr i2c p st g w).1.cec_msg i).buf = m i ∧
      ((adv7533_handle_cec_intr i2c p st g w).1.cec_msg i).pending = true ∧
      ((adv7533_handle_cec_intr i2c p st g w).1.cec_msg i).timestamp =
        ((ts >>> (2 * i.val)) % 4) <<< (2 * i.val)) ∧
    (∀ i : Fin 3, ready &&& BIT i.val = 0 →
      (adv7533_handle_cec_intr i2c p st g w).1.cec_msg i = p.cec_msg i) ∧
    (adv7533_handle_cec_intr i2c p st g w).2.events = w.events ++ cec_rx_events ready ∧
    (∃ clr, xfers (adv7533_handle_cec_intr i2c p st g w).2.log =
      xfers w.log ++ cec_intr_xfers st clr ready) ∧
    (cec_slot_reg 0 = 0x85 ∧ cec_slot_reg 1 = 0x97 ∧ cec_slot_reg 2 = 0xA8) := by
  obtain ⟨clr, rdy, tsv, wa, wb, ws, ca, cb, cs, -, e1, e2, stp, -, hslots⟩ :=
    adv7533_handle_cec_intr_step i2c p st g w hc hst
  rw [adv7533_read_into_value i2c hff I2C_ADDR_CEC_DSI 0xB9 _ ready wa ca (by decide)
    (by decide) hrb hr] at e1
  rw [adv7533_read_into_value i2c hff I2C_ADDR_CEC_DSI 0x96 _ ts wb cb (by decide)
    (by decide) htb ht] at e2
  subst e1 e2
  refine ⟨?_, ?_, stp.2.2, ⟨clr, stp.2.1⟩, by decide⟩
  · intro i hi
    rw [hslots i, if_pos hi]
    refine ⟨adv7533_read_into_msg i2c hff (cec_slot_reg i) _ (m i) (ws i) (cs i)
      (by fin_cases i <;> decide) (hbuf i) (hm i) (hd i), rfl, ?_⟩
    have hlt : tsv &&& cec_slot_mask i < 256 := and_byte _ _ htb
    show u8 (tsv &&& cec_slot_mask i) = _
    rw [u8, Nat.mod_eq_of_lt hlt, cec_slot_mask_eq, field_in_place]
    rfl
  · intro i hi
    rw [hslots i, if_neg (not_not.mpr hi)]

/-- Witness for C19: slot 1 alone ready, timestamp register reading 0x0C:
slot 1 holds the bytes 1..16, is pending and has timestamp 12; slots 0 and 2
are unchanged and one event is sent. -/
theorem adv7533_handle_cec_intr_slots_witness :
    FaultFree (const_chip regs_cec) ∧ world0.client = true ∧ (0x02 : Nat) &&& 0x07 ≠ 0 ∧
    (∀ i, is_bytes 16 (msgs_cec i)) ∧
    (∀ i : Fin 3, (2 : Nat) &&& BIT i.val ≠ 0 →
      ((adv7533_handle_cec_intr (const_chip regs_cec) pdata0 0x02 g0 world0).1.cec_msg i).buf
        = msgs_cec i ∧
      ((adv7533_handle_cec_intr (const_chip regs_cec) pdata0 0x02 g0 world0).1.cec_msg
        i).pending = true ∧
      ((adv7533_handle_cec_intr (const_chip regs_cec) pdata0 0x02 g0 world0).1.cec_msg
        i).timestamp = ((0x0C >>> (2 * i.val)) % 4) <<< (2 * i.val)) ∧
    (adv7533_handle_cec_intr (const_chip regs_cec) pdata0 0x02 g0 world0).1.cec_msg 1 =
      ⟨[1, 2, 3, 4, 5, 6, 7, 8, 9, 10, 11, 12, 13, 14, 15, 16], 12, true⟩ ∧
    (adv7533_handle_cec_intr (const_chip regs_cec) pdata0 0x02 g0 world0).2.events =
      [msm_dba_callback_event.MSM_DBA_CB_CEC_READ_PENDING] :=
  ⟨const_chip_fault_free _, rfl, by decide, by decide,
    (adv7533_handle_cec_intr_slots (const_chip regs_cec) (const_chip_fault_free _) pdata0 0x02
      g0 world0 rfl (by decide) 2 0x0C (by decide) (by decide) msgs_cec (by decide)
      (by decide) (fun _ => rfl) (fun _ => rfl) (fun _ _ => rfl)).1,
    by decide, by decide⟩

/-! ## HDCP error classification -/

/-- On a fault-free adapter where DDC status register 0xC8 reads `v`, an
HDCP error interrupt (bit 7 of the status byte) makes one read of 0xC8 and
prints the diagnostic selected by the low nibble of `v`: the controlling
expression `ddc_status & 0xF0 >> 4` is `ddc_status & 0x0F`. -/
theorem adv7533_handle_hdcp_intr_diag {σ : Type} (i2c : I2cAdapter σ) (hff : FaultFree i2c)
    (st d0 : Nat) (w : World σ) (hc : w.client = true) (hb7 : st &&& BIT 7 ≠ 0) (v : Nat)
    (hv : v < 256) (hd : ∀ s, (i2c s (Xfer.rd 0x39 0xC8 1)).2.2 = [v]) :
    (adv7533_handle_hdcp_intr i2c st d0 w).diag = w.diag ++ [ddc_classify (v % 16)] ∧
    xfers (adv7533_handle_hdcp_intr i2c st d0 w).log = xfers w.log ++ [Xfer.rd 0x39 0xC8 1] ∧
    (adv7533_handle_hdcp_intr i2c st d0 w).events = w.events := by
  have hval := adv7533_read_into_value i2c hff I2C_ADDR_MAIN 0xC8 (u8 d0) v w hc (by decide)
    (by decide) hv hd
  have hstep := adv7533_handle_hdcp_intr_step i2c st d0 w hc
  rw [if_pos hb7] at hstep
  obtain ⟨-, -, f3⟩ := adv7533_read_into_frame i2c I2C_ADDR_MAIN 0xC8 [u8 d0] 1 w
  have e15 : (0xF0 : Nat) >>> 4 = 2 ^ 4 - 1 := by decide
  refine ⟨?_, hstep.2.1, by simpa using hstep.2.2⟩
  simp only [adv7533_handle_hdcp_intr, if_pos hb7, hval, f3, e15,
    Nat.and_pow_two_sub_one_eq_mod]

/-- C18: on a healthy bus with an HDCP error pending (status byte 0x80), a
DDC status of 0x10, whose bits 7:4 hold the code 1 (bad BKSV), is reported
as no-error; the DDC statuses 0x11 and 0x12, which share the upper nibble 1,
are reported as bad-BKSV and Ri-mismatch. The category follows the low
nibble, bits 3:0, of the DDC status. -/
theorem adv7533_handle_hdcp_intr_low_nibble :
    ddc_classify ((0x10 &&& 0xF0) >>> 4) = ddc_diag.BAD_RX_BKSV ∧
    (adv7533_handle_hdcp_intr (const_chip (regs_ddc 0x10)) 0x80 0 world0).diag =
      [ddc_diag.NO_ERROR] ∧
    (0x11 &&& 0xF0) >>> 4 = (0x12 &&& 0xF0) >>> 4 ∧
    (adv7533_handle_hdcp_intr (const_chip (regs_ddc 0x11)) 0x80 0 world0).diag =
      [ddc_diag.BAD_RX_BKSV] ∧
    (adv7533_handle_hdcp_intr (const_chip (regs_ddc 0x12)) 0x80 0 world0).diag =
      [ddc_diag.RI_MISMATCH] ∧
    xfers (adv7533_handle_hdcp_intr (const_chip (regs_ddc 0x10)) 0x80 0 world0).log =
      [Xfer.rd 0x39 0xC8 1] := by
  decide

/-! ## The deferred handler as a whole -/

theorem cec_intr_xfers_not_main (st clr ready : Nat) :
    ∀ x ∈ cec_intr_xfers st clr ready, is_main_write x = false := by
  have h : (cec_intr_xfers st clr ready).all (fun x => !is_main_write x) = true := by
    unfold cec_intr_xfers cec_rx_xfers
    split_ifs <;> rfl
  intro x hx
  have := List.all_eq_true.mp h x hx
  simpa using this

theorem cec_rx_events_no_connect (ready : Nat) :
    msm_dba_callback_event.MSM_DBA_CB_HPD_CONNECT ∉ cec_rx_events ready := by
  unfold cec_rx_events
  split_ifs <;> decide

theorem hpd_events_no_connect (h : Nat) :
    msm_dba_callback_event.MSM_DBA_CB_HPD_CONNECT ∉ hpd_events h := by
  unfold hpd_events
  split_ifs <;> decide

/-- The value `adv7533_handle_hpd_intr` returns is 0 or 1, never an error
pointer. -/
theorem adv7533_handle_hpd_intr_not_err {σ : Type} (i2c : I2cAdapter σ) (h0 : Nat)
    (w : World σ) : IS_ERR (adv7533_handle_hpd_intr i2c h0 w).1 = false := by
  simp only [adv7533_handle_hpd_intr]
  split_ifs <;> decide

/-- With the client bound and whatever the adapter answers, the HDCP and CEC
steps write no register of the main address, send no Connect event and leave
the feature flags and the EDID cache of the handle as they were. -/
theorem hdcp_cec_steps_step {σ : Type} (i2c : I2cAdapter σ) (p : adv7533) (s2 : Nat)
    (g : Indeterminate) (w : World σ) (hc : w.client = true) :
    ∃ (l : List Xfer) (ev : List msm_dba_callback_event),
      Step w (hdcp_cec_steps i2c p s2 g w).2 l ev ∧
      (∀ x ∈ l, is_main_write x = false) ∧
      msm_dba_callback_event.MSM_DBA_CB_HPD_CONNECT ∉ ev ∧
      (hdcp_cec_steps i2c p s2 g w).1.hdcp_enabled = p.hdcp_enabled ∧
      (hdcp_cec_steps i2c p s2 g w).1.cec_enabled = p.cec_enabled ∧
      (hdcp_cec_steps i2c p s2 g w).1.edid_buf = p.edid_buf := by
  obtain ⟨l1, b1, n1⟩ : ∃ l1 : List Xfer,
      Step w (if p.hdcp_enabled then adv7533_handle_hdcp_intr i2c s2 g.ddc_status w else w)
        l1 [] ∧ ∀ x ∈ l1, is_main_write x = false := by
    split_ifs
    · refine ⟨_, adv7533_handle_hdcp_intr_step i2c s2 g.ddc_status w hc, ?_⟩
      intro x hx
      split_ifs at hx
      · rw [List.mem_singleton.mp hx]
        rfl
      · exact absurd hx (List.not_mem_nil _)
    · exact ⟨[], Step.refl w, fun x hx => absurd hx (List.not_mem_nil _)⟩
  have c1 := b1.client hc
  simp only [hdcp_cec_steps]
  generalize (if p.hdcp_enabled then adv7533_handle_hdcp_intr i2c s2 g.ddc_status w else w)
    = w2 at *
  split_ifs with hcec
  · by_cases hst : s2 &&& 0x07 ≠ 0
    · obtain ⟨clr, ready, ts, wa, wb, ws, -, -, -, -, -, -, b2, e, -⟩ :=
        adv7533_handle_cec_intr_step i2c p s2 g w2 c1 hst
      refine ⟨l1 ++ cec_intr_xfers s2 clr ready, [] ++ cec_rx_events ready, b1.trans b2, ?_,
        ?_, ?_, ?_, ?_⟩
      · intro x hx
        rcases List.mem_append.mp hx with h | h
        · exact n1 x h
        · exact cec_intr_xfers_not_main _ _ _ x h
      · simpa using cec_rx_events_no_connect ready
      · rw [e]
      · rw [e]
      · rw [e]
    · have e : adv7533_handle_cec_intr i2c p s2 g w2 = (p, w2) := by
        simp only [adv7533_handle_cec_intr, if_neg hst]
      rw [e]
      exact ⟨l1, [], b1, n1, List.not_mem_nil _, rfl, rfl, rfl⟩
  · exact ⟨l1, [], b1, n1, List.not_mem_nil _, rfl, rfl, rfl⟩

/-- The EDID-ready step in front of the HDCP and CEC steps: when bit 2 of the
status byte is set, the segmented EDID read and then the Connect
notification, whatever the read did. -/
theorem intr_work_dispatch_eq {σ : Type} (i2c : I2cAdapter σ) (p : adv7533) (s1 s2 : Nat)
    (g : Indeterminate) (w : World σ) :
    intr_work_dispatch i2c p s1 s2 g w =
      if s1 &&& BIT 2 ≠ 0 then
        hdcp_cec_steps i2c
          { p with edid_buf := (adv7533_read_edid i2c EDID_SEG_SIZE p.edid_buf g.edid_addr w).2.1 }
          s2 g (adv7533_notify_clients msm_dba_callback_event.MSM_DBA_CB_HPD_CONNECT
            (adv7533_read_edid i2c EDID_SEG_SIZE p.edid_buf g.edid_addr w).2.2)
      else hdcp_cec_steps i2c p s2 g w := by
  by_cases hb : s1 &&& BIT 2 ≠ 0
  · simp only [intr_work_dispatch, hdcp_cec_steps, if_pos hb]
  · simp only [intr_work_dispatch, hdcp_cec_steps, if_neg hb]

theorem edid_xfers_not_main (a : Nat) : ∀ x ∈ edid_xfers a, is_main_write x = false := by
  intro x hx
  simp only [edid_xfers, List.mem_cons, List.mem_singleton, List.not_mem_nil, or_false] at hx
  rcases hx with h | h | h <;> rw [h] <;> rfl

/-- With the client bound and whatever the adapter answers, the steps between
the HPD step and the label `reset` write no register of the main address,
keep the interrupt mask of the handle, and send no Connect event when bit 2
of the status byte is clear. -/
theorem intr_work_dispatch_step {σ : Type} (i2c : I2cAdapter σ) (p : adv7533) (s1 s2 : Nat)
    (g : Indeterminate) (w : World σ) (hc : w.client = true) :
    ∃ (l : List Xfer) (ev : List msm_dba_callback_event),
      Step w (intr_work_dispatch i2c p s1 s2 g w).2 l ev ∧
      (∀ x ∈ l, is_main_write x = false) ∧
      cfg_interrupts (intr_work_dispatch i2c p s1 s2 g w).1 = cfg_interrupts p ∧
      (s1 &&& BIT 2 = 0 → msm_dba_callback_event.MSM_DBA_CB_HPD_CONNECT ∉ ev) := by
  rw [intr_work_dispatch_eq]
  split_ifs with hb
  · have a1 := adv7533_read_edid_step i2c p.edid_buf g.edid_addr w hc
    have c1 := a1.client hc
    have a2 := adv7533_notify_clients_step msm_dba_callback_event.MSM_DBA_CB_HPD_CONNECT
      (adv7533_read_edid i2c EDID_SEG_SIZE p.edid_buf g.edid_addr w).2.2
    have c2 := a2.client c1
    obtain ⟨l, ev, b, n, -, f1, f2, -⟩ := hdcp_cec_steps_step i2c
      { p with edid_buf := (adv7533_read_edid i2c EDID_SEG_SIZE p.edid_buf g.edid_addr w).2.1 }
      s2 g _ c2
    refine ⟨_, _, (a1.trans a2).trans b, ?_, ?_, fun h => absurd h hb⟩
    · intro x hx
      rcases List.mem_append.mp hx with h | h
      · rw [List.append_nil] at h
        exact edid_xfers_not_main _ x h
      · exact n x h
    · simp only [cfg_interrupts, f1, f2]
  · obtain ⟨l, ev, b, n, nc, f1, f2, -⟩ := hdcp_cec_steps_step i2c p s2 g w hc
    exact ⟨l, ev, b, n, by simp only [cfg_interrupts, f1, f2], fun _ => nc⟩

/-- With the client bound and whatever the adapter answers, a cycle of the
deferred handler reads the two status registers; runs its steps, none of
which writes a register of the main address; writes the two status values
back; re-arms the interrupt-enable registers with the mask of the feature
flags; and writes the two EDID-read-init registers iff the HPD step was run
(bit 6 or 7 of the first status byte) and found bits 5 and 6 of the HPD
state set. `s1`, `s2`, `hpd`, `i94`, `i95` are the values the locals hold
after the reads. -/
theorem adv7533_intr_work_step {σ : Type} (i2c : I2cAdapter σ) (p : adv7533)
    (g : Indeterminate) (w : World σ) (hc : w.client = true) :
    ∃ (s1 s2 hpd i94 i95 : Nat) (conn : Int) (mid : List Xfer)
      (ev : List msm_dba_callback_event) (w1 wh wa wb : World σ),
      w1.client = true ∧ wh.client = true ∧ wa.client = true ∧ wb.client = true ∧
      s1 = byte0 (adv7533_read_into i2c I2C_ADDR_MAIN 0x96 [0xFF] 1 w).2.1 ∧
      s2 = byte0 (adv7533_read_into i2c I2C_ADDR_MAIN 0x97 [0xFF] 1 w1).2.1 ∧
      hpd = byte0 (adv7533_read_into i2c I2C_ADDR_MAIN 0x42 [u8 g.hpd_state] 1 wh).2.1 ∧
      i94 = byte0 (adv7533_read_into i2c I2C_ADDR_MAIN 0x94 [u8 g.reg_val] 1 wa).2.1 ∧
      i95 = byte0 (adv7533_read_into i2c I2C_ADDR_MAIN 0x95
        [en94 (cfg_interrupts p) i94] 1 wb).2.1 ∧
      conn = (if s1 &&& (BIT 6 ||| BIT 7) ≠ 0 ∧ hpd &&& BIT 5 ≠ 0 ∧ hpd &&& BIT 6 ≠ 0
        then 1 else 0) ∧
      (∀ x ∈ mid, is_main_write x = false) ∧
      (s1 &&& BIT 2 = 0 → msm_dba_callback_event.MSM_DBA_CB_HPD_CONNECT ∉ ev) ∧
      Step w (adv7533_intr_work i2c p g w).2
        ([Xfer.rd 0x39 0x96 1, Xfer.rd 0x39 0x97 1] ++ mid ++
          [Xfer.wr 0x39 0x96 s1, Xfer.wr 0x39 0x97 s2] ++
          mask_xfers i94 (en94 (cfg_interrupts p) i94) i95 (en95 (cfg_interrupts p) i95) ++
          (if conn ≠ 0 then edid_init_xfers else [])) ev := by
  have a1 := adv7533_read_into_step i2c I2C_ADDR_MAIN 0x96 [0xFF] 1 w hc
  have c1 := a1.client hc
  have hs1 := adv7533_read_into_byte i2c I2C_ADDR_MAIN 0x96 0xFF w (by decide)
  have a2 := adv7533_read_into_step i2c I2C_ADDR_MAIN 0x97 [0xFF] 1 _ c1
  have c2 := a2.client c1
  have hs2 := adv7533_read_into_byte i2c I2C_ADDR_MAIN 0x97 0xFF
    (adv7533_read_into i2c I2C_ADDR_MAIN 0x96 [0xFF] 1 w).2.2 (by decide)
  simp only [adv7533_intr_work, adv7533_handle_hpd_intr_not_err, Bool.false_eq_true, if_false]
  generalize hr1 : adv7533_read_into i2c I2C_ADDR_MAIN 0x96 [0xFF] 1 w = r1 at *
  generalize hr2 : adv7533_read_into i2c I2C_ADDR_MAIN 0x97 [0xFF] 1 r1.2.2 = r2 at *
  have u1 : u8 (byte0 r1.2.1) = byte0 r1.2.1 := Nat.mod_eq_of_lt hs1
  have u2 : u8 (byte0 r2.2.1) = byte0 r2.2.1 := Nat.mod_eq_of_lt hs2
  have a12 : Step w r2.2.2 [Xfer.rd 0x39 0x96 1, Xfer.rd 0x39 0x97 1] [] := by
    simpa [I2C_ADDR_MAIN, u8] using a1.trans a2
  by_cases hb : byte0 r1.2.1 &&& (BIT 6 ||| BIT 7) ≠ 0
  · simp only [if_pos hb]
    obtain ⟨ah, hv⟩ := adv7533_handle_hpd_intr_step i2c g.hpd_state r2.2.2 c2
    have ch := ah.client c2
    obtain ⟨l, ev, ad, hl, hcfg, hconn⟩ := intr_work_dispatch_step i2c p (byte0 r1.2.1)
      (byte0 r2.2.1) g _ ch
    have cd := ad.client ch
    obtain ⟨i94, i95, wa, wb, ca, cb, e94, e95, ar⟩ := intr_work_reset_step i2c
      (intr_work_dispatch i2c p (byte0 r1.2.1) (byte0 r2.2.1) g
        (adv7533_handle_hpd_intr i2c g.hpd_state r2.2.2).2).1
      (byte0 r1.2.1) (byte0 r2.2.1) (adv7533_handle_hpd_intr i2c g.hpd_state r2.2.2).1 g _ cd
    rw [hcfg] at ar e95
    rw [u1, u2] at ar
    refine ⟨byte0 r1.2.1, byte0 r2.2.1, _, i94, i95,
      (adv7533_handle_hpd_intr i2c g.hpd_state r2.2.2).1, [Xfer.rd 0x39 0x42 1] ++ l,
      hpd_events (byte0
        (adv7533_read_into i2c I2C_ADDR_MAIN 0x42 [u8 g.hpd_state] 1 r2.2.2).2.1) ++ ev,
      r1.2.2, r2.2.2, wa, wb, c1, c2, ca, cb, rfl, by rw [hr2], rfl, e94, e95, ?_, ?_, ?_, ?_⟩
    · rw [hv]
      simp only [hb, true_and, bne_iff_ne, ne_eq, Bool.and_eq_true, decide_eq_true_eq,
        not_false_eq_true]
    · intro x hx
      rcases List.mem_append.mp hx with h | h
      · rw [List.mem_singleton.mp h]
        rfl
      · exact hl x h
    · intro h2 hmem
      rcases List.mem_append.mp hmem with h | h
      · exact hpd_events_no_connect _ h
      · exact hconn h2 h
    · have := ((a12.trans ah).trans ad).trans ar
      simpa [List.append_assoc] using this
  · simp only [if_neg hb]
    obtain ⟨l, ev, ad, hl, hcfg, hconn⟩ := intr_work_dispatch_step i2c p (byte0 r1.2.1)
      (byte0 r2.2.1) g r2.2.2 c2
    have cd := ad.client c2
    obtain ⟨i94, i95, wa, wb, ca, cb, e94, e95, ar⟩ := intr_work_reset_step i2c
      (intr_work_dispatch i2c p (byte0 r1.2.1) (byte0 r2.2.1) g r2.2.2).1
      (byte0 r1.2.1) (byte0 r2.2.1) 0 g _ cd
    rw [hcfg] at ar e95
    rw [u1, u2] at ar
    refine ⟨byte0 r1.2.1, byte0 r2.2.1, _, i94, i95, 0, l, ev,
      r1.2.2, r2.2.2, wa, wb, c1, c2, ca, cb, rfl, by rw [hr2], rfl, e94, e95, ?_, hl, hconn,
      ?_⟩
    · simp only [hb, false_and, if_false]
    · have := (a12.trans ad).trans ar
      simpa [List.append_assoc] using this

theorem mask_xfers_no_init (a b c d : Nat) : ∀ x ∈ mask_xfers a b c d, x ∉ edid_init_xfers := by
  intro x hx hin
  simp only [edid_init_xfers, List.mem_cons, List.mem_singleton, List.not_mem_nil,
    or_false] at hin
  unfold mask_xfers at hx
  rcases hin with h | h <;> subst h <;> split_ifs at hx <;> simp at hx

theorem is_main_write_init : ∀ x ∈ edid_init_xfers, is_main_write x = true := by decide

/-- C17: in a cycle of the deferred handler on a fault-free adapter where the
status registers 0x96 and 0x97 read `s1` and `s2`, the HPD state register
reads `h` and the interrupt-enable registers read `r94` and `r95`, the bus
sees, in this order: the two status reads; the transfers of the steps, none
of them a write to the main address; the write of `s1` to 0x96, then of `s2`
to 0x97; the re-arm of 0x94 and 0x95; and, last, the writes 0x41 <- 0x10 and
0xC9 <- 0x13 iff the HPD step ran (bit 6 or 7 of `s1`) and found the sink
connected (bits 5 and 6 of `h`). Nothing before them is an EDID-init
write, so a cycle without a connect has none. -/
theorem adv7533_intr_work_order {σ : Type} (i2c : I2cAdapter σ) (hff : FaultFree i2c)
    (p : adv7533) (g : Indeterminate) (w : World σ) (hc : w.client = true)
    (s1 s2 h r94 r95 : Nat) (hs1 : s1 < 256) (hs2 : s2 < 256) (hh : h < 256)
    (h94b : r94 < 256) (h95b : r95 < 256)
    (d96 : ∀ s, (i2c s (Xfer.rd 0x39 0x96 1)).2.2 = [s1])
    (d97 : ∀ s, (i2c s (Xfer.rd 0x39 0x97 1)).2.2 = [s2])
    (d42 : ∀ s, (i2c s (Xfer.rd 0x39 0x42 1)).2.2 = [h])
    (d94 : ∀ s, (i2c s (Xfer.rd 0x39 0x94 1)).2.2 = [r94])
    (d95 : ∀ s, (i2c s (Xfer.rd 0x39 0x95 1)).2.2 = [r95]) :
    ∃ mid : List Xfer,
      xfers (adv7533_intr_work i2c p g w).2.log =
        xfers w.log ++
          ([Xfer.rd 0x39 0x96 1, Xfer.rd 0x39 0x97 1] ++ mid ++
            [Xfer.wr 0x39 0x96 s1, Xfer.wr 0x39 0x97 s2] ++
            mask_xfers r94 (r94 ||| 0xC0 ||| 0x04 ||| (if p.hdcp_enabled then 0x02 else 0))
              r95 (r95 ||| (if p.hdcp_enabled then 0xC0 else 0) |||
                (if p.cec_enabled then 0x3F else 0))) ++
          (if s1 &&& (BIT 6 ||| BIT 7) ≠ 0 ∧ h &&& BIT 5 ≠ 0 ∧ h &&& BIT 6 ≠ 0
            then [Xfer.wr 0x39 0x41 0x10, Xfer.wr 0x39 0xC9 0x13] else []) ∧
      ∀ x ∈ [Xfer.rd 0x39 0x96 1, Xfer.rd 0x39 0x97 1] ++ mid ++
            [Xfer.wr 0x39 0x96 s1, Xfer.wr 0x39 0x97 s2] ++
            mask_xfers r94 (r94 ||| 0xC0 ||| 0x04 ||| (if p.hdcp_enabled then 0x02 else 0))
              r95 (r95 ||| (if p.hdcp_enabled then 0xC0 else 0) |||
                (if p.cec_enabled then 0x3F else 0)),
        x ≠ Xfer.wr 0x39 0x41 0x10 ∧ x ≠ Xfer.wr 0x39 0xC9 0x13 := by
  obtain ⟨t1, t2, hpd, i94, i95, conn, mid, ev, w1, wh, wa, wb, c1, ch, ca, cb, e1, e2, eh,
    e94, e95, econn, hmid, -, stp⟩ := adv7533_intr_work_step i2c p g w hc
  rw [adv7533_read_into_value i2c hff I2C_ADDR_MAIN 0x96 _ s1 w hc (by decide) (by decide)
    hs1 d96] at e1
  rw [adv7533_read_into_value i2c hff I2C_ADDR_MAIN 0x97 _ s2 w1 c1 (by decide) (by decide)
    hs2 d97] at e2
  rw [adv7533_read_into_value i2c hff I2C_ADDR_MAIN 0x42 _ h wh ch (by decide) (by decide)
    hh d42] at eh
  rw [adv7533_read_into_value i2c hff I2C_ADDR_MAIN 0x94 _ r94 wa ca (by decide) (by decide)
    h94b d94] at e94
  rw [adv7533_read_into_value i2c hff I2C_ADDR_MAIN 0x95 _ r95 wb cb (by decide) (by decide)
    h95b d95] at e95
  subst e1 e2 eh e94 e95
  have hx := stp.2.1
  rw [en94_cfg, en95_cfg] at hx
  refine ⟨mid, ?_, ?_⟩
  · rw [hx, econn, List.append_assoc (xfers w.log)]
    congr 2
    split_ifs <;> first | rfl | contradiction
  · have hne : ∀ x, x ∉ edid_init_xfers →
        x ≠ Xfer.wr 0x39 0x41 0x10 ∧ x ≠ Xfer.wr 0x39 0xC9 0x13 := by
      intro x hx
      constructor <;> (rintro rfl; exact hx (by decide))
    intro x hx
    apply hne
    intro hin
    have hmw := is_main_write_init x hin
    simp only [List.mem_append] at hx
    rcases hx with ((hx | hx) | hx) | hx
    · simp only [List.mem_cons, List.mem_singleton, List.not_mem_nil, or_false] at hx
      rcases hx with h | h <;> rw [h] at hmw <;> exact absurd hmw (by decide)
    · rw [hmid x hx] at hmw
      exact absurd hmw (by decide)
    · simp only [List.mem_cons, List.mem_singleton, List.not_mem_nil, or_false] at hx
      rcases hx with h | h <;> rw [h] at hin <;> simp [edid_init_xfers] at hin
    · exact mask_xfers_no_init _ _ _ _ x hx hin

/-- Witness for C17: a hot-plug cycle that finds the sink connected (0x96
reads 0xC0, 0x42 reads 0x60) on a healthy bus: status reads, HPD state read,
write-backs, re-arm, and the two EDID-init writes last. -/
theorem adv7533_intr_work_order_witness :
    FaultFree (const_chip regs_conn) ∧ world0.client = true ∧
    (∃ mid : List Xfer,
      xfers (adv7533_intr_work (const_chip regs_conn) pdata0 g0 world0).2.log =
        xfers world0.log ++
          ([Xfer.rd 0x39 0x96 1, Xfer.rd 0x39 0x97 1] ++ mid ++
            [Xfer.wr 0x39 0x96 0xC0, Xfer.wr 0x39 0x97 0] ++
            mask_xfers 0 (0 ||| 0xC0 ||| 0x04 ||| (if pdata0.hdcp_enabled then 0x02 else 0))
              0 (0 ||| (if pdata0.hdcp_enabled then 0xC0 else 0) |||
                (if pdata0.cec_enabled then 0x3F else 0))) ++
          (if 0xC0 &&& (BIT 6 ||| BIT 7) ≠ 0 ∧ 0x60 &&& BIT 5 ≠ 0 ∧ 0x60 &&& BIT 6 ≠ 0
            then [Xfer.wr 0x39 0x41 0x10, Xfer.wr 0x39 0xC9 0x13] else [])) ∧
    xfers (adv7533_intr_work (const_chip regs_conn) pdata0 g0 world0).2.log =
      [Xfer.rd 0x39 0x96 1, Xfer.rd 0x39 0x97 1, Xfer.rd 0x39 0x42 1,
       Xfer.wr 0x39 0x96 0xC0, Xfer.wr 0x39 0x97 0,
       Xfer.rd 0x39 0x94 1, Xfer.wr 0x39 0x94 0xC4, Xfer.rd 0x39 0x95 1,
       Xfer.wr 0x39 0x41 0x10, Xfer.wr 0x39 0xC9 0x13] :=
  ⟨const_chip_fault_free _, rfl,
    (adv7533_intr_work_order (const_chip regs_conn) (const_chip_fault_free _) pdata0 g0 world0
      rfl 0xC0 0 0x60 0 0 (by decide) (by decide) (by decide) (by decide) (by decide)
      (fun _ => rfl) (fun _ => rfl) (fun _ => rfl) (fun _ => rfl) (fun _ => rfl)).imp
      (fun _ hm => hm.1),
    by decide⟩

/-- With the client bound, every cycle of the deferred handler ends in the
call of `adv7533_enable_interrupts` with the mask of the feature flags,
followed at most by `adv7533_edid_read_init`. -/
theorem adv7533_intr_work_rearm {σ : Type} (i2c : I2cAdapter σ) (p : adv7533)
    (g : Indeterminate) (w : World σ) (hc : w.client = true) :
    ∃ (wa : World σ) (c : Int), (adv7533_intr_work i2c p g w).2 =
      if c ≠ 0 then
        (adv7533_edid_read_init i2c
          (adv7533_enable_interrupts i2c (cfg_interrupts p) g.reg_val wa).2).2
      else (adv7533_enable_interrupts i2c (cfg_interrupts p) g.reg_val wa).2 := by
  have a1 := adv7533_read_into_step i2c I2C_ADDR_MAIN 0x96 [0xFF] 1 w hc
  have c1 := a1.client hc
  have a2 := adv7533_read_into_step i2c I2C_ADDR_MAIN 0x97 [0xFF] 1 _ c1
  have c2 := a2.client c1
  simp only [adv7533_intr_work, adv7533_handle_hpd_intr_not_err, Bool.false_eq_true, if_false]
  generalize adv7533_read_into i2c I2C_ADDR_MAIN 0x96 [0xFF] 1 w = r1 at *
  generalize adv7533_read_into i2c I2C_ADDR_MAIN 0x97 [0xFF] 1 r1.2.2 = r2 at *
  by_cases hb : byte0 r1.2.1 &&& (BIT 6 ||| BIT 7) ≠ 0
  · simp only [if_pos hb]
    obtain ⟨ah, -⟩ := adv7533_handle_hpd_intr_step i2c g.hpd_state r2.2.2 c2
    obtain ⟨l, ev, -, -, hcfg, -⟩ := intr_work_dispatch_step i2c p (byte0 r1.2.1)
      (byte0 r2.2.1) g _ (ah.client c2)
    exact ⟨_, (adv7533_handle_hpd_intr i2c g.hpd_state r2.2.2).1,
      by simp only [intr_work_reset, hcfg]; rfl⟩
  · simp only [if_neg hb]
    obtain ⟨l, ev, -, -, hcfg, -⟩ := intr_work_dispatch_step i2c p (byte0 r1.2.1)
      (byte0 r2.2.1) g r2.2.2 c2
    exact ⟨_, 0, by simp only [intr_work_reset, hcfg]; rfl⟩

/-- C20: with the client bound, for every adapter, so for every pattern of
failed transfers, a cycle of the deferred handler puts on the bus, after
whatever its steps did (`pre`), the write of the first status value to 0x96,
the write of the second to 0x97 and the read-modify-write of 0x94 and 0x95
by `adv7533_enable_interrupts`, called with a mask that has the HPD and EDID
features, and the HDCP and CEC features when their flags are set; after
that come at most the two EDID-init writes. The status values are those of
the locals, 0xFF when the read of the register failed. -/
theorem adv7533_intr_work_never_aborts {σ : Type} (i2c : I2cAdapter σ) (p : adv7533)
    (g : Indeterminate) (w : World σ) (hc : w.client = true) :
    (∃ (s1 s2 i94 i95 : Nat) (pre post : List Xfer),
      xfers (adv7533_intr_work i2c p g w).2.log =
        xfers w.log ++ (pre ++ [Xfer.wr 0x39 0x96 s1, Xfer.wr 0x39 0x97 s2] ++
          mask_xfers i94 (i94 ||| 0xC0 ||| 0x04 ||| (if p.hdcp_enabled then 0x02 else 0))
            i95 (i95 ||| (if p.hdcp_enabled then 0xC0 else 0) |||
              (if p.cec_enabled then 0x3F else 0)) ++ post) ∧
      s1 = byte0 (adv7533_read_into i2c I2C_ADDR_MAIN 0x96 [0xFF] 1 w).2.1 ∧
      (post = [] ∨ post = edid_init_xfers)) ∧
    (∃ (wa : World σ) (c : Int), (adv7533_intr_work i2c p g w).2 =
      if c ≠ 0 then
        (adv7533_edid_read_init i2c
          (adv7533_enable_interrupts i2c (cfg_interrupts p) g.reg_val wa).2).2
      else (adv7533_enable_interrupts i2c (cfg_interrupts p) g.reg_val wa).2) ∧
    cfg_interrupts p &&& CFG_HPD_INTERRUPTS ≠ 0 ∧
    cfg_interrupts p &&& CFG_EDID_INTERRUPTS ≠ 0 ∧
    (p.hdcp_enabled = true → cfg_interrupts p &&& CFG_HDCP_INTERRUPTS ≠ 0) ∧
    (p.cec_enabled = true → cfg_interrupts p &&& CFG_CEC_INTERRUPTS ≠ 0) := by
  refine ⟨?_, adv7533_intr_work_rearm i2c p g w hc, ?_, ?_, ?_, ?_⟩
  · obtain ⟨s1, s2, hpd, i94, i95, conn, mid, ev, w1, wh, wa, wb, -, -, -, -, e1, -, -,
      -, -, -, -, -, stp⟩ := adv7533_intr_work_step i2c p g w hc
    have hx := stp.2.1
    rw [en94_cfg, en95_cfg] at hx
    refine ⟨s1, s2, i94, i95, [Xfer.rd 0x39 0x96 1, Xfer.rd 0x39 0x97 1] ++ mid,
      if conn ≠ 0 then edid_init_xfers else [], hx, e1, ?_⟩
    split_ifs
    · exact Or.inr rfl
    · exact Or.inl rfl
  · cases h1 : p.hdcp_enabled <;> cases h2 : p.cec_enabled <;>
      simp +decide [cfg_interrupts, h1, h2]
  · cases h1 : p.hdcp_enabled <;> cases h2 : p.cec_enabled <;>
      simp +decide [cfg_interrupts, h1, h2]
  · intro h1
    cases h2 : p.cec_enabled <;> simp +decide [cfg_interrupts, h1, h2]
  · intro h2
    cases h1 : p.hdcp_enabled <;> simp +decide [cfg_interrupts, h1, h2]

/-- Witness for C20: a bus on which every transfer fails. All eleven
transactions of the cycle are given up after three attempts, and the cycle
still issues the write-backs of 0x96 and 0x97 and the reads and the write of
the re-arm. -/
theorem adv7533_intr_work_never_aborts_witness :
    world0.client = true ∧
    (∃ (s1 s2 i94 i95 : Nat) (pre post : List Xfer),
      xfers (adv7533_intr_work (dies_after 0) pdata0 g0 world0).2.log =
        xfers world0.log ++ (pre ++ [Xfer.wr 0x39 0x96 s1, Xfer.wr 0x39 0x97 s2] ++
          mask_xfers i94 (i94 ||| 0xC0 ||| 0x04 ||| (if pdata0.hdcp_enabled then 0x02 else 0))
            i95 (i95 ||| (if pdata0.hdcp_enabled then 0xC0 else 0) |||
              (if pdata0.cec_enabled then 0x3F else 0)) ++ post) ∧
      s1 = byte0 (adv7533_read_into (dies_after 0) I2C_ADDR_MAIN 0x96 [0xFF] 1 world0).2.1 ∧
      (post = [] ∨ post = edid_init_xfers)) ∧
    xfers (adv7533_intr_work (dies_after 0) pdata0 g0 world0).2.log =
      [Xfer.rd 0x39 0x96 1, Xfer.rd 0x39 0x97 1, Xfer.rd 0x39 0x42 1, Xfer.rd 0x39 0x43 1,
       Xfer.rd 0 0 128, Xfer.rd 0 128 128, Xfer.wr 0x39 0x96 0xFF, Xfer.wr 0x39 0x97 0xFF,
       Xfer.rd 0x39 0x94 1, Xfer.wr 0x39 0x94 0xC4, Xfer.rd 0x39 0x95 1] ∧
    (adv7533_intr_work (dies_after 0) pdata0 g0 world0).2.log.all Txn.failed = true :=
  ⟨rfl, (adv7533_intr_work_never_aborts (dies_after 0) pdata0 g0 world0 rfl).1,
    by decide, by decide⟩

/-! ## Connect notification -/

theorem Notes.nil {σ : Type} (w : World σ) : Notes w w [] := by
  simp [Notes]

theorem Step.length {σ : Type} {w w1 : World σ} {l : List Xfer}
    {e : List msm_dba_callback_event} (h : Step w w1 l e) :
    w1.log.length = w.log.length + l.length := by
  have := congrArg List.length h.2.1
  simpa [xfers] using this

theorem and_bit_ne_zero (h i : Nat) : h &&& BIT i ≠ 0 ↔ h.testBit i = true := by
  rw [BIT, Nat.one_shiftLeft, Nat.and_two_pow]
  cases h.testBit i <;> simp

theorem and_bits56_eq_zero (h : Nat) :
    h &&& (BIT 5 ||| BIT 6) = 0 ↔ h.testBit 5 = false ∧ h.testBit 6 = false := by
  rw [Nat.and_or_distrib_left, BIT, BIT, Nat.one_shiftLeft, Nat.one_shiftLeft,
    Nat.and_two_pow, Nat.and_two_pow]
  cases h.testBit 5 <;> cases h.testBit 6 <;> decide

/-- The branch taken, in terms of bits 5 and 6 of the HPD state. -/
theorem hot_plug_state_eq (h : Nat) :
    hot_plug_state h =
      if h.testBit 5 = true ∧ h.testBit 6 = true then HotPlugState.connected
      else if h.testBit 5 = false ∧ h.testBit 6 = false then HotPlugState.disconnected
      else HotPlugState.intermediate := by
  have e5 := and_bit_ne_zero h 5
  have e6 := and_bit_ne_zero h 6
  have e0 := and_bits56_eq_zero h
  simp only [hot_plug_state, bne_iff_ne, Bool.and_eq_true, beq_iff_eq, e5, e6, e0]

theorem hpd_events_state (h : Nat) :
    hpd_events h =
      if hot_plug_state h = HotPlugState.disconnected then
        [msm_dba_callback_event.MSM_DBA_CB_HPD_DISCONNECT]
      else [] := by
  simp only [hpd_events, hot_plug_state]
  split_ifs <;> simp_all

theorem hpd_result_state (h : Nat) :
    (if (h &&& BIT 5 != 0) && (h &&& BIT 6 != 0) then (1 : Int) else 0) =
      if hot_plug_state h = HotPlugState.connected then 1 else 0 := by
  simp only [hot_plug_state]
  split_ifs <;> simp_all

/-- C21: with the client bound, for every adapter, let `h` be the value the
local `hpd_state` holds after the read of HPD state register 0x42 (the byte
the register delivers when the adapter is fault-free). The handler takes
exactly one of three branches: connected iff bits 5 and 6 of `h` are both
set, disconnected iff both are clear, intermediate iff exactly one is set.
It returns 1 iff the branch is connected and 0 otherwise, sends one
Disconnect event iff the branch is disconnected and no other event, and its
only bus transfer is the one-byte read of 0x42. -/
theorem adv7533_handle_hpd_intr_classify {σ : Type} (i2c : I2cAdapter σ) (h0 : Nat)
    (w : World σ) (hc : w.client = true) (h : Nat)
    (hh : h = byte0 (adv7533_read_into i2c I2C_ADDR_MAIN 0x42 [u8 h0] 1 w).2.1) :
    (hot_plug_state h = HotPlugState.connected ↔ h.testBit 5 = true ∧ h.testBit 6 = true) ∧
    (hot_plug_state h = HotPlugState.disconnected ↔
      h.testBit 5 = false ∧ h.testBit 6 = false) ∧
    (hot_plug_state h = HotPlugState.intermediate ↔ h.testBit 5 ≠ h.testBit 6) ∧
    (adv7533_handle_hpd_intr i2c h0 w).1 =
      (if hot_plug_state h = HotPlugState.connected then 1 else 0) ∧
    (adv7533_handle_hpd_intr i2c h0 w).2.events = w.events ++
      (if hot_plug_state h = HotPlugState.disconnected then
        [msm_dba_callback_event.MSM_DBA_CB_HPD_DISCONNECT] else []) ∧
    xfers (adv7533_handle_hpd_intr i2c h0 w).2.log = xfers w.log ++ [Xfer.rd 0x39 0x42 1] ∧
    (FaultFree i2c → ∀ v, v < 256 → (∀ s, (i2c s (Xfer.rd 0x39 0x42 1)).2.2 = [v]) →
      h = v) := by
  obtain ⟨st, hv⟩ := adv7533_handle_hpd_intr_step i2c h0 w hc
  rw [← hh] at st hv
  rw [hpd_events_state] at st
  rw [hpd_result_state] at hv
  refine ⟨?_, ?_, ?_, hv, st.2.2, st.2.1, ?_⟩
  · rw [hot_plug_state_eq]
    cases h.testBit 5 <;> cases h.testBit 6 <;> simp
  · rw [hot_plug_state_eq]
    cases h.testBit 5 <;> cases h.testBit 6 <;> simp
  · rw [hot_plug_state_eq]
    cases h.testBit 5 <;> cases h.testBit 6 <;> simp
  · intro hff v hv256 hd
    rw [hh]
    exact adv7533_read_into_value i2c hff I2C_ADDR_MAIN 0x42 (u8 h0) v w hc (by decide)
      (by decide) hv256 hd

/-- Witness for C21: register 0x42 reading 0x60 (connected: result 1, no
event), 0x00 (disconnected: result 0, one Disconnect event) and 0x40
(intermediate: result 0, no event). -/
theorem adv7533_handle_hpd_intr_classify_witness :
    world0.client = true ∧
    (adv7533_handle_hpd_intr (const_chip regs_conn) 0 world0).1 =
      (if hot_plug_state 0x60 = HotPlugState.connected then 1 else 0) ∧
    (adv7533_handle_hpd_intr (const_chip regs_unplugged) 0 world0).2.events = world0.events ++
      (if hot_plug_state 0x00 = HotPlugState.disconnected then
        [msm_dba_callback_event.MSM_DBA_CB_HPD_DISCONNECT] else []) ∧
    xfers (adv7533_handle_hpd_intr (const_chip regs_half) 0 world0).2.log =
      xfers world0.log ++ [Xfer.rd 0x39 0x42 1] ∧
    (adv7533_handle_hpd_intr (const_chip regs_conn) 0 world0).1 = 1 ∧
    (adv7533_handle_hpd_intr (const_chip regs_conn) 0 world0).2.events = [] ∧
    (adv7533_handle_hpd_intr (const_chip regs_unplugged) 0 world0).1 = 0 ∧
    (adv7533_handle_hpd_intr (const_chip regs_unplugged) 0 world0).2.events =
      [msm_dba_callback_event.MSM_DBA_CB_HPD_DISCONNECT] ∧
    hot_plug_state 0x40 = HotPlugState.intermediate ∧
    (adv7533_handle_hpd_intr (const_chip regs_half) 0 world0).1 = 0 ∧
    (adv7533_handle_hpd_intr (const_chip regs_half) 0 world0).2.events = [] :=
  ⟨rfl,
    (adv7533_handle_hpd_intr_classify (const_chip regs_conn) 0 world0 rfl 0x60
      (by decide)).2.2.2.1,
    (adv7533_handle_hpd_intr_classify (const_chip regs_unplugged) 0 world0 rfl 0x00
      (by decide)).2.2.2.2.1,
    (adv7533_handle_hpd_intr_classify (const_chip regs_half) 0 world0 rfl 0x40
      (by decide)).2.2.2.2.2.1,
    by decide, by decide, by decide, by decide, by decide, by decide, by decide⟩

/-! ## CEC send: message indexing -/

/-- For an accepted size, the registers `adv7533_cec_prepare_msg` writes
before the length register are 0x70 + k for the indices k it reads, each
with the byte `msg[k]`. -/
theorem cec_msg_writes_reads (m : List Nat) (size : Nat) (h1 : 1 ≤ size)
    (h16 : size ≤ CEC_MSG_SIZE) :
    cec_msg_writes m size =
      (cec_msg_reads size).map (fun k => Xfer.wr 0x3C (0x70 + k) (u8 (m.getD k 0))) ++
        [Xfer.wr 0x3C 0x80 size] := by
  have hsz : u32 size = size := by
    unfold u32; unfold CEC_MSG_SIZE MAX_OPERAND_SIZE at h16; omega
  have hn : min ((size : Int) - 2).toNat MAX_OPERAND_SIZE = size - 2 := by
    unfold CEC_MSG_SIZE MAX_OPERAND_SIZE at *; omega
  simp only [cec_msg_writes, cec_msg_reads, hsz, hn, List.map_append, List.map_map,
    List.map_cons, List.map_nil]
  congr 2
  apply List.map_congr_left
  intro i _
  simp only [Function.comp]
  congr 1
  omega

/-- From size 2 on, every index read lies inside the message. -/
theorem cec_msg_reads_in_range (size : Nat) (h2 : 2 ≤ size) (h16 : size ≤ CEC_MSG_SIZE) :
    ∀ k ∈ cec_msg_reads size, k < size := by
  have hsz : u32 size = size := by
    unfold u32; unfold CEC_MSG_SIZE MAX_OPERAND_SIZE at h16; omega
  have hn : min ((size : Int) - 2).toNat MAX_OPERAND_SIZE = size - 2 := by
    unfold CEC_MSG_SIZE MAX_OPERAND_SIZE at *; omega
  intro k hk
  simp only [cec_msg_reads, hsz, hn, List.mem_append, List.mem_cons, List.mem_singleton,
    List.not_mem_nil, or_false, List.mem_map, List.mem_range] at hk
  rcases hk with (h | h) | ⟨i, hi, h⟩ <;> omega

/-- C22: the size 1, which the size check accepts, on a message of one byte
(a polling message, header 0x40) and a healthy bus: the function reads
`msg[0]` and `msg[1]`, so an index that is not below the size, and writes
register 0x71, which is above 0x70 + size - 1, before the length register
0x80. -/
theorem adv7533_cec_prepare_msg_size_one :
    (1 ≤ 1 ∧ 1 ≤ CEC_MSG_SIZE) ∧
    cec_msg_reads 1 = [0, 1] ∧
    ¬ (∀ k ∈ cec_msg_reads 1, k < 1) ∧
    xfers (adv7533_cec_prepare_msg (flaky 0) (some [0x40]) 1 world0).2.log =
      [Xfer.wr 0x3C 0x70 0x40, Xfer.wr 0x3C 0x71 0x00, Xfer.wr 0x3C 0x80 1] ∧
    xfers (adv7533_cec_prepare_msg (flaky 0) (some [0x40]) 1 world0).2.log =
      (cec_msg_reads 1).map (fun k => Xfer.wr 0x3C (0x70 + k) (u8 (([0x40] : List Nat).getD k 0)))
        ++ [Xfer.wr 0x3C 0x80 1] := by
  decide

/-! ## CEC receive: from the interrupt to the client -/

/-- C23, counterexample: on a healthy bus slot 0 is reported ready and the
timestamp register reads 0. The handler stores the message with
`pending = true` and timestamp 0, and the read that follows returns the empty
result: `-EINVAL` with size 0. -/
theorem adv7533_cec_stored_retrievable_counterexample :
    ((adv7533_handle_cec_intr (const_chip regs_cec_ts0) pdata0 0x01 g0 world0).1.cec_msg
      0).pending = true ∧
    (adv7533_hdmi_cec_read
      (some (adv7533_handle_cec_intr (const_chip regs_cec_ts0) pdata0 0x01 g0 world0).1) 16
      (List.replicate 16 0xFF)
      (adv7533_handle_cec_intr (const_chip regs_cec_ts0) pdata0 0x01 g0 world0).2).1 = -22 ∧
    (adv7533_hdmi_cec_read
      (some (adv7533_handle_cec_intr (const_chip regs_cec_ts0) pdata0 0x01 g0 world0).1) 16
      (List.replicate 16 0xFF)
      (adv7533_handle_cec_intr (const_chip regs_cec_ts0) pdata0 0x01 g0 world0).2).2.2.1
      = 0 := by
  decide

/-- A slot that is ready makes `adv7533_hdmi_cec_read` return the message of
the first ready slot, which is at or below it. -/
theorem adv7533_hdmi_cec_read_ready {σ : Type} (p : adv7533) (i : Fin 3)
    (hr : cec_slot_ready p i) (size : Nat) (buf : List Nat) (w : World σ) :
    (adv7533_hdmi_cec_read (some p) size buf w).1 = 0 ∧
    (adv7533_hdmi_cec_read (some p) size buf w).2.2.1 = CEC_MSG_SIZE ∧
    ∃ j : Fin 3, j ≤ i ∧ cec_slot_ready p j ∧
      (adv7533_hdmi_cec_read (some p) size buf w).2.2.2.1 =
        memcpy buf (p.cec_msg j).buf CEC_MSG_SIZE := by
  cases h : cec_read_slot p with
  | none =>
    have := find3_none _ h i
    simp only [cec_slot_ready] at hr
    simp [hr.1, hr.2] at this
  | some j =>
    obtain ⟨hj, hmin⟩ := cec_read_slot_some p j h
    refine ⟨by simp [adv7533_hdmi_cec_read, h], by simp [adv7533_hdmi_cec_read, h], j, ?_, hj,
      by simp [adv7533_hdmi_cec_read, h]⟩
    by_contra hlt
    exact hmin i (lt_of_not_le hlt) hr

/-- C23, amended: in a CEC receive interrupt on a fault-free adapter where
the receive-ready register reads `ready` and the timestamp register reads
`ts`: a slot `i` whose ready bit is set is stored with `pending = true`; if
the two timestamp bits of that slot are not both zero, the read that follows
returns 0 with size 16 and copies the message of the first slot, at or below
`i`, that is pending with a non-zero timestamp. If no slot was pending with
a non-zero timestamp before and the timestamp bits of every ready slot are
zero, the read that follows returns the empty result, `-EINVAL` with size 0,
although the ready slots are pending. -/
theorem adv7533_cec_stored_retrievable {σ : Type} (i2c : I2cAdapter σ) (hff : FaultFree i2c)
    (p : adv7533) (st : Nat) (g : Indeterminate) (w : World σ) (hc : w.client = true)
    (hst : st &&& 0x07 ≠ 0) (ready ts : Nat) (hrb : ready < 256) (htb : ts < 256)
    (hr : ∀ s, (i2c s (Xfer.rd 0x3C 0xB9 1)).2.2 = [ready])
    (ht : ∀ s, (i2c s (Xfer.rd 0x3C 0x96 1)).2.2 = [ts]) (size : Nat) (buf : List Nat) :
    (∀ i : Fin 3, ready &&& BIT i.val ≠ 0 →
      ((adv7533_handle_cec_intr i2c p st g w).1.cec_msg i).pending = true) ∧
    (∀ i : Fin 3, ready &&& BIT i.val ≠ 0 → ts &&& cec_slot_mask i ≠ 0 →
      (adv7533_hdmi_cec_read (some (adv7533_handle_cec_intr i2c p st g w).1) size buf
        (adv7533_handle_cec_intr i2c p st g w).2).1 = 0 ∧
      (adv7533_hdmi_cec_read (some (adv7533_handle_cec_intr i2c p st g w).1) size buf
        (adv7533_handle_cec_intr i2c p st g w).2).2.2.1 = 16 ∧
      ∃ j : Fin 3, j ≤ i ∧ cec_slot_ready (adv7533_handle_cec_intr i2c p st g w).1 j ∧
        (adv7533_hdmi_cec_read (some (adv7533_handle_cec_intr i2c p st g w).1) size buf
          (adv7533_handle_cec_intr i2c p st g w).2).2.2.2.1 =
          memcpy buf ((adv7533_handle_cec_intr i2c p st g w).1.cec_msg j).buf 16) ∧
    ((∀ i : Fin 3, ¬ cec_slot_ready p i) →
      (∀ i : Fin 3, ready &&& BIT i.val ≠ 0 → ts &&& cec_slot_mask i = 0) →
      (adv7533_hdmi_cec_read (some (adv7533_handle_cec_intr i2c p st g w).1) size buf
        (adv7533_handle_cec_intr i2c p st g w).2).1 = - EINVAL ∧
      (adv7533_hdmi_cec_read (some (adv7533_handle_cec_intr i2c p st g w).1) size buf
        (adv7533_handle_cec_intr i2c p st g w).2).2.2.1 = 0) := by
  obtain ⟨clr, rdy, tsv, wa, wb, ws, ca, cb, cs, -, e1, e2, -, -, hslots⟩ :=
    adv7533_handle_cec_intr_step i2c p st g w hc hst
  rw [adv7533_read_into_value i2c hff I2C_ADDR_CEC_DSI 0xB9 _ ready wa ca (by decide)
    (by decide) hrb hr] at e1
  rw [adv7533_read_into_value i2c hff I2C_ADDR_CEC_DSI 0x96 _ ts wb cb (by decide)
    (by decide) htb ht] at e2
  subst e1 e2
  have hu : ∀ i : Fin 3, u8 (tsv &&& cec_slot_mask i) = tsv &&& cec_slot_mask i := fun i =>
    Nat.mod_eq_of_lt (and_byte _ _ htb)
  refine ⟨?_, ?_, ?_⟩
  · intro i hi
    rw [hslots i, if_pos hi]
  · intro i hi hts
    have hrdy : cec_slot_ready (adv7533_handle_cec_intr i2c p st g w).1 i := by
      simp only [cec_slot_ready]
      rw [hslots i, if_pos hi]
      exact ⟨rfl, by simpa only [hu i] using hts⟩
    exact adv7533_hdmi_cec_read_ready _ i hrdy size buf _
  · intro hnone hzero
    have hn : ∀ i : Fin 3, ¬ cec_slot_ready (adv7533_handle_cec_intr i2c p st g w).1 i := by
      intro i hri
      by_cases hi : rdy &&& BIT i.val ≠ 0
      · simp only [cec_slot_ready] at hri
        rw [hslots i, if_pos hi] at hri
        exact hri.2 (by simpa only [hu i] using hzero i hi)
      · simp only [cec_slot_ready] at hri
        rw [hslots i, if_neg hi] at hri
        exact hnone i hri
    simp [adv7533_hdmi_cec_read, cec_read_slot_none _ hn]

/-- Witness for C23: slot 1 alone ready with timestamp register 0x0C: the
read that follows returns 0, size 16 and the bytes 1..16 of slot 1. -/
theorem adv7533_cec_stored_retrievable_witness :
    FaultFree (const_chip regs_cec) ∧ world0.client = true ∧ (0x02 : Nat) &&& 0x07 ≠ 0 ∧
    (2 : Nat) &&& BIT (1 : Fin 3).val ≠ 0 ∧ (0x0C : Nat) &&& cec_slot_mask 1 ≠ 0 ∧
    ((adv7533_hdmi_cec_read
        (some (adv7533_handle_cec_intr (const_chip regs_cec) pdata0 0x02 g0 world0).1) 0
        (List.replicate 16 0xFF)
        (adv7533_handle_cec_intr (const_chip regs_cec) pdata0 0x02 g0 world0).2).1 = 0 ∧
      (adv7533_hdmi_cec_read
        (some (adv7533_handle_cec_intr (const_chip regs_cec) pdata0 0x02 g0 world0).1) 0
        (List.replicate 16 0xFF)
        (adv7533_handle_cec_intr (const_chip regs_cec) pdata0 0x02 g0 world0).2).2.2.1 = 16 ∧
      ∃ j : Fin 3, j ≤ 1 ∧
        cec_slot_ready (adv7533_handle_cec_intr (const_chip regs_cec) pdata0 0x02 g0 world0).1
          j ∧
        (adv7533_hdmi_cec_read
          (some (adv7533_handle_cec_intr (const_chip regs_cec) pdata0 0x02 g0 world0).1) 0
          (List.replicate 16 0xFF)
          (adv7533_handle_cec_intr (const_chip regs_cec) pdata0 0x02 g0 world0).2).2.2.2.1 =
          memcpy (List.replicate 16 0xFF)
            ((adv7533_handle_cec_intr (const_chip regs_cec) pdata0 0x02 g0 world0).1.cec_msg
              j).buf 16) ∧
    (adv7533_hdmi_cec_read
      (some (adv7533_handle_cec_intr (const_chip regs_cec) pdata0 0x02 g0 world0).1) 0
      (List.replicate 16 0xFF)
      (adv7533_handle_cec_intr (const_chip regs_cec) pdata0 0x02 g0 world0).2).2.2.2.1 =
      [1, 2, 3, 4, 5, 6, 7, 8, 9, 10, 11, 12, 13, 14, 15, 16] :=
  ⟨const_chip_fault_free _, rfl, by decide, by decide, by decide,
    (adv7533_cec_stored_retrievable (const_chip regs_cec) (const_chip_fault_free _) pdata0 0x02
      g0 world0 rfl (by decide) 2 0x0C (by decide) (by decide) (fun _ => rfl) (fun _ => rfl) 0
      (List.replicate 16 0xFF)).2.1 1 (by decide) (by decide),
    by decide⟩

/-! ## Return values of the client operations -/

/-- C24: for every client handle, every configuration, every adapter and
every world, `adv7533_video_on`, `adv7533_hdcp_enable` and
`adv7533_configure_audio` return `-EINVAL`: `ret` is initialised to `-EINVAL`
and never assigned. On a healthy bus, with a valid handle and a valid
configuration, every transaction of the three operations succeeds and the
result is still `-EINVAL` (-22), not 0. -/
theorem adv7533_client_ops_return {σ : Type} (i2c : I2cAdapter σ) (client : Option adv7533)
    (on_ : Bool) (vcfg : Option msm_dba_video_cfg) (hdcp_on enc_on : Bool) (reg_val0 : Nat)
    (g : Indeterminate) (acfg : Option msm_dba_audio_cfg) (w : World σ) :
    (adv7533_video_on i2c client on_ vcfg w).1 = - EINVAL ∧
    (adv7533_hdcp_enable i2c client hdcp_on enc_on reg_val0 g w).1 = - EINVAL ∧
    (adv7533_configure_audio i2c client acfg w).1 = - EINVAL ∧
    ((adv7533_video_on (flaky 0) (some pdata0) true (some cfg_vga) world0).1 = -22 ∧
      (adv7533_video_on (flaky 0) (some pdata0) true (some cfg_vga) world0).2.log.all
        Txn.succeeded = true ∧
      (adv7533_video_on (flaky 0) (some pdata0) true (some cfg_vga) world0).2.log ≠ []) ∧
    ((adv7533_hdcp_enable (flaky 0) (some pdata0) true true 0 g0 world0).1 = -22 ∧
      (adv7533_hdcp_enable (flaky 0) (some pdata0) true true 0 g0 world0).2.2.log.all
        Txn.succeeded = true) ∧
    ((adv7533_configure_audio (flaky 0) (some pdata0) (some audio_48k) world0).1 = -22 ∧
      (adv7533_configure_audio (flaky 0) (some pdata0) (some audio_48k) world0).2.log.all
        Txn.succeeded = true ∧
      (adv7533_configure_audio (flaky 0) (some pdata0) (some audio_48k) world0).2.log.length
        = 15) := by
  refine ⟨?_, ?_, ?_, by decide, by decide, by decide⟩
  · cases client <;> cases vcfg <;> rfl
  · cases client <;> rfl
  · cases client <;> cases acfg <;> rfl

end Adv7533
